import Mathlib

/-!
# The horst record decoder (`package horst`, `horst.go`)

A shallow embedding of `ParseHorstFields` and `toBool`, together with models of
the Go standard-library routines the decoder calls (`strconv.Atoi`,
`encoding/hex.DecodeString`, `net.ParseMAC`, `time.Parse` at the constant
`timeLayout`, `net/netip.ParseAddr`).

Conventions of the embedding:

* a Go `string` is its sequence of bytes, `List Nat` (each byte below 256); the
  slice expression `r[1:]` removes the first byte of `r`, which is the whole first
  character only when that character is encoded in one byte;
* a Go call returning `(value, error)` is a pair `(value, Option Cause)`;
* the caller's slice `record []string` is mutated in place by the decoder, so
  the outcome of a call carries the final contents of that slice;
* a run-time panic (slice or index out of range) is an outcome of its own;
* `int` is 64 bits wide (`intSize`);
* the library routines follow the current Go standard library (the go1.27 line):
  `time.Parse` checks the range of the zone offset, and `net.ParseMAC` reads the
  form without separators besides the colon, dash and dot forms.
-/

namespace Horst

/-! ## Strings and bytes -/

/-- A Go string: an immutable sequence of bytes. -/
abbrev GoString := List Nat

/-- UTF-8 encoding of one code point, the way a Go string literal is stored. -/
def utf8Bytes (c : Char) : List Nat :=
  let n := c.toNat
  if n < 0x80 then [n]
  else if n < 0x800 then [0xC0 + n / 64, 0x80 + n % 64]
  else if n < 0x10000 then [0xE0 + n / 4096, 0x80 + n / 64 % 64, 0x80 + n % 64]
  else [0xF0 + n / 262144, 0x80 + n / 4096 % 64, 0x80 + n / 64 % 64, 0x80 + n % 64]

/-- The bytes of a Go string literal. -/
def str (s : String) : GoString :=
  (s.toList.map utf8Bytes).flatten

/-- Width of Go's `int` on the modelled platform (`strconv.IntSize`). -/
def intSize : Nat := 64

/-- Conversion of an integer to the two's-complement `int` of `intSize` bits. -/
def wrapInt (x : Int) : Int :=
  (x + 2 ^ (intSize - 1)) % 2 ^ intSize - 2 ^ (intSize - 1)

/-- Conversion of an integer to `int64`. -/
def wrapInt64 (x : Int) : Int :=
  (x + 2 ^ 63) % 2 ^ 64 - 2 ^ 63

/-! ## Errors -/

/-- The two sentinel errors of `strconv`: `ErrSyntax` and `ErrRange`. -/
inductive NumErr where
  | ErrSyntax
  | ErrRange
  deriving DecidableEq, Repr

/-- The error values produced by the library routines and by `toBool`; these are
the errors that `ParseHorstFields` wraps with `%w`. -/
inductive Cause where
  /-- `*strconv.NumError{Func, Num, Err}` -/
  | numError (Func : String) (Num : GoString) (Err : NumErr)
  /-- `hex.InvalidByteError(b)` -/
  | invalidByteError (b : Nat)
  /-- `hex.ErrLength` -/
  | errLength
  /-- `*net.AddrError{Err, Addr}` -/
  | addrError (Err : String) (Addr : GoString)
  /-- `*time.ParseError{Value, LayoutElem, ValueElem, Message}` (the layout is `timeLayout`) -/
  | parseError (Value : GoString) (LayoutElem : String) (ValueElem : GoString)
      (Message : GoString)
  /-- `netip.parseAddrError{in, msg, at}` -/
  | parseAddrError (inp : GoString) (msg : String) (rest : GoString)
  /-- An error made by `fmt.Errorf` from a format without verbs. -/
  | errorString (s : String)
  deriving DecidableEq, Repr

/-- The `%v` operand of the decoder's `fmt.Errorf` calls: a field text or an `int`. -/
inductive Arg where
  | text (s : GoString)
  | int (i : Int)
  deriving DecidableEq, Repr

/-- The error `fmt.Errorf(format, arg, err)` with `format` of the shape `"... %v %w"`:
its message is the format with `%v` replaced by `arg` and `%w` by the message of
`err`, and it wraps `err`. -/
structure WrapError where
  format : String
  arg : Arg
  err : Cause
  deriving DecidableEq, Repr

/-- The call `fmt.Errorf(format, arg, err)`. -/
def Errorf (format : String) (arg : Arg) (err : Cause) : WrapError :=
  { format := format, arg := arg, err := err }

/-- The literal text with which the message of a wrapped error begins: the format up
to its first verb. -/
def WrapError.lead (e : WrapError) : String :=
  String.mk (e.format.toList.takeWhile (fun c => c != '%'))

/-- The word between the first blank and the colon of the leading text: the field the
message names (`"parsing Signal: "` names `Signal`). -/
def WrapError.named (e : WrapError) : String :=
  String.mk (((e.format.toList.dropWhile (fun c => c != ' ')).drop 1).takeWhile
    (fun c => c != ':'))

/-! ## `strconv.Atoi` -/

namespace strconv

def fnAtoi : String := "Atoi"
def fnParseInt : String := "ParseInt"
def fnParseUint : String := "ParseUint"

def syntaxError (fn : String) (s : GoString) : Cause := .numError fn s .ErrSyntax

def rangeError (fn : String) (s : GoString) : Cause := .numError fn s .ErrRange

/-- `lower(c)`: the byte `c | ('x' - 'X')`. -/
def lower (c : Nat) : Nat := c ||| 32

/-- The digit loop of `ParseUint` for a base in `2..36` (no underscores, no base
prefix), over `uint64`: `n` is the value so far. -/
def parseUintLoop (s0 : GoString) (base cutoff maxVal : Nat) :
    GoString → Nat → Nat × Option Cause
  | [], n => (n, none)
  | c :: rest, n =>
    if 48 ≤ c ∧ c ≤ 57 then
      let d := c - 48
      if d ≥ base then (0, some (syntaxError fnParseUint s0))
      else if n ≥ cutoff then (maxVal, some (rangeError fnParseUint s0))
      else
        let n := (n * base) % 2 ^ 64
        let n1 := (n + d) % 2 ^ 64
        if n1 < n ∨ n1 > maxVal then (maxVal, some (rangeError fnParseUint s0))
        else parseUintLoop s0 base cutoff maxVal rest n1
    else if 97 ≤ lower c ∧ lower c ≤ 122 then
      let d := (lower c - 97 + 10) % 256
      if d ≥ base then (0, some (syntaxError fnParseUint s0))
      else if n ≥ cutoff then (maxVal, some (rangeError fnParseUint s0))
      else
        let n := (n * base) % 2 ^ 64
        let n1 := (n + d) % 2 ^ 64
        if n1 < n ∨ n1 > maxVal then (maxVal, some (rangeError fnParseUint s0))
        else parseUintLoop s0 base cutoff maxVal rest n1
    else (0, some (syntaxError fnParseUint s0))

/-- `strconv.ParseUint(s, 10, 0)`, the call made by `ParseInt(s, 10, 0)`. -/
def ParseUint (s : GoString) : Nat × Option Cause :=
  if s = [] then (0, some (syntaxError fnParseUint s))
  else
    let base := 10
    let bitSize := intSize
    let maxUint64 := 2 ^ 64 - 1
    let cutoff := maxUint64 / base + 1
    let maxVal := 2 ^ bitSize - 1
    parseUintLoop s base cutoff maxVal s 0

/-- `strconv.ParseInt(s, 10, 0)`, the slow path of `Atoi`. -/
def ParseInt (s : GoString) : Int × Option Cause :=
  if s = [] then (0, some (syntaxError fnParseInt s))
  else
    let s0 := s
    let neg := decide (s.headD 0 = 45)
    let s := if s.headD 0 = 43 ∨ s.headD 0 = 45 then s.drop 1 else s
    match ParseUint s with
    | (_, some (.numError _ _ .ErrSyntax)) => (0, some (.numError fnParseInt s0 .ErrSyntax))
    | (un, _) =>
      let cutoff : Nat := 2 ^ (intSize - 1)
      if !neg ∧ un ≥ cutoff then (wrapInt64 (cutoff - 1 : Nat), some (rangeError fnParseInt s0))
      else if neg ∧ un > cutoff then (wrapInt64 (-(cutoff : Int)), some (rangeError fnParseInt s0))
      else
        let n := wrapInt64 un
        (if neg then wrapInt64 (-n) else n, none)

/-- The digit loop of the fast path of `Atoi`: `n = n*10 + int(ch - '0')`. -/
def atoiLoop (s0 : GoString) : GoString → Int → Int × Option Cause
  | [], n => (n, none)
  | ch :: rest, n =>
    -- `ch -= '0'` on a byte: it wraps around below `'0'`
    let ch := if ch < 48 then ch + 256 - 48 else ch - 48
    if ch > 9 then (0, some (syntaxError fnAtoi s0))
    else atoiLoop s0 rest (wrapInt (n * 10 + ch))

/-- `strconv.Atoi(s)`. -/
def Atoi (s : GoString) : Int × Option Cause :=
  let sLen := s.length
  if (intSize = 32 ∧ 0 < sLen ∧ sLen < 10) ∨ (intSize = 64 ∧ 0 < sLen ∧ sLen < 19) then
    let s0 := s
    let signed := s.headD 0 = 45 ∨ s.headD 0 = 43
    let s := if signed then s.drop 1 else s
    if signed ∧ s.length < 1 then (0, some (syntaxError fnAtoi s0))
    else
      match atoiLoop s0 s 0 with
      | (_, some e) => (0, some e)
      | (n, none) => (if s0.headD 0 = 45 then wrapInt (-n) else n, none)
  else
    match ParseInt s with
    | (i64, some (.numError _ num e)) => (wrapInt i64, some (.numError fnAtoi num e))
    | (i64, err) => (wrapInt i64, err)

end strconv

/-! ## `encoding/hex.DecodeString` -/

namespace hex

/-- The table `reverseHexTable`: the value of a hexadecimal digit, `0xff` for any
other byte. -/
def reverseHexTable (c : Nat) : Nat :=
  if 48 ≤ c ∧ c ≤ 57 then c - 48
  else if 97 ≤ c ∧ c ≤ 102 then c - 97 + 10
  else if 65 ≤ c ∧ c ≤ 70 then c - 65 + 10
  else 0xff

/-- `hex.Decode`: the bytes decoded before the first error, and that error. Each
pair `p q` gives the byte `(a << 4) | b`; a bad byte is reported as soon as its
pair is reached, an odd length after all the pairs. -/
def Decode : GoString → List Nat × Option Cause
  | p :: q :: rest =>
    let a := reverseHexTable p
    let b := reverseHexTable q
    if a > 0x0f then ([], some (.invalidByteError p))
    else if b > 0x0f then ([], some (.invalidByteError q))
    else
      match Decode rest with
      | (dst, err) => (((a <<< 4) ||| b) % 256 :: dst, err)
  | [p] =>
    if reverseHexTable p > 0x0f then ([], some (.invalidByteError p))
    else ([], some .errLength)
  | [] => ([], none)

/-- `hex.DecodeString(s)`: `dst[:n], err` of `Decode`. -/
def DecodeString (s : GoString) : List Nat × Option Cause :=
  Decode s

end hex

/-! ## `net.ParseMAC` -/

namespace net

/-- A `net.HardwareAddr`: a byte slice (`nil` is the empty list). -/
abbrev HardwareAddr := List Nat

/-- The bound `big = 0xFFFFFF` of `xtoi`. -/
def big : Nat := 0xFFFFFF

/-- The loop of `xtoi`: `n` is the value so far, `i` the number of bytes consumed. -/
def xtoiLoop : GoString → Nat → Nat → Nat × Nat × Bool
  | [], n, i => if i = 0 then (0, i, false) else (n, i, true)
  | c :: rest, n, i =>
    if 48 ≤ c ∧ c ≤ 57 then
      let n := n * 16 + (c - 48)
      if n ≥ big then (0, i, false) else xtoiLoop rest n (i + 1)
    else if 97 ≤ c ∧ c ≤ 102 then
      let n := n * 16 + (c - 97) + 10
      if n ≥ big then (0, i, false) else xtoiLoop rest n (i + 1)
    else if 65 ≤ c ∧ c ≤ 70 then
      let n := n * 16 + (c - 65) + 10
      if n ≥ big then (0, i, false) else xtoiLoop rest n (i + 1)
    else if i = 0 then (0, i, false) else (n, i, true)

/-- `xtoi(s)`: hexadecimal to integer; number, bytes consumed, success. -/
def xtoi (s : GoString) : Nat × Nat × Bool :=
  xtoiLoop s 0 0

/-- `xtoi2(s, e)`: the next two hex digits of `s` as a byte; when `s` is longer than
two bytes its third byte must be `e`. -/
def xtoi2 (s : GoString) (e : Nat) : Nat × Bool :=
  if s.length > 2 ∧ s.getD 2 0 ≠ e then (0, false)
  else
    match xtoi (s.take 2) with
    | (n, ei, ok) => (n % 256, ok && decide (ei = 2))

/-- The loop of the colon or dash form: `n` octets, each followed (but for the last)
by the separator `e`; `s` is `s[x:]`. -/
def macOctets (e : Nat) : Nat → GoString → Option (List Nat)
  | 0, _ => some []
  | n + 1, s =>
    match xtoi2 s e with
    | (_, false) => none
    | (b, true) =>
      match macOctets e n (s.drop 3) with
      | none => none
      | some hw => some (b :: hw)

/-- The loop of the dotted form: `k` groups of four hex digits, each followed (but for
the last) by the separator `e`; `s` is `s[x:]`. -/
def macGroups (e : Nat) : Nat → GoString → Option (List Nat)
  | 0, _ => some []
  | k + 1, s =>
    match xtoi2 (s.take 2) 0 with
    | (_, false) => none
    | (b0, true) =>
      match xtoi2 (s.drop 2) e with
      | (_, false) => none
      | (b1, true) =>
        match macGroups e k (s.drop 5) with
        | none => none
        | some hw => some (b0 :: b1 :: hw)

/-- The loop of the form without separators: `n` octets of two hexadecimal digits
each; `s` is `s[x:]`. -/
def macPlain : Nat → GoString → Option (List Nat)
  | 0, _ => some []
  | n + 1, s =>
    match xtoi2 (s.take 2) 0 with
    | (_, false) => none
    | (b, true) =>
      match macPlain n (s.drop 2) with
      | none => none
      | some hw => some (b :: hw)

/-- The error every failure of `ParseMAC` returns. -/
def macError (s : GoString) : HardwareAddr × Option Cause :=
  ([], some (.addrError "invalid MAC address" s))

/-- `net.ParseMAC(s)`: 6, 8 or 20 octets written `xx:xx:...`, `xx-xx-...`,
`xxxx.xxxx...` or, without separators, `xxxx...`. -/
def ParseMAC (s : GoString) : HardwareAddr × Option Cause :=
  if s.length < 12 then macError s
  else if s.getD 2 0 = 58 ∨ s.getD 2 0 = 45 then
    if (s.length + 1) % 3 ≠ 0 then macError s
    else
      let n := (s.length + 1) / 3
      if n ≠ 6 ∧ n ≠ 8 ∧ n ≠ 20 then macError s
      else
        match macOctets (s.getD 2 0) n s with
        | none => macError s
        | some hw => (hw, none)
  else if s.getD 4 0 = 46 then
    if (s.length + 1) % 5 ≠ 0 then macError s
    else
      let n := 2 * (s.length + 1) / 5
      if n ≠ 6 ∧ n ≠ 8 ∧ n ≠ 20 then macError s
      else
        match macGroups (s.getD 4 0) (n / 2) s with
        | none => macError s
        | some hw => (hw, none)
  else
    if s.length % 2 ≠ 0 then macError s
    else
      let n := s.length / 2
      if n ≠ 6 ∧ n ≠ 8 ∧ n ≠ 20 then macError s
      else
        match macPlain n s with
        | none => macError s
        | some hw => (hw, none)

end net

/-! ## `time.Parse` at `timeLayout` -/

/-- The constant `timeLayout`. -/
def timeLayout : String := "2006-01-02 15:04:05.000000 -0700"

namespace time

/-- The instant a `time.Time` denotes, as `Parse` determines it: the civil date and
time of day read from the text and the zone offset in seconds east of UTC. (Whether
the `Location` attached to the value is `Local` or a fixed zone depends on the local
time zone of the process and is not part of the model.) The default is the zero
`Time`, January 1 of year 1, 00:00:00 UTC. -/
structure Time where
  year : Int := 1
  month : Nat := 1
  day : Nat := 1
  hour : Nat := 0
  min : Nat := 0
  sec : Nat := 0
  nsec : Int := 0
  zoneOffset : Int := 0
  deriving DecidableEq, Repr

/-- The two internal errors of the parser: `errBad` and `errAtoi` both end as a
`ParseError` with an empty message. -/
inductive Bad where
  | errBad
  | errAtoi
  | errLeadingInt
  deriving DecidableEq, Repr

/-- `isDigit(s, i)`. -/
def isDigit (s : GoString) (i : Nat) : Bool :=
  if s.length ≤ i then false
  else
    let c := s.getD i 0
    decide (48 ≤ c ∧ c ≤ 57)

/-- `commaOrPeriod(b)`. -/
def commaOrPeriod (b : Nat) : Bool :=
  decide (b = 46 ∨ b = 44)

/-- `getnum(s, fixed)`: a one- or two-digit number (two digits when `fixed`) and the
rest of the text. -/
def getnum (s : GoString) (fixed : Bool) : Except Bad (Nat × GoString) :=
  if !isDigit s 0 then .error .errBad
  else if !isDigit s 1 then
    if fixed then .error .errBad
    else .ok (s.getD 0 0 - 48, s.drop 1)
  else .ok ((s.getD 0 0 - 48) * 10 + (s.getD 1 0 - 48), s.drop 2)

/-- The loop of `leadingInt` over `uint64`: `x` is the value so far. -/
def leadingIntLoop : GoString → Nat → Except Bad (Nat × GoString)
  | [], x => .ok (x, [])
  | c :: rest, x =>
    if c < 48 ∨ c > 57 then .ok (x, c :: rest)
    else if x > 2 ^ 63 / 10 then .error .errLeadingInt
    else
      let x := (x * 10 + c + 2 ^ 64 - 48) % 2 ^ 64
      if x > 2 ^ 63 then .error .errLeadingInt
      else leadingIntLoop rest x

/-- `leadingInt(s)`: the leading decimal digits of `s` as a number, and the rest. -/
def leadingInt (s : GoString) : Except Bad (Nat × GoString) :=
  leadingIntLoop s 0

/-- `atoi(s)` of package `time`: an optional sign and digits only. -/
def atoi (s : GoString) : Except Bad Int :=
  let neg := decide (s.headD 0 = 45)
  let s := if s ≠ [] ∧ (s.headD 0 = 45 ∨ s.headD 0 = 43) then s.drop 1 else s
  match leadingInt s with
  | .error _ => .error .errAtoi
  | .ok (q, rem) =>
    if rem.length > 0 then .error .errAtoi
    else
      let x := wrapInt q
      .ok (if neg then wrapInt (-x) else x)

/-- `cutspace(s)`: `s` without its leading blanks. -/
def cutspace : GoString → GoString
  | [] => []
  | c :: rest => if c = 32 then cutspace rest else c :: rest

/-- `skip(value, pfx)` for a one-byte literal `pfx` of the layout: a blank of the
layout stands for any run of blanks of the value (none only at its end), any other
byte for itself. The error case carries the value at the point of failure. -/
def skip (value : GoString) (pfx : Nat) : Except GoString GoString :=
  if pfx = 32 then
    if value.length > 0 ∧ value.headD 0 ≠ 32 then .error value
    else .ok (cutspace value)
  else if value.length = 0 ∨ value.headD 0 ≠ pfx then .error value
  else .ok (value.drop 1)

/-- `parseNanoseconds(value, nbytes)` for `nbytes ≤ 10`: error, or the nanoseconds and
the name of the range violated (none: `""`). -/
def parseNanoseconds (value : GoString) (nbytes : Nat) : Except Bad (Int × String) :=
  if !commaOrPeriod (value.headD 0) then .error .errBad
  else
    match atoi ((value.take nbytes).drop 1) with
    | .error e => .error e
    | .ok ns =>
      if ns < 0 then .ok (ns, "fractional second")
      else .ok (wrapInt (ns * 10 ^ (10 - nbytes)), "")

/-- `isLeap(year)`. -/
def isLeap (year : Int) : Bool :=
  decide (year % 4 = 0 ∧ (year % 100 ≠ 0 ∨ year % 400 = 0))

/-- `daysIn(m, year)`. -/
def daysIn (m : Nat) (year : Int) : Nat :=
  if m = 2 then
    if isLeap year then 29 else 28
  else 30 + ((m + m >>> 3) &&& 1)

/-- `newParseError(timeLayout, value, layoutElem, valueElem, message)`. -/
def newParseError (value : GoString) (layoutElem : String) (valueElem : GoString)
    (message : GoString) : Cause :=
  .parseError value layoutElem valueElem message

/-- The table `lowerhex`: the hexadecimal digit of a value below 16. -/
def lowerhex (n : Nat) : Nat :=
  if n < 10 then 48 + n else 87 + n

/-- `quote(s)` of package `time`: `s` between double quotes, with a backslash before
every double quote and backslash, and every byte of a non-ASCII or control character
written `\xhh`. -/
def quote (s : GoString) : GoString :=
  34 :: (s.flatMap (fun c =>
    if c ≥ 128 ∨ c < 32 then [92, 120, lowerhex (c / 16), lowerhex (c % 16)]
    else if c = 34 ∨ c = 92 then [92, c]
    else [c])) ++ [34]

/-- The start of a turn of the loop of `parse`: the literal byte `pfx` of the layout
(written `text`) that precedes the next chunk is skipped in the value. -/
def literal (avalue value : GoString) (pfx : Nat) (text : String) : Except Cause GoString :=
  match skip value pfx with
  | .error v => .error (newParseError avalue text v [])
  | .ok v => .ok v

/-- The case `stdLongYear` of the loop of `parse`, chunk `2006`: the year and the rest
of the value. -/
def stdLongYear (avalue value : GoString) : Except Cause (Int × GoString) :=
  if value.length < 4 ∨ !isDigit value 0 then .error (newParseError avalue "2006" value [])
  else
    match atoi (value.take 4) with
    | .error _ => .error (newParseError avalue "2006" value [])
    | .ok year => .ok (year, value.drop 4)

/-- The case `stdZeroMonth`, chunk `01`. -/
def stdZeroMonth (avalue value : GoString) : Except Cause (Nat × GoString) :=
  match getnum value true with
  | .error _ => .error (newParseError avalue "01" value [])
  | .ok (month, rest) =>
    if month ≤ 0 ∨ 12 < month then
      .error (newParseError avalue "01" rest (str ": month out of range"))
    else .ok (month, rest)

/-- The case `stdZeroDay`, chunk `02`; the day is validated at the end of `parse`. -/
def stdZeroDay (avalue value : GoString) : Except Cause (Nat × GoString) :=
  match getnum value true with
  | .error _ => .error (newParseError avalue "02" value [])
  | .ok (day, rest) => .ok (day, rest)

/-- The case `stdHour`, chunk `15`: one or two digits. -/
def stdHour (avalue value : GoString) : Except Cause (Nat × GoString) :=
  match getnum value false with
  | .error _ => .error (newParseError avalue "15" value [])
  | .ok (hour, rest) =>
    if 24 ≤ hour then .error (newParseError avalue "15" rest (str ": hour out of range"))
    else .ok (hour, rest)

/-- The case `stdZeroMinute`, chunk `04`. -/
def stdZeroMinute (avalue value : GoString) : Except Cause (Nat × GoString) :=
  match getnum value true with
  | .error _ => .error (newParseError avalue "04" value [])
  | .ok (min, rest) =>
    if 60 ≤ min then .error (newParseError avalue "04" rest (str ": minute out of range"))
    else .ok (min, rest)

/-- The case `stdZeroSecond`, chunk `05`; the layout has a fractional second after it,
so the special case of a fraction absent from the layout does not apply. -/
def stdZeroSecond (avalue value : GoString) : Except Cause (Nat × GoString) :=
  match getnum value true with
  | .error _ => .error (newParseError avalue "05" value [])
  | .ok (sec, rest) =>
    if 60 ≤ sec then .error (newParseError avalue "05" rest (str ": second out of range"))
    else .ok (sec, rest)

/-- The case `stdFracSecond0`, chunk `.000000`: a comma or period and exactly six
digits. -/
def stdFracSecond0 (avalue value : GoString) : Except Cause (Int × GoString) :=
  let ndigit := 1 + 6
  if value.length < ndigit then .error (newParseError avalue ".000000" value [])
  else
    match parseNanoseconds value ndigit with
    | .error _ => .error (newParseError avalue ".000000" value [])
    | .ok (nsec, rangeErrString) =>
      if rangeErrString ≠ "" then
        .error (newParseError avalue ".000000" (value.drop ndigit)
          (str (": " ++ rangeErrString ++ " out of range")))
      else .ok (nsec, value.drop ndigit)

/-- The case `stdNumTZ`, chunk `-0700`: a sign, two digits of hours and two of minutes;
the zone offset in seconds east of UTC. -/
def stdNumTZ (avalue value : GoString) : Except Cause (Int × GoString) :=
  if value.length < 5 then .error (newParseError avalue "-0700" value [])
  else
    let sign := value.headD 0
    let hourText := (value.take 3).drop 1
    let minText := (value.take 5).drop 3
    let rest := value.drop 5
    let (hr, mm, ss, bad) := match getnum hourText true with
      | .error _ => (0, 0, 0, true)
      | .ok (hr, _) =>
        match getnum minText true with
        | .error _ => (hr, 0, 0, true)
        | .ok (mm, _) =>
          match getnum (str "00") true with
          | .error _ => (hr, mm, 0, true)
          | .ok (ss, _) => (hr, mm, ss, false)
    let rangeErrString := if ss > 60 then "time zone offset second"
      else if mm > 60 then "time zone offset minute"
      else if hr > 24 then "time zone offset hour"
      else ""
    let zoneOffset : Int := ((hr * 60 + mm) * 60 + ss : Nat)
    let (zoneOffset, bad) :=
      if sign = 43 then (zoneOffset, bad)
      else if sign = 45 then (-zoneOffset, bad)
      else (zoneOffset, true)
    if rangeErrString ≠ "" then
      .error (newParseError avalue "-0700" rest
        (str (": " ++ rangeErrString ++ " out of range")))
    else if bad then .error (newParseError avalue "-0700" value [])
    else .ok (zoneOffset, rest)

/-- The end of `parse`: no text may be left, and the day must be one of its month. -/
def finish (avalue value : GoString) (t : Time) : Except Cause Time :=
  if value.length ≠ 0 then
    .error (newParseError avalue "" value (str ": extra text: " ++ quote value))
  else if t.day < 1 ∨ t.day > daysIn t.month t.year then
    .error (newParseError avalue "" value (str ": day out of range"))
  else .ok t

/-- `time.Parse(timeLayout, avalue)`: the loop of `parse` unrolled over the chunks of
the layout, which are `2006`, `-`, `01`, `-`, `02`, blank, `15`, `:`, `04`, `:`,
`05`, `.000000`, blank, `-0700`. -/
def parseChunks (avalue : GoString) : Except Cause Time := do
  let (year, value) ← stdLongYear avalue avalue
  let value ← literal avalue value 45 "-"
  let (month, value) ← stdZeroMonth avalue value
  let value ← literal avalue value 45 "-"
  let (day, value) ← stdZeroDay avalue value
  let value ← literal avalue value 32 " "
  let (hour, value) ← stdHour avalue value
  let value ← literal avalue value 58 ":"
  let (min, value) ← stdZeroMinute avalue value
  let value ← literal avalue value 58 ":"
  let (sec, value) ← stdZeroSecond avalue value
  let (nsec, value) ← stdFracSecond0 avalue value
  let value ← literal avalue value 32 " "
  let (zoneOffset, value) ← stdNumTZ avalue value
  finish avalue value
    { year := year, month := month, day := day, hour := hour, min := min, sec := sec,
      nsec := nsec, zoneOffset := zoneOffset }

/-- `time.Parse(timeLayout, value)` as a Go result pair: the zero `Time` with an error. -/
def Parse (value : GoString) : Time × Option Cause :=
  match parseChunks value with
  | .error e => ({}, some e)
  | .ok t => (t, none)

end time

/-! ## `net/netip.ParseAddr` -/

namespace netip

/-- The field `z` of an `Addr`: `z0` for the zero `Addr`, `z4` for an IPv4 address,
`z6noz` for an IPv6 address without zone, or the zone of an IPv6 address. -/
inductive Z where
  | z0
  | z4
  | z6noz
  | zone (zoneV6 : GoString)
  deriving DecidableEq, Repr

/-- A `netip.Addr`: the 128-bit address as its two halves, and `z`. The default is
the zero `Addr`. -/
structure Addr where
  hi : Nat := 0
  lo : Nat := 0
  z : Z := .z0
  deriving DecidableEq, Repr

/-- `AddrFrom4(addr)`: the address is stored as the IPv4-mapped IPv6 address. -/
def AddrFrom4 (a : List Nat) : Addr :=
  { hi := 0
    lo := 0xffff00000000 ||| (a.getD 0 0 <<< 24) ||| (a.getD 1 0 <<< 16) |||
      (a.getD 2 0 <<< 8) ||| a.getD 3 0
    z := .z4 }

/-- Big-endian value of a run of bytes. -/
def beUint (bs : List Nat) : Nat :=
  bs.foldl (fun acc b => acc * 256 + b) 0

/-- `AddrFrom16(addr)`. -/
def AddrFrom16 (a : List Nat) : Addr :=
  { hi := beUint (a.take 8), lo := beUint ((a.drop 8).take 8), z := .z6noz }

/-- `ip.WithZone(zone)` for an IPv6 address `ip`. -/
def Addr.WithZone (ip : Addr) (zone : GoString) : Addr :=
  if ip.z = .z0 ∨ ip.z = .z4 then ip
  else if zone = [] then { ip with z := .z6noz }
  else { ip with z := .zone zone }

/-- `IPv4Unspecified()`, the address `0.0.0.0`. -/
def IPv4Unspecified : Addr := AddrFrom4 [0, 0, 0, 0]

/-- `IPv6Unspecified()`, the address `::`. -/
def IPv6Unspecified : Addr := { z := .z6noz }

/-- The state of the loop of `parseIPv4Fields`. -/
structure V4State where
  val : Nat := 0
  pos : Nat := 0
  digLen : Nat := 0
  fields : List Nat := [0, 0, 0, 0]

/-- The loop of `parseIPv4Fields` over the text `s`: `i` is the index of the next
byte, `prev` the byte before it. -/
def parseIPv4Loop (inp : GoString) : GoString → Nat → Nat → V4State → Except Cause V4State
  | [], _, _, st => .ok st
  | c :: rest, i, prev, st =>
    if c ≥ 48 ∧ c ≤ 57 then
      if st.digLen = 1 ∧ st.val = 0 then
        .error (.parseAddrError inp "IPv4 field has octet with leading zero" [])
      else
        let val := st.val * 10 + c - 48
        if val > 255 then .error (.parseAddrError inp "IPv4 field has value >255" [])
        else parseIPv4Loop inp rest (i + 1) c { st with val := val, digLen := st.digLen + 1 }
    else if c = 46 then
      if i = 0 ∨ rest = [] ∨ prev = 46 then
        .error (.parseAddrError inp "IPv4 field must have at least one digit" (c :: rest))
      else if st.pos = 3 then .error (.parseAddrError inp "IPv4 address too long" [])
      else
        parseIPv4Loop inp rest (i + 1) c
          { val := 0, pos := st.pos + 1, digLen := 0, fields := st.fields.set st.pos (st.val % 256) }
    else .error (.parseAddrError inp "unexpected character" (c :: rest))

/-- `parseIPv4Fields(in, off, end, fields)` with `s = in[off:end]`: the four octets. -/
def parseIPv4Fields (inp s : GoString) : Except Cause (List Nat) :=
  match parseIPv4Loop inp s 0 0 {} with
  | .error e => .error e
  | .ok st =>
    if st.pos < 3 then .error (.parseAddrError inp "IPv4 address too short" [])
    else .ok (st.fields.set 3 (st.val % 256))

/-- `parseIPv4(s)`. -/
def parseIPv4 (s : GoString) : Addr × Option Cause :=
  match parseIPv4Fields s s with
  | .error e => ({}, some e)
  | .ok fields => (AddrFrom4 fields, none)

/-- The hex-number loop of `parseIPv6` on `s[off:]`: the final `off` and `acc`;
`whole` is `s`, reported by the errors. -/
def hexGroup (inp whole : GoString) : GoString → Nat → Nat → Except Cause (Nat × Nat)
  | [], off, acc => .ok (off, acc)
  | c :: rest, off, acc =>
    let digit : Option Nat :=
      if c ≥ 48 ∧ c ≤ 57 then some (c - 48)
      else if c ≥ 97 ∧ c ≤ 102 then some (c - 97 + 10)
      else if c ≥ 65 ∧ c ≤ 70 then some (c - 65 + 10)
      else none
    match digit with
    | none => .ok (off, acc)
    | some d =>
      let acc := ((acc <<< 4) + d) % 2 ^ 32
      if off > 3 then
        .error (.parseAddrError inp "each group must have 4 or less digits" whole)
      else if acc > 0xffff then
        .error (.parseAddrError inp "IPv6 field has value >=2^16" whole)
      else hexGroup inp whole rest (off + 1) acc

/-- The state of the main loop of `parseIPv6`: the rest of the text, the index `i` into
`ip`, the sixteen bytes `ip`, and the position of the ellipsis (if one was seen). -/
structure V6State where
  s : GoString
  i : Nat
  ip : List Nat
  ellipsis : Option Nat

/-- The main loop `for i < 16` of `parseIPv6`; every turn but the last adds 2 to `i`,
so `fuel` turns are enough when `fuel ≥ (16 - i) / 2`. -/
def parseIPv6Loop (inp : GoString) : Nat → V6State → Except Cause V6State
  | 0, st => .ok st
  | fuel + 1, st =>
    if st.i ≥ 16 then .ok st
    else
      match hexGroup inp st.s st.s 0 0 with
      | .error e => .error e
      | .ok (off, acc) =>
        if off = 0 then
          .error (.parseAddrError inp
            "each colon-separated field must have at least one digit" st.s)
        else if off < st.s.length ∧ st.s.getD off 0 = 46 then
          if st.ellipsis = none ∧ st.i ≠ 12 then
            .error (.parseAddrError inp
              "embedded IPv4 address must replace the final 2 fields of the address" st.s)
          else if st.i + 4 > 16 then
            .error (.parseAddrError inp
              "too many hex fields to fit an embedded IPv4 at the end of the address" st.s)
          else
            match parseIPv4Fields inp st.s with
            | .error e => .error e
            | .ok fields =>
              .ok { st with s := [], i := st.i + 4,
                            ip := st.ip.take st.i ++ fields ++ st.ip.drop (st.i + 4) }
        else
          let ip := (st.ip.set st.i ((acc >>> 8) % 256)).set (st.i + 1) (acc % 256)
          let i := st.i + 2
          let s := st.s.drop off
          if s.length = 0 then .ok { st with s := s, i := i, ip := ip }
          else if s.headD 0 ≠ 58 then
            .error (.parseAddrError inp "unexpected character, want colon" s)
          else if s.length = 1 then
            .error (.parseAddrError inp "colon must be followed by more characters" s)
          else
            let s := s.drop 1
            if s.headD 0 = 58 then
              if st.ellipsis ≠ none then
                .error (.parseAddrError inp "multiple :: in address" s)
              else
                let s := s.drop 1
                if s.length = 0 then .ok { s := s, i := i, ip := ip, ellipsis := some i }
                else parseIPv6Loop inp fuel { s := s, i := i, ip := ip, ellipsis := some i }
            else parseIPv6Loop inp fuel { st with s := s, i := i, ip := ip }

/-- `parseIPv6(in)`. -/
def parseIPv6 (inp : GoString) : Addr × Option Cause :=
  let noZone := inp.takeWhile (fun c => c ≠ 37)
  let zone := (inp.dropWhile (fun c => c ≠ 37)).drop 1
  if 37 ∈ inp ∧ zone = [] then
    ({}, some (.parseAddrError inp "zone must be a non-empty string" []))
  else
    let s := noZone
    let lead := decide (s.length ≥ 2 ∧ s.getD 0 0 = 58 ∧ s.getD 1 0 = 58)
    let s := if lead then s.drop 2 else s
    if lead ∧ s.length = 0 then (IPv6Unspecified.WithZone zone, none)
    else
      let ip0 : List Nat := List.replicate 16 0
      match parseIPv6Loop inp 8 { s := s, i := 0, ip := ip0,
                                  ellipsis := if lead then some 0 else none } with
      | .error e => ({}, some e)
      | .ok st =>
        if st.s.length ≠ 0 then
          ({}, some (.parseAddrError inp "trailing garbage after address" st.s))
        else if st.i < 16 then
          match st.ellipsis with
          | none => ({}, some (.parseAddrError inp "address string too short" []))
          | some e =>
            let n := 16 - st.i
            let ip := st.ip.take e ++ List.replicate n 0 ++ (st.ip.take st.i).drop e
            ((AddrFrom16 ip).WithZone zone, none)
        else if st.ellipsis ≠ none then
          ({}, some (.parseAddrError inp
            "the :: must expand to at least one field of zeros" []))
        else ((AddrFrom16 st.ip).WithZone zone, none)

/-- The scan of `ParseAddr` for the first `.`, `:` or `%` of `s`; `rest` is `s[i:]`. -/
def parseAddrScan (s : GoString) : GoString → Addr × Option Cause
  | [] => ({}, some (.parseAddrError s "unable to parse IP" []))
  | c :: rest =>
    if c = 46 then parseIPv4 s
    else if c = 58 then parseIPv6 s
    else if c = 37 then ({}, some (.parseAddrError s "missing IPv6 address" []))
    else parseAddrScan s rest

/-- `netip.ParseAddr(s)`. -/
def ParseAddr (s : GoString) : Addr × Option Cause :=
  parseAddrScan s s

end netip

/-! ## The decoder: `Packet`, `ParseHorstFields`, `toBool` -/

/-- The struct `Packet`; the default value of every field is its Go zero value. -/
structure Packet where
  Time : time.Time := {}
  WLANType : GoString := []
  MACSRC : net.HardwareAddr := []
  MACDST : net.HardwareAddr := []
  BSSID : net.HardwareAddr := []
  PacketTypes : GoString := []
  Signal : Int := 0
  Length : Int := 0
  PhyRate : Int := 0
  Frequency : Int := 0
  TSF : List Nat := []
  ESSID : GoString := []
  Mode : Int := 0
  Channel : Int := 0
  WEP : Bool := false
  WPA1 : Bool := false
  WPA2 : Bool := false
  IPSrc : netip.Addr := {}
  IPDst : netip.Addr := {}
  deriving DecidableEq, Repr

/-- A run-time panic of the decoder. -/
inductive Panic where
  /-- "slice bounds out of range [lo:len]", from `r[1:]` on an empty `r` -/
  | sliceBounds (lo len : Nat)
  /-- "index out of range [i] with length len", from `record[i]` -/
  | indexOutOfRange (i len : Nat)
  deriving DecidableEq, Repr

/-- What a call of `ParseHorstFields` ends in: the return of `(l, err)` or a panic;
in both cases `record` is the content of the caller's slice at that moment. -/
inductive Outcome where
  | returned (record : List GoString) (l : Packet) (err : Option WrapError)
  | panicked (record : List GoString) (p : Panic)
  deriving DecidableEq, Repr

/-- The function `toBool`. -/
def toBool (i : Int) : Bool × Option Cause :=
  if i = 1 then (true, none)
  else if i = 0 then (false, none)
  else (false, some (.errorString "toBool can only convert \"0\" or \"1\""))

/-- The loop `for i, r := range record` of lines 61-68, from index `i` on: every
element but that of index 0 is overwritten with `r[1:]`. The result is the slice
after the loop, or (`.error`) the slice at the moment `r[1:]` panics on an empty
`r`. -/
def stripLoop : Nat → List GoString → Except (List GoString) (List GoString)
  | _, [] => .ok []
  | i, r :: rest =>
    if i = 0 then
      match stripLoop (i + 1) rest with
      | .ok rs => .ok (r :: rs)
      | .error rs => .error (r :: rs)
    else
      match r with
      | [] => .error ([] :: rest)
      | _ :: r1 =>
        match stripLoop (i + 1) rest with
        | .ok rs => .ok (r1 :: rs)
        | .error rs => .error (r1 :: rs)

/-- The index expression `record[i]`: the element, or the index panic. -/
def index (record : List GoString) (i : Nat) : Except Outcome GoString :=
  match record.get? i with
  | some r => .ok r
  | none => .error (.panicked record (.indexOutOfRange i record.length))

/-- Lines 70-185 of `ParseHorstFields`, on the slice as the loop left it: the return
of `(l, err)` or an index panic. Every `match` on a result pair is one
`if err != nil` of the source; the test of lines 98-100 reads the `err` of the BSSID
step, as the source does. -/
def decode (record : List GoString) : Outcome :=
  let l : Packet := {}
  match index record 0 with
  | .error out => out
  | .ok r0 =>
  match time.Parse r0 with
  | (_, some e) => .returned record l (some (Errorf "parsing time: %v %w" (.text r0) e))
  | (t, none) =>
  let l := { l with Time := t }
  match index record 1 with
  | .error out => out
  | .ok r1 =>
  let l := { l with WLANType := r1 }
  match index record 2 with
  | .error out => out
  | .ok r2 =>
  match net.ParseMAC r2 with
  | (_, some e) => .returned record l (some (Errorf "parsing WLANType: %v %w" (.text r1) e))
  | (s, none) =>
  let l := { l with MACSRC := s }
  match index record 3 with
  | .error out => out
  | .ok r3 =>
  match net.ParseMAC r3 with
  | (_, some e) => .returned record l (some (Errorf "parsing MACDST: %v %w" (.text r3) e))
  | (d, none) =>
  let l := { l with MACDST := d }
  match index record 4 with
  | .error out => out
  | .ok r4 =>
  match net.ParseMAC r4 with
  | (b, err) =>
  match err with
  | some e => .returned record l (some (Errorf "parsing BSSID: %v %w" (.text r4) e))
  | none =>
  let l := { l with BSSID := b }
  match index record 5 with
  | .error out => out
  | .ok pt =>
  match err with
  | some e => .returned record l (some (Errorf "parsing PacketTypes: %v %w" (.text pt) e))
  | none =>
  let l := { l with PacketTypes := pt }
  match index record 6 with
  | .error out => out
  | .ok r6 =>
  match strconv.Atoi r6 with
  | (_, some e) => .returned record l (some (Errorf "parsing Signal: %v %w" (.text r6) e))
  | (sig, none) =>
  let l := { l with Signal := sig }
  match index record 7 with
  | .error out => out
  | .ok r7 =>
  match strconv.Atoi r7 with
  | (_, some e) => .returned record l (some (Errorf "parsing Length: %v %w" (.text r7) e))
  | (ln, none) =>
  let l := { l with Length := ln }
  match index record 8 with
  | .error out => out
  | .ok r8 =>
  match strconv.Atoi r8 with
  | (_, some e) => .returned record l (some (Errorf "parsing PhyRate: %v %w" (.text r8) e))
  | (pr, none) =>
  let l := { l with PhyRate := pr }
  match index record 9 with
  | .error out => out
  | .ok r9 =>
  match strconv.Atoi r9 with
  | (_, some e) => .returned record l (some (Errorf "parsing Frequency: %v %w" (.text r9) e))
  | (freq, none) =>
  let l := { l with Frequency := freq }
  match index record 10 with
  | .error out => out
  | .ok r10 =>
  match hex.DecodeString r10 with
  | (_, some e) => .returned record l (some (Errorf "parsing TSF: %v %w" (.text r10) e))
  | (tsf, none) =>
  let l := { l with TSF := tsf }
  match index record 11 with
  | .error out => out
  | .ok r11 =>
  let l := { l with ESSID := r11 }
  match index record 12 with
  | .error out => out
  | .ok r12 =>
  match strconv.Atoi r12 with
  | (_, some e) => .returned record l (some (Errorf "parsing Mode: %v %w" (.text r12) e))
  | (mode, none) =>
  let l := { l with Mode := mode }
  match index record 13 with
  | .error out => out
  | .ok r13 =>
  match strconv.Atoi r13 with
  | (_, some e) => .returned record l (some (Errorf "parsing Channel: %v %w" (.text r13) e))
  | (channel, none) =>
  let l := { l with Channel := channel }
  match index record 14 with
  | .error out => out
  | .ok r14 =>
  match strconv.Atoi r14 with
  | (_, some e) => .returned record l (some (Errorf "parsing WEP: %v %w" (.text r14) e))
  | (wep, none) =>
  match toBool wep with
  | (v, some e) =>
    .returned record { l with WEP := v } (some (Errorf "toBool WEP: %v %w" (.int wep) e))
  | (v, none) =>
  let l := { l with WEP := v }
  match index record 15 with
  | .error out => out
  | .ok r15 =>
  match strconv.Atoi r15 with
  | (_, some e) => .returned record l (some (Errorf "parsing WPA: %v %w" (.text r15) e))
  | (wpa, none) =>
  match toBool wpa with
  | (v, some e) =>
    .returned record { l with WPA1 := v } (some (Errorf "toBool WPA: %v %w" (.int wpa) e))
  | (v, none) =>
  let l := { l with WPA1 := v }
  match index record 16 with
  | .error out => out
  | .ok r16 =>
  match strconv.Atoi r16 with
  | (_, some e) => .returned record l (some (Errorf "parsing WPA2: %v %w" (.text r16) e))
  | (rsn, none) =>
  match toBool rsn with
  | (v, some e) =>
    .returned record { l with WPA2 := v } (some (Errorf "toBool WPA2: %v %w" (.int rsn) e))
  | (v, none) =>
  let l := { l with WPA2 := v }
  match index record 17 with
  | .error out => out
  | .ok r17 =>
  match netip.ParseAddr r17 with
  | (_, some e) => .returned record l (some (Errorf "parsing IPSrc: %v %w" (.text r17) e))
  | (ipSrc, none) =>
  let l := { l with IPSrc := ipSrc }
  match index record 18 with
  | .error out => out
  | .ok r18 =>
  match netip.ParseAddr r18 with
  | (_, some e) => .returned record l (some (Errorf "parsing IPDst: %v %w" (.text r18) e))
  | (ipDst, none) =>
  let l := { l with IPDst := ipDst }
  .returned record l none

/-- The function `ParseHorstFields`: the strip loop, then the field-by-field decode. -/
def ParseHorstFields (record : List GoString) : Outcome :=
  match stripLoop 0 record with
  | .error record => .panicked record (.sliceBounds 1 0)
  | .ok record =>
    decode record

/-- The fields of the line `aLine` of the test, as `encoding/csv` splits it. -/
def aLine : List GoString :=
  [str "2025-02-11 08:10:39.505813 +0000", str " BEACON", str " 8c:3b:ad:f0:94:6e",
   str " ff:ff:ff:ff:ff:ff", str " 8c:3b:ad:f0:94:6e", str " 0", str " -49", str " 194",
   str " 60", str " 2412", str " 000002ad9e7e6061", str " EXHO2", str " 1", str " 1",
   str " 1", str " 0", str " 1", str " 0.0.0.0", str " 0.0.0.0"]

/-! ## Specification-side notions: what a field text denotes -/

/-- A decimal digit, `'0'` to `'9'`. -/
def isDecDigit (c : Nat) : Bool := decide (48 ≤ c ∧ c ≤ 57)

/-- The number written by a run of decimal digits after the number `n` (most
significant digit first). -/
def digitsAcc (n : Nat) (ds : List Nat) : Nat :=
  ds.foldl (fun n c => n * 10 + (c - 48)) n

/-- The number written by a run of decimal digits. -/
def digitsValue (ds : List Nat) : Nat := digitsAcc 0 ds

/-- A non-empty run of decimal digits. -/
def isDigits (ds : List Nat) : Bool := !ds.isEmpty && ds.all isDecDigit

/-- The integer a text denotes in base 10: an optional sign `+` or `-`, then one or
more decimal digits; `none` for any other text. -/
def decimalInt : GoString → Option Int
  | [] => none
  | c :: ds =>
    if c = 43 then (if isDigits ds then some (digitsValue ds : Int) else none)
    else if c = 45 then (if isDigits ds then some (-(digitsValue ds : Int)) else none)
    else if isDigits (c :: ds) then some (digitsValue (c :: ds) : Int) else none

/-- The integer lies in the range of a 64-bit `int`. -/
def fitsInt (v : Int) : Bool := decide (-(2 : Int) ^ 63 ≤ v ∧ v < 2 ^ 63)

/-- The digits of a text: the text without its sign. -/
def unsignedPart : GoString → GoString
  | [] => []
  | c :: t => if c = 43 ∨ c = 45 then t else c :: t

/-- A hexadecimal digit, `0-9`, `a-f` or `A-F`. -/
def isHexDigit (c : Nat) : Bool :=
  decide ((48 ≤ c ∧ c ≤ 57) ∨ (97 ≤ c ∧ c ≤ 102) ∨ (65 ≤ c ∧ c ≤ 70))

/-- The value of a hexadecimal digit. -/
def hexVal (c : Nat) : Nat :=
  if c ≤ 57 then c - 48 else if 97 ≤ c then c - 87 else c - 55

/-- A string of hexadecimal digits of even length. -/
def isHexString (s : GoString) : Bool :=
  s.all isHexDigit && decide (s.length % 2 = 0)

/-- The bytes a string of hexadecimal digits writes: one byte for every pair of digits,
the first digit of the pair being the high half. -/
def hexPairs : GoString → List Nat
  | p :: q :: rest => (16 * hexVal p + hexVal q) :: hexPairs rest
  | _ => []

/-- The field sequence as the strip loop leaves it: element 0 as it was, every other
element without its first byte. -/
def strippedRecord : List GoString → List GoString
  | [] => []
  | r :: rest => r :: rest.map (fun r => r.drop 1)

/-- The conditions under which the decode of the stripped slice `r` reaches its final
`return l, nil`, and the `Packet` it then returns: at least 19 elements, every parsed
field accepted by its parser, every attribute the value of the text at its position. -/
structure Parsed (r : List GoString) (l : Packet) : Prop where
  len : 19 ≤ r.length
  time : time.Parse (r.getD 0 []) = (l.Time, none)
  wlanType : l.WLANType = r.getD 1 []
  macsrc : net.ParseMAC (r.getD 2 []) = (l.MACSRC, none)
  macdst : net.ParseMAC (r.getD 3 []) = (l.MACDST, none)
  bssid : net.ParseMAC (r.getD 4 []) = (l.BSSID, none)
  packetTypes : l.PacketTypes = r.getD 5 []
  signal : strconv.Atoi (r.getD 6 []) = (l.Signal, none)
  length : strconv.Atoi (r.getD 7 []) = (l.Length, none)
  phyRate : strconv.Atoi (r.getD 8 []) = (l.PhyRate, none)
  frequency : strconv.Atoi (r.getD 9 []) = (l.Frequency, none)
  tsf : hex.DecodeString (r.getD 10 []) = (l.TSF, none)
  essid : l.ESSID = r.getD 11 []
  mode : strconv.Atoi (r.getD 12 []) = (l.Mode, none)
  channel : strconv.Atoi (r.getD 13 []) = (l.Channel, none)
  wep : ∃ v, strconv.Atoi (r.getD 14 []) = (v, none) ∧ toBool v = (l.WEP, none)
  wpa1 : ∃ v, strconv.Atoi (r.getD 15 []) = (v, none) ∧ toBool v = (l.WPA1, none)
  wpa2 : ∃ v, strconv.Atoi (r.getD 16 []) = (v, none) ∧ toBool v = (l.WPA2, none)
  ipSrc : netip.ParseAddr (r.getD 17 []) = (l.IPSrc, none)
  ipDst : netip.ParseAddr (r.getD 18 []) = (l.IPDst, none)

/-- The text of field `i` as the decoder reads it: field 0 verbatim, every other field
without its first byte. -/
def fieldText (record : List GoString) (i : Nat) : GoString :=
  (strippedRecord record).getD i []

/-- A base-10 integer that fits `int`. -/
def isIntText (s : GoString) : Bool :=
  match decimalInt s with
  | some v => fitsInt v
  | none => false

/-- A base-10 integer equal to 0 or 1. -/
def isFlagText (s : GoString) : Bool :=
  decide (decimalInt s = some 0 ∨ decimalInt s = some 1)

/-- The text `s` is well-formed for position `i`: position 0 is accepted by
`time.Parse` at `timeLayout`; positions 2-4 are hardware addresses (accepted by
`net.ParseMAC`); positions 6-9, 12 and 13 are base-10 integers that fit `int`;
position 10 is an even-length hex string; positions 14-16 are base-10 integers equal
to 0 or 1; positions 17 and 18 are IP addresses (accepted by `netip.ParseAddr`);
positions 1, 5 and 11 hold any text. -/
def WellFormedAt (i : Nat) (s : GoString) : Bool :=
  if i = 0 then (time.Parse s).2.isNone
  else if i = 2 ∨ i = 3 ∨ i = 4 then (net.ParseMAC s).2.isNone
  else if i = 6 ∨ i = 7 ∨ i = 8 ∨ i = 9 ∨ i = 12 ∨ i = 13 then isIntText s
  else if i = 10 then isHexString s
  else if i = 14 ∨ i = 15 ∨ i = 16 then isFlagText s
  else if i = 17 ∨ i = 18 then (netip.ParseAddr s).2.isNone
  else true

/-- No field after the first is empty: each has a first byte for the strip to remove. -/
def NoEmptyField (record : List GoString) : Prop :=
  ∀ r ∈ record.tail, r ≠ []

instance (record : List GoString) : Decidable (NoEmptyField record) :=
  inferInstanceAs (Decidable (∀ r ∈ record.tail, r ≠ []))

/-- A well-formed record: exactly 19 fields, none after the first empty, each
well-formed for its position once stripped. -/
def WellFormed (record : List GoString) : Prop :=
  record.length = 19 ∧ NoEmptyField record ∧
    ∀ i, i < 19 → WellFormedAt i (fieldText record i) = true

instance (record : List GoString) : Decidable (WellFormed record) :=
  inferInstanceAs (Decidable (_ ∧ _ ∧ ∀ i, i < 19 → _))

/-- A record of 19 fields whose fields at the positions other than `k` are non-empty
(but for field 0, which may be) and well-formed; nothing is asked of field `k`. -/
def WellFormedExcept (k : Nat) (record : List GoString) : Prop :=
  record.length = 19 ∧ (∀ i, i < 19 → i ≠ k → 1 ≤ i → record.getD i [] ≠ []) ∧
    ∀ i, i < 19 → i ≠ k → WellFormedAt i (fieldText record i) = true

instance (k : Nat) (record : List GoString) : Decidable (WellFormedExcept k record) :=
  inferInstanceAs (Decidable (_ ∧ (∀ i, i < 19 → _) ∧ ∀ i, i < 19 → _))

/-- A record of 19 fields, none after the first empty, whose fields at the positions
before `k` are well-formed. -/
def WellFormedBefore (k : Nat) (record : List GoString) : Prop :=
  record.length = 19 ∧ NoEmptyField record ∧
    ∀ i, i < k → WellFormedAt i (fieldText record i) = true

instance (k : Nat) (record : List GoString) : Decidable (WellFormedBefore k record) :=
  inferInstanceAs (Decidable (_ ∧ _ ∧ ∀ i, i < k → _))

/-- The record a field sequence encodes: every attribute is the value of the text at
its fixed position (the integer a base-10 text denotes, the bytes a hex string
writes, the flag an integer 0 or 1 stands for, the time or address the library reads
from the text, the text itself for the three opaque attributes). -/
def encoded (record : List GoString) : Packet :=
  { Time := (time.Parse (fieldText record 0)).1
    WLANType := fieldText record 1
    MACSRC := (net.ParseMAC (fieldText record 2)).1
    MACDST := (net.ParseMAC (fieldText record 3)).1
    BSSID := (net.ParseMAC (fieldText record 4)).1
    PacketTypes := fieldText record 5
    Signal := (decimalInt (fieldText record 6)).getD 0
    Length := (decimalInt (fieldText record 7)).getD 0
    PhyRate := (decimalInt (fieldText record 8)).getD 0
    Frequency := (decimalInt (fieldText record 9)).getD 0
    TSF := hexPairs (fieldText record 10)
    ESSID := fieldText record 11
    Mode := (decimalInt (fieldText record 12)).getD 0
    Channel := (decimalInt (fieldText record 13)).getD 0
    WEP := decide (decimalInt (fieldText record 14) = some 1)
    WPA1 := decide (decimalInt (fieldText record 15) = some 1)
    WPA2 := decide (decimalInt (fieldText record 16) = some 1)
    IPSrc := (netip.ParseAddr (fieldText record 17)).1
    IPDst := (netip.ParseAddr (fieldText record 18)).1 }

/-- The flag attribute decoded from position `k`: WEP for 14, WPA1 for 15, WPA2 for 16. -/
def Packet.flag (l : Packet) (k : Nat) : Bool :=
  if k = 14 then l.WEP else if k = 15 then l.WPA1 else l.WPA2

/-- The record with the attributes of the positions from `k` on set back to their zero
values: what the decoder has filled in when it reaches position `k`. -/
def Packet.upTo (l : Packet) (k : Nat) : Packet :=
  { Time := if 0 < k then l.Time else {}
    WLANType := if 1 < k then l.WLANType else []
    MACSRC := if 2 < k then l.MACSRC else []
    MACDST := if 3 < k then l.MACDST else []
    BSSID := if 4 < k then l.BSSID else []
    PacketTypes := if 5 < k then l.PacketTypes else []
    Signal := if 6 < k then l.Signal else 0
    Length := if 7 < k then l.Length else 0
    PhyRate := if 8 < k then l.PhyRate else 0
    Frequency := if 9 < k then l.Frequency else 0
    TSF := if 10 < k then l.TSF else []
    ESSID := if 11 < k then l.ESSID else []
    Mode := if 12 < k then l.Mode else 0
    Channel := if 13 < k then l.Channel else 0
    WEP := if 14 < k then l.WEP else false
    WPA1 := if 15 < k then l.WPA1 else false
    WPA2 := if 16 < k then l.WPA2 else false
    IPSrc := if 17 < k then l.IPSrc else {}
    IPDst := if 18 < k then l.IPDst else {} }

/-- The call returned without error. -/
def Outcome.succeeded : Outcome → Bool
  | .returned _ _ none => true
  | _ => false

/-- The content of the caller's slice when the call ended. -/
def Outcome.record : Outcome → List GoString
  | .returned record _ _ => record
  | .panicked record _ => record

/-- A second call made in succession on the same slice: it receives the slice as the
first call left it. -/
def secondCall (record : List GoString) : Outcome :=
  ParseHorstFields (ParseHorstFields record).record

/-- The test line with its WEP field set to ` 5`: the failure scenario of the spec. -/
def aLineWEP5 : List GoString := aLine.set 14 (str " 5")

/-- The failure scenario with, in addition, an empty last field. -/
def aLineWEP5EmptyLast : List GoString := (aLine.set 14 (str " 5")).set 18 []

/-- The test line with its WEP field set to ` +1`. -/
def aLinePlusOne : List GoString := aLine.set 14 (str " +1")

/-- The test line with its MACSRC field set to ` zz`. -/
def aLineBadMACSRC : List GoString := aLine.set 2 (str " zz")


/-! ## Specification-side notions: the step at which a decode stops -/

/-- The record a stripped slice encodes: every attribute is the value of the text at
its fixed position of the slice. -/
def decoded (r : List GoString) : Packet :=
  { Time := (time.Parse (r.getD 0 [])).1
    WLANType := r.getD 1 []
    MACSRC := (net.ParseMAC (r.getD 2 [])).1
    MACDST := (net.ParseMAC (r.getD 3 [])).1
    BSSID := (net.ParseMAC (r.getD 4 [])).1
    PacketTypes := r.getD 5 []
    Signal := (decimalInt (r.getD 6 [])).getD 0
    Length := (decimalInt (r.getD 7 [])).getD 0
    PhyRate := (decimalInt (r.getD 8 [])).getD 0
    Frequency := (decimalInt (r.getD 9 [])).getD 0
    TSF := hexPairs (r.getD 10 [])
    ESSID := r.getD 11 []
    Mode := (decimalInt (r.getD 12 [])).getD 0
    Channel := (decimalInt (r.getD 13 [])).getD 0
    WEP := decide (decimalInt (r.getD 14 []) = some 1)
    WPA1 := decide (decimalInt (r.getD 15 []) = some 1)
    WPA2 := decide (decimalInt (r.getD 16 []) = some 1)
    IPSrc := (netip.ParseAddr (r.getD 17 [])).1
    IPDst := (netip.ParseAddr (r.getD 18 [])).1 }

/-- The error of a flag step (lines 147-172) on the text `s`: the `strconv.Atoi` error
wrapped with the first format and the text, or else the `toBool` error wrapped with
the second format and the integer; `none` when both accept. -/
def flagError (parsing converting : String) (s : GoString) : Option WrapError :=
  match strconv.Atoi s with
  | (_, some c) => some (Errorf parsing (.text s) c)
  | (v, none) => (toBool v).2.map (Errorf converting (.int v))

/-- The error the step of position `k` returns on the stripped slice `r`: the
`fmt.Errorf` of that step of the source, with its format and its argument, wrapping
what the parser of the step reports on the text at `k`; `none` when the parser
accepts the text, and for the positions 1, 5 and 11, whose steps return no error. -/
def errorAt (r : List GoString) (k : Nat) : Option WrapError :=
  let s := r.getD k []
  if k = 0 then (time.Parse s).2.map (Errorf "parsing time: %v %w" (.text s))
  else if k = 2 then
    (net.ParseMAC s).2.map (Errorf "parsing WLANType: %v %w" (.text (r.getD 1 [])))
  else if k = 3 then (net.ParseMAC s).2.map (Errorf "parsing MACDST: %v %w" (.text s))
  else if k = 4 then (net.ParseMAC s).2.map (Errorf "parsing BSSID: %v %w" (.text s))
  else if k = 6 then (strconv.Atoi s).2.map (Errorf "parsing Signal: %v %w" (.text s))
  else if k = 7 then (strconv.Atoi s).2.map (Errorf "parsing Length: %v %w" (.text s))
  else if k = 8 then (strconv.Atoi s).2.map (Errorf "parsing PhyRate: %v %w" (.text s))
  else if k = 9 then (strconv.Atoi s).2.map (Errorf "parsing Frequency: %v %w" (.text s))
  else if k = 10 then (hex.DecodeString s).2.map (Errorf "parsing TSF: %v %w" (.text s))
  else if k = 12 then (strconv.Atoi s).2.map (Errorf "parsing Mode: %v %w" (.text s))
  else if k = 13 then (strconv.Atoi s).2.map (Errorf "parsing Channel: %v %w" (.text s))
  else if k = 14 then flagError "parsing WEP: %v %w" "toBool WEP: %v %w" s
  else if k = 15 then flagError "parsing WPA: %v %w" "toBool WPA: %v %w" s
  else if k = 16 then flagError "parsing WPA2: %v %w" "toBool WPA2: %v %w" s
  else if k = 17 then (netip.ParseAddr s).2.map (Errorf "parsing IPSrc: %v %w" (.text s))
  else if k = 18 then (netip.ParseAddr s).2.map (Errorf "parsing IPDst: %v %w" (.text s))
  else none

/-- The tail of the slice at the moment the strip loop stops at an empty element: the
elements before the first empty one without their first byte, that one and the
elements after it as they were. -/
def stripUntilEmpty : List GoString → List GoString
  | [] => []
  | [] :: rest => [] :: rest
  | (_ :: r) :: rest => r :: stripUntilEmpty rest

/-- The caller's slice at the moment the strip loop stops at an empty element. -/
def partlyStripped : List GoString → List GoString
  | [] => []
  | r :: rest => r :: stripUntilEmpty rest

/-! ## Specification-side notions: causes, labels and further inputs -/

/-- What the parser of the step of position `k` reports on the text `s`: the error of
`time.Parse`, `net.ParseMAC`, `strconv.Atoi`, `hex.DecodeString` or `netip.ParseAddr`,
and for a flag position the error of `strconv.Atoi` or else that of `toBool`; `none`
when the text is accepted, and for the positions without a parser. -/
def causeAt (k : Nat) (s : GoString) : Option Cause :=
  if k = 0 then (time.Parse s).2
  else if k = 2 ∨ k = 3 ∨ k = 4 then (net.ParseMAC s).2
  else if k = 6 ∨ k = 7 ∨ k = 8 ∨ k = 9 ∨ k = 12 ∨ k = 13 then (strconv.Atoi s).2
  else if k = 10 then (hex.DecodeString s).2
  else if k = 14 ∨ k = 15 ∨ k = 16 then
    match strconv.Atoi s with
    | (_, some c) => some c
    | (v, none) => (toBool v).2
  else if k = 17 ∨ k = 18 then (netip.ParseAddr s).2
  else none

/-- The word by which the error messages of the integer and flag steps name the field
of position `k`. -/
def fieldLabel (k : Nat) : String :=
  if k = 6 then "Signal"
  else if k = 7 then "Length"
  else if k = 8 then "PhyRate"
  else if k = 9 then "Frequency"
  else if k = 12 then "Mode"
  else if k = 13 then "Channel"
  else if k = 14 then "WEP"
  else if k = 15 then "WPA"
  else if k = 16 then "WPA2"
  else ""

/-- The integer stored for position `k`: the attribute itself for the six integer
positions, 1 for a true flag and 0 for a false one at the three flag positions. -/
def Packet.number (l : Packet) (k : Nat) : Int :=
  if k = 6 then l.Signal
  else if k = 7 then l.Length
  else if k = 8 then l.PhyRate
  else if k = 9 then l.Frequency
  else if k = 12 then l.Mode
  else if k = 13 then l.Channel
  else if k = 14 then (if l.WEP then 1 else 0)
  else if k = 15 then (if l.WPA1 then 1 else 0)
  else if k = 16 then (if l.WPA2 then 1 else 0)
  else 0

/-- The positions of the integer and flag fields. -/
def isNumberPosition (k : Nat) : Bool :=
  decide (k = 6 ∨ k = 7 ∨ k = 8 ∨ k = 9 ∨ k = 12 ∨ k = 13 ∨ k = 14 ∨ k = 15 ∨ k = 16)

/-- The test line with its Length field set to ` -5`. -/
def aLineNegLength : List GoString := aLine.set 7 (str " -5")

/-- The test line with an 8-octet MACSRC. -/
def aLineMAC8 : List GoString := aLine.set 2 (str " 8c:3b:ad:f0:94:6e:00:01")

/-- The test line with its BSSID in the dotted form. -/
def aLineDottedBSSID : List GoString := aLine.set 4 (str " 8c3b.adf0.946e")

/-- The test line with its MACDST written without separators. -/
def aLinePlainMACDST : List GoString := aLine.set 3 (str " ffffffffffff")

/-- The first five fields of the test line. -/
def aLineShort : List GoString := aLine.take 5

/-- The test line followed by a twentieth field. -/
def aLineLong : List GoString := aLine ++ [str " extra"]

/-- The test line with an empty ESSID field. -/
def aLineEmptyESSID : List GoString := aLine.set 11 []

/-- The test line with a malformed Signal field and a malformed Channel field. -/
def aLineTwoBad : List GoString := (aLine.set 6 (str " abc")).set 13 (str " x")

/-- The test line with its WPA1 field set to ` 5`. -/
def aLineWPA5 : List GoString := aLine.set 15 (str " 5")

/-- The test line with its WPA2 field set to ` 2`. -/
def aLineRSN2 : List GoString := aLine.set 16 (str " 2")

/-- The test line with its Length field set to 2^63, one past the largest `int`. -/
def aLineBigLength : List GoString := aLine.set 7 (str " 9223372036854775808")

/-- The test line with both its Signal field and its Length field set to 2^63. -/
def aLineTwoBig : List GoString :=
  (aLine.set 6 (str " 9223372036854775808")).set 7 (str " 9223372036854775808")

/-! ## Specification-side notions: the texts of a hardware address -/

/-- The text writes `n + 1` octets, two hexadecimal digits each, every octet but the
last followed by the separator `e`. -/
def isOctetForm (e : Nat) : Nat → GoString → Bool
  | 0, [a, b] => isHexDigit a && isHexDigit b
  | n + 1, a :: b :: c :: rest =>
    isHexDigit a && isHexDigit b && decide (c = e) && isOctetForm e n rest
  | _, _ => false

/-- The bytes of a text in the octet form: one for every pair of digits. -/
def octetBytes : GoString → List Nat
  | a :: b :: _ :: rest => (16 * hexVal a + hexVal b) :: octetBytes rest
  | [a, b] => [16 * hexVal a + hexVal b]
  | _ => []

/-- The text writes `n + 1` groups of four hexadecimal digits, every group but the last
followed by a dot. -/
def isGroupForm : Nat → GoString → Bool
  | 0, [a, b, c, d] => isHexDigit a && isHexDigit b && isHexDigit c && isHexDigit d
  | n + 1, a :: b :: c :: d :: e :: rest =>
    isHexDigit a && isHexDigit b && isHexDigit c && isHexDigit d && decide (e = 46) &&
      isGroupForm n rest
  | _, _ => false

/-- The bytes of a text in the dotted form: two for every group of four digits. -/
def groupBytes : GoString → List Nat
  | a :: b :: c :: d :: _ :: rest =>
    (16 * hexVal a + hexVal b) :: (16 * hexVal c + hexVal d) :: groupBytes rest
  | [a, b, c, d] => [16 * hexVal a + hexVal b, 16 * hexVal c + hexVal d]
  | _ => []

/-- The text writes `n` octets without separators: `2 * n` hexadecimal digits. -/
def isPlainForm (n : Nat) (s : GoString) : Bool :=
  isHexString s && decide (s.length = 2 * n)

/-- The text of a hardware address: 6, 8 or 20 octets separated by colons, or
separated by dashes, or 3, 4 or 10 groups of four digits separated by dots, or 6, 8 or
20 octets without separators. -/
def isMACText (s : GoString) : Bool :=
  isOctetForm 58 5 s || isOctetForm 58 7 s || isOctetForm 58 19 s ||
  isOctetForm 45 5 s || isOctetForm 45 7 s || isOctetForm 45 19 s ||
  isGroupForm 2 s || isGroupForm 3 s || isGroupForm 9 s ||
  isPlainForm 6 s || isPlainForm 8 s || isPlainForm 20 s

/-- The bytes the text of a hardware address writes. -/
def macBytes (s : GoString) : List Nat :=
  if s.getD 2 0 = 58 ∨ s.getD 2 0 = 45 then octetBytes s
  else if s.getD 4 0 = 46 then groupBytes s
  else hexPairs s

/-! ## Specification-side notions: the text of a time stamp -/

/-- The bytes `s[i : i + n]` of a text. -/
def slice (s : GoString) (i n : Nat) : GoString :=
  (s.drop i).take n

/-- A leap year of the Gregorian calendar. -/
def leapYear (y : Nat) : Bool :=
  decide (y % 4 = 0 ∧ (y % 100 ≠ 0 ∨ y % 400 = 0))

/-- The number of days of month `m` (1 to 12) of the year `y`. -/
def daysInMonth (y m : Nat) : Nat :=
  if m = 2 then (if leapYear y then 29 else 28)
  else if m = 4 ∨ m = 6 ∨ m = 9 ∨ m = 11 then 30
  else 31

/-- A time stamp written in the layout `timeLayout`, `YYYY-MM-DD hh:mm:ss.uuuuuu ±hhmm`:
32 bytes, decimal digits at the places of the letters and the literal bytes of the
layout between them, a month from 01 to 12, a day of that month, an hour below 24, a
minute and a second below 60, and a zone offset of at most 24 hours and 60 minutes. -/
def isTimestampText (s : GoString) : Bool :=
  decide (s.length = 32) &&
  (slice s 0 4).all isDecDigit && decide (s.getD 4 0 = 45) &&
  (slice s 5 2).all isDecDigit && decide (s.getD 7 0 = 45) &&
  (slice s 8 2).all isDecDigit && decide (s.getD 10 0 = 32) &&
  (slice s 11 2).all isDecDigit && decide (s.getD 13 0 = 58) &&
  (slice s 14 2).all isDecDigit && decide (s.getD 16 0 = 58) &&
  (slice s 17 2).all isDecDigit && decide (s.getD 19 0 = 46) &&
  (slice s 20 6).all isDecDigit && decide (s.getD 26 0 = 32) &&
  decide (s.getD 27 0 = 43 ∨ s.getD 27 0 = 45) &&
  (slice s 28 4).all isDecDigit &&
  decide (1 ≤ digitsValue (slice s 5 2) ∧ digitsValue (slice s 5 2) ≤ 12) &&
  decide (1 ≤ digitsValue (slice s 8 2) ∧
    digitsValue (slice s 8 2) ≤ daysInMonth (digitsValue (slice s 0 4)) (digitsValue (slice s 5 2))) &&
  decide (digitsValue (slice s 11 2) < 24) &&
  decide (digitsValue (slice s 14 2) < 60) &&
  decide (digitsValue (slice s 17 2) < 60) &&
  decide (digitsValue (slice s 28 2) ≤ 24) &&
  decide (digitsValue (slice s 30 2) ≤ 60)

/-- The time a time stamp in the layout denotes: the date and the time of day it
writes, its six fractional digits as microseconds, and its offset in seconds east of
UTC. -/
def timestampOf (s : GoString) : time.Time :=
  { year := digitsValue (slice s 0 4)
    month := digitsValue (slice s 5 2)
    day := digitsValue (slice s 8 2)
    hour := digitsValue (slice s 11 2)
    min := digitsValue (slice s 14 2)
    sec := digitsValue (slice s 17 2)
    nsec := digitsValue (slice s 20 6) * 1000
    zoneOffset :=
      if s.getD 27 0 = 45 then
        -((digitsValue (slice s 28 2) * 3600 + digitsValue (slice s 30 2) * 60 : Nat) : Int)
      else ((digitsValue (slice s 28 2) * 3600 + digitsValue (slice s 30 2) * 60 : Nat) : Int) }

/-! ## Specification-side notions: the text of an IP address -/

/-- The fields of a text between the occurrences of the separator `sep`. -/
def fieldsOf (sep : Nat) : GoString → List GoString
  | [] => [[]]
  | c :: rest =>
    if c = sep then [] :: fieldsOf sep rest
    else
      match fieldsOf sep rest with
      | f :: fs => (c :: f) :: fs
      | [] => [[c]]

/-- A decimal octet: one to three decimal digits without a leading zero (but for `0`
itself) that write a number of at most 255. -/
def isOctetText (ds : GoString) : Bool :=
  isDigits ds && (decide (ds.length = 1) || decide (ds.headD 0 ≠ 48)) &&
    decide (digitsValue ds ≤ 255)

/-- An IPv4 address in dotted-decimal form: four decimal octets separated by dots. -/
def isIPv4Text (s : GoString) : Bool :=
  match fieldsOf 46 s with
  | [a, b, c, d] => isOctetText a && isOctetText b && isOctetText c && isOctetText d
  | _ => false

/-- The address a dotted-decimal text denotes: the four octets in order. -/
def ipv4Of (s : GoString) : netip.Addr :=
  match fieldsOf 46 s with
  | [a, b, c, d] =>
    netip.AddrFrom4 [digitsValue a, digitsValue b, digitsValue c, digitsValue d]
  | _ => {}

/-- A group of an IPv6 address: one to four hexadecimal digits. -/
def isGroupText (g : GoString) : Bool :=
  decide (1 ≤ g.length ∧ g.length ≤ 4) && g.all isHexDigit

/-- The number written by a run of hexadecimal digits after the number `n`. -/
def hexAcc (n : Nat) (g : GoString) : Nat :=
  g.foldl (fun n c => n * 16 + hexVal c) n

/-- The two bytes of a group of an IPv6 address, the high byte first. -/
def groupPair (g : GoString) : List Nat :=
  [hexAcc 0 g / 256, hexAcc 0 g % 256]

/-- The text before and the text after the first `::` of a text that has one. -/
def splitEllipsis : GoString → Option (GoString × GoString)
  | [] => none
  | c :: rest =>
    if c = 58 ∧ rest.headD 0 = 58 then some ([], rest.drop 1)
    else (splitEllipsis rest).map (fun p => (c :: p.1, p.2))

/-- The groups of one side of a `::`: none when the side is empty, else the fields
between its colons. -/
def groupsOf (s : GoString) : List GoString :=
  if s = [] then [] else fieldsOf 58 s

/-- An IPv6 address in colon-hexadecimal form: eight groups separated by colons, or,
with one `::` standing for the groups left out, at most seven groups. -/
def isIPv6Text (s : GoString) : Bool :=
  match splitEllipsis s with
  | some (l, r) =>
    (groupsOf l).all isGroupText && (groupsOf r).all isGroupText &&
      decide ((groupsOf l).length + (groupsOf r).length ≤ 7)
  | none => (fieldsOf 58 s).all isGroupText && decide ((fieldsOf 58 s).length = 8)

/-- The sixteen bytes a colon-hexadecimal text denotes: the bytes of its groups, with
zero bytes at the place of the `::`. -/
def ipv6Bytes (s : GoString) : List Nat :=
  match splitEllipsis s with
  | some (l, r) =>
    let lb := (groupsOf l).flatMap groupPair
    let rb := (groupsOf r).flatMap groupPair
    lb ++ List.replicate (16 - lb.length - rb.length) 0 ++ rb
  | none => (fieldsOf 58 s).flatMap groupPair

/-- The address a colon-hexadecimal text denotes. -/
def ipv6Of (s : GoString) : netip.Addr :=
  netip.AddrFrom16 (ipv6Bytes s)

/-- The text of an IP address: dotted-decimal IPv4 or colon-hexadecimal IPv6. -/
def isIPText (s : GoString) : Bool :=
  isIPv4Text s || isIPv6Text s

/-- The address the text of an IP address denotes. -/
def ipOf (s : GoString) : netip.Addr :=
  if isIPv4Text s then ipv4Of s else ipv6Of s

/-- The fields joined again by the separator `sep`. -/
def joinFields (sep : Nat) : List GoString → GoString
  | [] => []
  | [g] => g
  | g :: g' :: rest => g ++ sep :: joinFields sep (g' :: rest)

/-! ## Specification-side notions: the first character of a text, canonical records -/

/-- A continuation byte of UTF-8, `0x80` to `0xBF`. -/
def isContinuation (c : Nat) : Bool := decide (0x80 ≤ c ∧ c ≤ 0xBF)

/-- The number of bytes of the first character of a text in UTF-8: 1 for an ASCII byte,
2 to 4 for a well-formed multi-byte sequence, and 1 for a byte that starts no
well-formed sequence (which is read as one character of its own). -/
def firstCharWidth (s : GoString) : Nat :=
  let b0 := s.getD 0 0
  let b1 := s.getD 1 0
  let b2 := s.getD 2 0
  let b3 := s.getD 3 0
  if 0xC2 ≤ b0 ∧ b0 ≤ 0xDF then (if isContinuation b1 then 2 else 1)
  else if 0xE0 ≤ b0 ∧ b0 ≤ 0xEF then
    let lo := if b0 = 0xE0 then 0xA0 else 0x80
    let hi := if b0 = 0xED then 0x9F else 0xBF
    if lo ≤ b1 ∧ b1 ≤ hi ∧ isContinuation b2 then 3 else 1
  else if 0xF0 ≤ b0 ∧ b0 ≤ 0xF4 then
    let lo := if b0 = 0xF0 then 0x90 else 0x80
    let hi := if b0 = 0xF4 then 0x8F else 0xBF
    if lo ≤ b1 ∧ b1 ≤ hi ∧ isContinuation b2 ∧ isContinuation b3 then 4 else 1
  else 1

/-- The text without its first character. -/
def dropFirstChar (s : GoString) : GoString := s.drop (firstCharWidth s)

/-- The text `s` has the written form of position `i`: position 0 is a timestamp
`YYYY-MM-DD hh:mm:ss.ffffff ±hhmm`; positions 2-4 are hardware addresses; positions
6-9, 12 and 13 are base-10 integers that fit `int`; position 10 is an even-length hex
string; positions 14-16 are base-10 integers equal to 0 or 1; positions 17 and 18 are
IP addresses, dotted-decimal or colon-hexadecimal; positions 1, 5 and 11 hold any
text. No parser of the decoder takes part in this definition. -/
def CanonicalAt (i : Nat) (s : GoString) : Bool :=
  if i = 0 then isTimestampText s
  else if i = 2 ∨ i = 3 ∨ i = 4 then isMACText s
  else if i = 6 ∨ i = 7 ∨ i = 8 ∨ i = 9 ∨ i = 12 ∨ i = 13 then isIntText s
  else if i = 10 then isHexString s
  else if i = 14 ∨ i = 15 ∨ i = 16 then isFlagText s
  else if i = 17 ∨ i = 18 then isIPText s
  else true

/-- A canonical record: exactly 19 fields, none after the first empty, each in the
written form of its position once its first byte is removed. -/
def Canonical (record : List GoString) : Prop :=
  record.length = 19 ∧ NoEmptyField record ∧
    ∀ i, i < 19 → CanonicalAt i (fieldText record i) = true

instance (record : List GoString) : Decidable (Canonical record) :=
  inferInstanceAs (Decidable (_ ∧ _ ∧ ∀ i, i < 19 → _))

/-- The record a field sequence denotes: every attribute is the value its field writes
at its fixed position (the instant of the timestamp, the bytes of a hardware address
or of a hex string, the integer of a base-10 text, the flag an integer 0 or 1 stands
for, the address of an IP text, the text itself for the three opaque attributes). No
parser of the decoder takes part in this definition. -/
def denoted (record : List GoString) : Packet :=
  { Time := timestampOf (fieldText record 0)
    WLANType := fieldText record 1
    MACSRC := macBytes (fieldText record 2)
    MACDST := macBytes (fieldText record 3)
    BSSID := macBytes (fieldText record 4)
    PacketTypes := fieldText record 5
    Signal := (decimalInt (fieldText record 6)).getD 0
    Length := (decimalInt (fieldText record 7)).getD 0
    PhyRate := (decimalInt (fieldText record 8)).getD 0
    Frequency := (decimalInt (fieldText record 9)).getD 0
    TSF := hexPairs (fieldText record 10)
    ESSID := fieldText record 11
    Mode := (decimalInt (fieldText record 12)).getD 0
    Channel := (decimalInt (fieldText record 13)).getD 0
    WEP := decide (decimalInt (fieldText record 14) = some 1)
    WPA1 := decide (decimalInt (fieldText record 15) = some 1)
    WPA2 := decide (decimalInt (fieldText record 16) = some 1)
    IPSrc := ipOf (fieldText record 17)
    IPDst := ipOf (fieldText record 18) }

/-- The test line with the ESSID field `éX`, whose first character `é` is the two
bytes `c3 a9`. -/
def aLineAccentESSID : List GoString := aLine.set 11 [0xc3, 0xa9, 0x58]

/-- The test line with the Signal field `é-49`: the first character `é` (the two bytes
`c3 a9`), then the integer `-49`. -/
def aLineAccentSignal : List GoString := aLine.set 6 (0xc3 :: 0xa9 :: str "-49")

/-- The test line with its two addresses in colon-hexadecimal form. -/
def aLineIPv6 : List GoString :=
  (aLine.set 17 (str " fe80::1:abcd")).set 18 (str " 2001:db8:0:0:0:ff00:42:8329")
/-! ## Lemmas: `strconv.Atoi` against the base-10 reading -/

theorem digitsAcc_cons (n c : Nat) (ds : List Nat) :
    digitsAcc n (c :: ds) = digitsAcc (n * 10 + (c - 48)) ds := rfl

theorem le_digitsAcc (ds : List Nat) : ∀ n, n ≤ digitsAcc n ds := by
  induction ds with
  | nil => intro n; exact Nat.le_refl _
  | cons c rest ih =>
    intro n
    rw [digitsAcc_cons]
    have := ih (n * 10 + (c - 48))
    omega

theorem digitsAcc_lt_pow (ds : List Nat) (hd : ds.all isDecDigit = true) :
    ∀ n, digitsAcc n ds + 1 ≤ (n + 1) * 10 ^ ds.length := by
  induction ds with
  | nil => intro n; simp [digitsAcc]
  | cons c rest ih =>
    intro n
    simp only [List.all_cons, Bool.and_eq_true, isDecDigit, decide_eq_true_eq] at hd
    rw [digitsAcc_cons, List.length_cons, pow_succ]
    have h1 := ih hd.2 (n * 10 + (c - 48))
    have h2 : (n * 10 + (c - 48) + 1) * 10 ^ rest.length ≤ ((n + 1) * 10) * 10 ^ rest.length :=
      Nat.mul_le_mul_right _ (by omega)
    calc digitsAcc (n * 10 + (c - 48)) rest + 1
        ≤ (n * 10 + (c - 48) + 1) * 10 ^ rest.length := h1
      _ ≤ ((n + 1) * 10) * 10 ^ rest.length := h2
      _ = (n + 1) * (10 ^ rest.length * 10) := by ring

theorem digitsValue_lt (ds : List Nat) (hd : ds.all isDecDigit = true) (hl : ds.length ≤ 18) :
    digitsValue ds < 10 ^ 18 := by
  have h := digitsAcc_lt_pow ds hd 0
  have h2 : 10 ^ ds.length ≤ 10 ^ 18 := Nat.pow_le_pow_right (by norm_num) hl
  simp only [digitsValue]
  omega

namespace strconv

theorem wrapInt_eq (x : Int) (h1 : -(2 : Int) ^ 63 ≤ x) (h2 : x < 2 ^ 63) : wrapInt x = x := by
  simp only [wrapInt, intSize] at *
  norm_num at *
  omega

/-- The fast loop on a run of digits whose value fits: no wrap-around occurs. -/
theorem atoiLoop_digits (s0 : GoString) (ds : List Nat) (hd : ds.all isDecDigit = true) :
    ∀ n : Nat, digitsAcc n ds < 2 ^ 63 → atoiLoop s0 ds (n : Int) = (((digitsAcc n ds : Nat) : Int), none) := by
  induction ds with
  | nil => intro n _; rfl
  | cons c rest ih =>
    intro n hn
    simp only [List.all_cons, Bool.and_eq_true, isDecDigit, decide_eq_true_eq] at hd
    rw [digitsAcc_cons] at hn ⊢
    have hle := le_digitsAcc rest (n * 10 + (c - 48))
    have hc : ¬ c < 48 := by omega
    have h9 : ¬ c - 48 > 9 := by omega
    have hw : wrapInt ((n : Int) * 10 + ((c - 48 : Nat) : Int)) = ((n * 10 + (c - 48) : Nat) : Int) := by
      rw [wrapInt_eq]
      · push_cast; rfl
      · have : (0 : Int) ≤ (n : Int) * 10 + ((c - 48 : Nat) : Int) := by positivity
        norm_num
        omega
      · norm_num at hn ⊢
        omega
    simp only [atoiLoop, hc, if_false, h9, hw]
    exact ih hd.2 _ hn

/-- The fast loop on a text with a byte that is no digit: a syntax error. -/
theorem atoiLoop_bad (s0 : GoString) (ds : List Nat) (hd : ds.all isDecDigit = false) :
    ∀ n : Int, atoiLoop s0 ds n = (0, some (syntaxError fnAtoi s0)) := by
  induction ds with
  | nil => simp at hd
  | cons c rest ih =>
    intro n
    simp only [atoiLoop]
    by_cases hc : isDecDigit c = true
    · have hr : rest.all isDecDigit = false := by
        simp only [List.all_cons, hc, Bool.true_and] at hd
        exact hd
      simp only [isDecDigit, decide_eq_true_eq] at hc
      have h1 : ¬ c < 48 := by omega
      have h9 : ¬ c - 48 > 9 := by omega
      simp only [h1, if_false, h9]
      exact ih hr _
    · simp only [isDecDigit, decide_eq_true_eq] at hc
      by_cases h1 : c < 48
      · have : c + 256 - 48 > 9 := by omega
        simp only [h1, if_true, this]
      · have : c - 48 > 9 := by omega
        simp only [h1, if_false, this, if_true]

end strconv

namespace strconv

/-- The loop of `ParseUint` on a run of digits: the value, or a range error as soon as
the value leaves `uint64`. -/
theorem parseUintLoop_digits (s0 : GoString) (ds : List Nat) (hd : ds.all isDecDigit = true) :
    ∀ n, n ≤ 18446744073709551615 →
      parseUintLoop s0 10 1844674407370955162 18446744073709551615 ds n =
        if digitsAcc n ds ≤ 18446744073709551615 then (digitsAcc n ds, none)
        else (18446744073709551615, some (rangeError fnParseUint s0)) := by
  induction ds with
  | nil => intro n hn; simp [parseUintLoop, digitsAcc, hn]
  | cons c rest ih =>
    intro n hn
    simp only [List.all_cons, Bool.and_eq_true, isDecDigit, decide_eq_true_eq] at hd
    have hle := le_digitsAcc rest (n * 10 + (c - 48))
    rw [digitsAcc_cons]
    have hdig : 48 ≤ c ∧ c ≤ 57 := hd.1
    have hb : ¬ c - 48 ≥ 10 := by omega
    simp only [parseUintLoop, hdig, and_self, if_true, hb, if_false]
    norm_num only
    by_cases h1 : n ≥ 1844674407370955162
    · have : ¬ digitsAcc (n * 10 + (c - 48)) rest ≤ 18446744073709551615 := by omega
      simp only [h1, if_true, this, if_false]
    · have hm : n * 10 % 18446744073709551616 = n * 10 := Nat.mod_eq_of_lt (by omega)
      simp only [h1, if_false, hm]
      by_cases h2 : n * 10 + (c - 48) < 18446744073709551616
      · have hm2 : (n * 10 + (c - 48)) % 18446744073709551616 = n * 10 + (c - 48) :=
          Nat.mod_eq_of_lt h2
        have h3 : ¬ (n * 10 + (c - 48) < n * 10 ∨ n * 10 + (c - 48) > 18446744073709551615) := by
          omega
        simp only [hm2, h3, if_false]
        exact ih hd.2 _ (by omega)
      · have h3 : (n * 10 + (c - 48)) % 18446744073709551616 < n * 10 ∨
            (n * 10 + (c - 48)) % 18446744073709551616 > 18446744073709551615 := by omega
        have : ¬ digitsAcc (n * 10 + (c - 48)) rest ≤ 18446744073709551615 := by omega
        simp only [h3, if_true, this, if_false]

/-- The loop of `ParseUint` on a text with a byte that is no digit: an error, either
the syntax error or (when the digits before that byte already overflow) the range
error. -/
theorem parseUintLoop_bad (s0 : GoString) (ds : List Nat) (hd : ds.all isDecDigit = false) :
    ∀ n, parseUintLoop s0 10 1844674407370955162 18446744073709551615 ds n =
          (0, some (syntaxError fnParseUint s0)) ∨
        parseUintLoop s0 10 1844674407370955162 18446744073709551615 ds n =
          (18446744073709551615, some (rangeError fnParseUint s0)) := by
  induction ds with
  | nil => simp at hd
  | cons c rest ih =>
    intro n
    by_cases hc : isDecDigit c = true
    · have hr : rest.all isDecDigit = false := by
        simp only [List.all_cons, hc, Bool.true_and] at hd
        exact hd
      simp only [isDecDigit, decide_eq_true_eq] at hc
      have hb : ¬ c - 48 ≥ 10 := by omega
      simp only [parseUintLoop, hc, and_self, if_true, hb, if_false]
      split_ifs
      · exact Or.inr rfl
      · exact Or.inr rfl
      · exact ih hr _
    · simp only [isDecDigit, decide_eq_true_eq] at hc
      simp only [parseUintLoop, hc, if_false]
      split_ifs with h1 h2
      · exact Or.inl rfl
      · exfalso; omega
      · exfalso; omega
      · exfalso; omega
      · exact Or.inl rfl

theorem ParseUint_digits (ds : List Nat) (hd : isDigits ds = true) :
    ParseUint ds =
      if digitsValue ds ≤ 18446744073709551615 then (digitsValue ds, none)
      else (18446744073709551615, some (rangeError fnParseUint ds)) := by
  simp only [isDigits, Bool.and_eq_true, Bool.not_eq_true', List.isEmpty_eq_false] at hd
  have := parseUintLoop_digits ds ds hd.2 0 (by norm_num)
  simp only [ParseUint, hd.1, if_false, intSize]
  norm_num only
  exact this

theorem ParseUint_bad (ds : List Nat) (hd : isDigits ds = false) :
    ParseUint ds = (0, some (syntaxError fnParseUint ds)) ∨
      ParseUint ds = (18446744073709551615, some (rangeError fnParseUint ds)) := by
  by_cases he : ds = []
  · subst he; exact Or.inl rfl
  · have hall : ds.all isDecDigit = false := by
      cases ds with
      | nil => exact absurd rfl he
      | cons c t => simpa [isDigits] using hd
    have := parseUintLoop_bad ds ds hall 0
    simp only [ParseUint, he, if_false, intSize]
    norm_num only
    exact this

end strconv

namespace strconv

/-- What `ParseInt` makes of the result of `ParseUint` on the digits. -/
theorem ParseInt_cons (c : Nat) (t : GoString) :
    ParseInt (c :: t) =
      match ParseUint (if c = 43 ∨ c = 45 then t else c :: t) with
      | (_, some (.numError _ _ .ErrSyntax)) => (0, some (.numError fnParseInt (c :: t) .ErrSyntax))
      | (un, _) =>
        if !(decide (c = 45)) ∧ un ≥ 2 ^ 63 then
          (wrapInt64 ((2 ^ 63 - 1 : Nat) : Int), some (rangeError fnParseInt (c :: t)))
        else if decide (c = 45) ∧ un > 2 ^ 63 then
          (wrapInt64 (-((2 ^ 63 : Nat) : Int)), some (rangeError fnParseInt (c :: t)))
        else
          (if decide (c = 45) then wrapInt64 (-(wrapInt64 un)) else wrapInt64 un, none) := by
  simp only [ParseInt, List.headD_cons, List.drop_one, List.tail_cons, intSize]
  rfl

/-- `ParseInt` on the digits `ds` with sign `neg`: the result for a text that is
well-formed. -/
theorem parseInt_digits (c : Nat) (t ds : GoString)
    (hs : (if c = 43 ∨ c = 45 then t else c :: t) = ds) (hd : isDigits ds = true) :
    ParseInt (c :: t) =
      if c = 45 then
        (if digitsValue ds ≤ 2 ^ 63 then (-(digitsValue ds : Int), none)
         else (-(2 : Int) ^ 63, some (rangeError fnParseInt (c :: t))))
      else
        (if digitsValue ds < 2 ^ 63 then ((digitsValue ds : Int), none)
         else ((2 : Int) ^ 63 - 1, some (rangeError fnParseInt (c :: t)))) := by
  rw [ParseInt_cons, hs, ParseUint_digits ds hd]
  by_cases hmax : digitsValue ds ≤ 18446744073709551615
  · simp only [hmax, if_true]
    by_cases hneg : c = 45
    · simp only [hneg, decide_True, Bool.not_true, Bool.false_eq_true, false_and, if_false,
        true_and, if_true]
      by_cases h2 : digitsValue ds > 2 ^ 63
      · have h3 : ¬ digitsValue ds ≤ 2 ^ 63 := by omega
        simp only [h2, if_true, h3, if_false, wrapInt64]
        norm_num
      · have h3 : digitsValue ds ≤ 2 ^ 63 := by omega
        simp only [h2, if_false, h3, if_true, wrapInt64]
        norm_num at h3 ⊢
        omega
    · simp only [hneg, decide_False, Bool.not_false, true_and, Bool.false_eq_true, false_and,
        if_false]
      by_cases h2 : digitsValue ds ≥ 2 ^ 63
      · have h3 : ¬ digitsValue ds < 2 ^ 63 := by omega
        simp only [h2, if_true, h3, if_false, wrapInt64]
        norm_num
      · have h3 : digitsValue ds < 2 ^ 63 := by omega
        simp only [h2, if_false, h3, if_true, wrapInt64]
        norm_num at h3 ⊢
        omega
  · simp only [hmax, if_false, rangeError]
    by_cases hneg : c = 45
    · have h3 : ¬ digitsValue ds ≤ 2 ^ 63 := by norm_num; omega
      simp only [hneg, decide_True, Bool.not_true, Bool.false_eq_true, false_and, if_false,
        true_and, if_true, h3, wrapInt64]
      norm_num
    · have h3 : ¬ digitsValue ds < 2 ^ 63 := by norm_num; omega
      simp only [hneg, decide_False, Bool.not_false, true_and, Bool.false_eq_true, false_and,
        if_false, h3, wrapInt64]
      norm_num

end strconv

theorem decimalInt_cons (c : Nat) (t : GoString) :
    decimalInt (c :: t) =
      if isDigits (unsignedPart (c :: t)) then
        some (if c = 45 then -(digitsValue (unsignedPart (c :: t)) : Int)
              else (digitsValue (unsignedPart (c :: t)) : Int))
      else none := by
  simp only [decimalInt, unsignedPart]
  by_cases h1 : c = 43
  · subst h1; simp
  · by_cases h2 : c = 45
    · subst h2; simp
    · simp [h1, h2]

namespace strconv

theorem parseInt_bad (c : Nat) (t : GoString) (hd : isDigits (unsignedPart (c :: t)) = false) :
    ∃ x e, ParseInt (c :: t) = (x, some (.numError fnParseInt (c :: t) e)) := by
  rw [ParseInt_cons]
  have hu : (if c = 43 ∨ c = 45 then t else c :: t) = unsignedPart (c :: t) := rfl
  rw [hu]
  rcases ParseUint_bad _ hd with h | h
  · rw [h]; exact ⟨_, _, rfl⟩
  · rw [h]
    simp only [rangeError]
    by_cases hneg : c = 45
    · simp only [hneg, decide_True, Bool.not_true, Bool.false_eq_true, false_and, if_false,
        true_and]
      norm_num
    · simp only [hneg, decide_False, Bool.not_false, true_and]
      norm_num

theorem Atoi_fast (c : Nat) (t : GoString) (h : (c :: t).length < 19) :
    Atoi (c :: t) =
      if (c = 45 ∨ c = 43) ∧ (unsignedPart (c :: t)).length < 1 then
        (0, some (syntaxError fnAtoi (c :: t)))
      else
        match atoiLoop (c :: t) (unsignedPart (c :: t)) 0 with
        | (_, some e) => (0, some e)
        | (n, none) => (if c = 45 then wrapInt (-n) else n, none) := by
  have hu : unsignedPart (c :: t) = if c = 45 ∨ c = 43 then t else c :: t := by
    simp only [unsignedPart, or_comm]
  have hl : (intSize = 32 ∧ 0 < (c :: t).length ∧ (c :: t).length < 10) ∨
      (intSize = 64 ∧ 0 < (c :: t).length ∧ (c :: t).length < 19) := by
    right; exact ⟨rfl, by simp, h⟩
  simp only [Atoi, hl, if_true, List.headD_cons, List.drop_one, List.tail_cons, hu]

theorem Atoi_slow (s : GoString) (h : ¬ (0 < s.length ∧ s.length < 19)) :
    Atoi s =
      match ParseInt s with
      | (i64, some (.numError _ num e)) => (wrapInt i64, some (.numError fnAtoi num e))
      | (i64, err) => (wrapInt i64, err) := by
  have hl : ¬ ((intSize = 32 ∧ 0 < s.length ∧ s.length < 10) ∨
      (intSize = 64 ∧ 0 < s.length ∧ s.length < 19)) := by
    simp only [intSize]
    omega
  simp only [Atoi, hl, if_false]

/-- `Atoi` against the base-10 reading of the text: the integer when it fits `int`, the
range error when it does not, an error when the text is no base-10 integer. -/
theorem Atoi_spec (s : GoString) :
    (∃ v, decimalInt s = some v ∧ fitsInt v = true ∧ Atoi s = (v, none)) ∨
    (∃ v x, decimalInt s = some v ∧ fitsInt v = false ∧
      Atoi s = (x, some (.numError fnAtoi s .ErrRange))) ∨
    (∃ x e, decimalInt s = none ∧ Atoi s = (x, some (.numError fnAtoi s e))) := by
  cases s with
  | nil => right; right; exact ⟨_, _, rfl, rfl⟩
  | cons c t =>
    rw [decimalInt_cons]
    by_cases hd : isDigits (unsignedPart (c :: t)) = true
    · -- a base-10 integer
      simp only [hd, if_true]
      have hd' := hd
      simp only [isDigits, Bool.and_eq_true, Bool.not_eq_true', List.isEmpty_eq_false] at hd'
      by_cases hfast : (c :: t).length < 19
      · -- fast path: the value is below 10^18
        left
        have hlen : (unsignedPart (c :: t)).length ≤ 18 := by
          simp only [unsignedPart]
          split_ifs <;> simp only [List.length_cons] at hfast ⊢ <;> omega
        have hv := digitsValue_lt _ hd'.2 hlen
        have hloop := atoiLoop_digits (c :: t) _ hd'.2 0 (by
          show digitsValue _ < 2 ^ 63
          norm_num; omega)
        have hne : ¬ ((c = 45 ∨ c = 43) ∧ (unsignedPart (c :: t)).length < 1) := by
          intro hx
          have := hd'.1
          cases hu : unsignedPart (c :: t) with
          | nil => exact this hu
          | cons a b => rw [hu] at hx; simp at hx
        refine ⟨_, rfl, ?_, ?_⟩
        · simp only [fitsInt, decide_eq_true_eq]
          split_ifs <;> norm_num <;> omega
        · rw [Atoi_fast c t hfast]
          simp only [hne, if_false]
          have h0 : ((0 : Nat) : Int) = 0 := rfl
          rw [← h0, hloop]
          simp only [digitsValue]
          by_cases hneg : c = 45
          · subst hneg
            simp only [if_true]
            rw [wrapInt_eq]
            · norm_num; simp only [digitsValue] at hv; omega
            · norm_num; simp only [digitsValue] at hv; omega
          · simp only [hneg, if_false]
      · -- slow path
        have hs := parseInt_digits c t (unsignedPart (c :: t)) rfl hd
        have hslow := Atoi_slow (c :: t) (by omega)
        by_cases hneg : c = 45
        · simp only [hneg, if_true] at hs ⊢
          by_cases hfit : digitsValue (unsignedPart (45 :: t)) ≤ 2 ^ 63
          · left
            subst hneg
            simp only [hfit, if_true] at hs
            refine ⟨_, rfl, ?_, ?_⟩
            · simp only [fitsInt, decide_eq_true_eq]; norm_num at hfit ⊢; omega
            · rw [hslow, hs]
              simp only []
              rw [wrapInt_eq]
              · norm_num at hfit ⊢; omega
              · norm_num at hfit ⊢; omega
          · right; left
            subst hneg
            simp only [hfit, if_false] at hs
            refine ⟨_, wrapInt (-(2 : Int) ^ 63), rfl, ?_, ?_⟩
            · simp only [fitsInt, decide_eq_false_iff_not]; norm_num at hfit ⊢; omega
            · rw [hslow, hs]
              rfl
        · simp only [hneg, if_false] at hs ⊢
          by_cases hfit : digitsValue (unsignedPart (c :: t)) < 2 ^ 63
          · left
            simp only [hfit, if_true] at hs
            refine ⟨_, rfl, ?_, ?_⟩
            · simp only [fitsInt, decide_eq_true_eq]; norm_num at hfit ⊢; omega
            · rw [hslow, hs]
              simp only []
              rw [wrapInt_eq]
              · norm_num at hfit ⊢; omega
              · norm_num at hfit ⊢; omega
          · right; left
            simp only [hfit, if_false] at hs
            refine ⟨_, wrapInt ((2 : Int) ^ 63 - 1), rfl, ?_, ?_⟩
            · simp only [fitsInt, decide_eq_false_iff_not]; norm_num at hfit ⊢; omega
            · rw [hslow, hs]
              rfl
    · -- not a base-10 integer
      right; right
      have hd0 : isDigits (unsignedPart (c :: t)) = false := by
        simpa using hd
      simp only [hd0, Bool.false_eq_true, if_false, true_and]
      by_cases hfast : (c :: t).length < 19
      · rw [Atoi_fast c t hfast]
        by_cases hne : (c = 45 ∨ c = 43) ∧ (unsignedPart (c :: t)).length < 1
        · simp only [hne, and_self, if_true]
          exact ⟨_, _, rfl⟩
        · simp only [hne, if_false]
          have hall : (unsignedPart (c :: t)).all isDecDigit = false := by
            cases hu : unsignedPart (c :: t) with
            | nil =>
              exfalso
              simp only [unsignedPart] at hu
              split_ifs at hu with h1
              · subst hu
                apply hne
                simp only [unsignedPart, h1, if_true, List.length_nil]
                exact ⟨by tauto, by norm_num⟩
            | cons a b =>
              rw [hu] at hd0
              simpa [isDigits] using hd0
          rw [atoiLoop_bad _ _ hall]
          exact ⟨_, _, rfl⟩
      · rw [Atoi_slow (c :: t) (by omega)]
        obtain ⟨x, e, hx⟩ := parseInt_bad c t hd0
        rw [hx]
        exact ⟨_, _, rfl⟩

end strconv

/-! ## Lemmas: `hex.DecodeString` against the digit pairs -/

namespace hex

theorem reverseHexTable_digit (c : Nat) (h : isHexDigit c = true) :
    reverseHexTable c = hexVal c ∧ hexVal c ≤ 15 := by
  simp only [isHexDigit, decide_eq_true_eq] at h
  simp only [reverseHexTable, hexVal]
  split_ifs <;> omega

theorem reverseHexTable_other (c : Nat) (h : isHexDigit c = false) :
    reverseHexTable c > 0x0f := by
  simp only [isHexDigit, decide_eq_false_iff_not] at h
  simp only [reverseHexTable]
  split_ifs <;> omega

theorem nibbles (a b : Nat) (ha : a ≤ 15) (hb : b ≤ 15) :
    ((a <<< 4) ||| b) % 256 = 16 * a + b := by
  have h : ∀ a < 16, ∀ b < 16, ((a <<< 4) ||| b) % 256 = 16 * a + b := by decide
  exact h a (by omega) b (by omega)

/-- Decoding a string of hex digits of even length gives its digit pairs. -/
theorem Decode_hexString : ∀ s : GoString, isHexString s = true → Decode s = (hexPairs s, none)
  | [], _ => rfl
  | [p], h => by simp [isHexString] at h
  | p :: q :: rest, h => by
    simp only [isHexString, List.all_cons, Bool.and_eq_true, decide_eq_true_eq,
      List.length_cons] at h
    obtain ⟨⟨hp, hq, hr⟩, hl⟩ := h
    have ih := Decode_hexString rest (by
      simp only [isHexString, Bool.and_eq_true, decide_eq_true_eq]
      exact ⟨hr, by omega⟩)
    obtain ⟨hp1, hp2⟩ := reverseHexTable_digit p hp
    obtain ⟨hq1, hq2⟩ := reverseHexTable_digit q hq
    have h1 : ¬ hexVal p > 0x0f := by omega
    have h2 : ¬ hexVal q > 0x0f := by omega
    simp only [Decode, hp1, hq1, h1, h2, if_false, ih, hexPairs, nibbles _ _ hp2 hq2]

/-- Decoding any other string gives an error. -/
theorem Decode_other : ∀ s : GoString, isHexString s = false → ∃ e, (Decode s).2 = some e
  | [], h => by simp [isHexString] at h
  | [p], _ => by
    simp only [Decode]
    split_ifs <;> exact ⟨_, rfl⟩
  | p :: q :: rest, h => by
    simp only [Decode]
    split_ifs with h1 h2
    · exact ⟨_, rfl⟩
    · exact ⟨_, rfl⟩
    · have hp : isHexDigit p = true := by
        by_contra hc
        have := reverseHexTable_other p (by simpa using hc)
        omega
      have hq : isHexDigit q = true := by
        by_contra hc
        have := reverseHexTable_other q (by simpa using hc)
        omega
      have hr : isHexString rest = false := by
        simp only [isHexString, List.all_cons, hp, hq, Bool.true_and, List.length_cons] at h
        simp only [isHexString]
        have e : ((rest.length + 1 + 1) % 2 = 0) = (rest.length % 2 = 0) := by
          apply propext; omega
        simpa only [e] using h
      obtain ⟨e, he⟩ := Decode_other rest hr
      exact ⟨e, he⟩

theorem hexPairs_length : ∀ s : GoString, (hexPairs s).length = s.length / 2
  | [] => rfl
  | [_] => by simp [hexPairs]
  | p :: q :: rest => by
    simp only [hexPairs, List.length_cons, hexPairs_length rest]
    omega

theorem hexPairs_getD : ∀ (s : GoString) (k : Nat), 2 * k + 1 < s.length →
    (hexPairs s).getD k 0 = 16 * hexVal (s.getD (2 * k) 0) + hexVal (s.getD (2 * k + 1) 0)
  | [], k, h => by simp at h
  | [_], k, h => by simp at h
  | p :: q :: rest, 0, _ => by simp [hexPairs]
  | p :: q :: rest, k + 1, h => by
    have ih := hexPairs_getD rest k (by simp only [List.length_cons] at h; omega)
    have e : 2 * (k + 1) = 2 * k + 1 + 1 := by ring
    simp only [hexPairs, List.getD_cons_succ, e, ih]

end hex

/-! ## Lemmas: the strip loop, the index expressions and the successful decode -/

set_option linter.unusedTactic false

theorem stripLoop_succ_ok (rs : List GoString) (h : ∀ r ∈ rs, r ≠ []) :
    ∀ i, stripLoop (i + 1) rs = .ok (rs.map (fun r => r.drop 1)) := by
  induction rs with
  | nil => intro i; rfl
  | cons r rest ih =>
    intro i
    have hr : r ≠ [] := h r (List.mem_cons_self _ _)
    have ih' := ih (fun x hx => h x (List.mem_cons_of_mem _ hx)) (i + 1)
    cases r with
    | nil => exact absurd rfl hr
    | cons c r1 =>
      simp only [stripLoop, Nat.add_one_ne_zero, if_false, ih', List.map_cons, List.drop_one,
        List.tail_cons]

theorem stripLoop_succ_inv (rs : List GoString) :
    ∀ i r', stripLoop (i + 1) rs = .ok r' →
      r' = rs.map (fun r => r.drop 1) ∧ ∀ r ∈ rs, r ≠ [] := by
  induction rs with
  | nil =>
    intro i r' h
    simp only [stripLoop] at h
    cases h
    exact ⟨rfl, fun r hr => absurd hr (List.not_mem_nil r)⟩
  | cons r rest ih =>
    intro i r' h
    cases r with
    | nil => simp [stripLoop] at h
    | cons c r1 =>
      simp only [stripLoop, Nat.add_one_ne_zero, if_false] at h
      cases hs : stripLoop (i + 1 + 1) rest with
      | error e => rw [hs] at h; cases h
      | ok rs' =>
        rw [hs] at h
        cases h
        obtain ⟨h1, h2⟩ := ih (i + 1) rs' hs
        refine ⟨by simp [h1], ?_⟩
        intro x hx
        rcases List.mem_cons.mp hx with rfl | hx
        · exact List.cons_ne_nil _ _
        · exact h2 x hx

theorem stripLoop_succ_err (rs : List GoString) (h : ∃ r ∈ rs, r = []) :
    ∀ i, ∃ e, stripLoop (i + 1) rs = .error e := by
  intro i
  cases hs : stripLoop (i + 1) rs with
  | error e => exact ⟨e, rfl⟩
  | ok r' =>
    obtain ⟨r, hr, he⟩ := h
    exact absurd he ((stripLoop_succ_inv rs i r' hs).2 r hr)

/-- The strip loop completes exactly when no element after the first is empty, and
then leaves `strippedRecord`. -/
theorem stripLoop_ok (record : List GoString) (h : ∀ r ∈ record.tail, r ≠ []) :
    stripLoop 0 record = .ok (strippedRecord record) := by
  cases record with
  | nil => rfl
  | cons r rest =>
    simp only [List.tail_cons] at h
    simp only [stripLoop, if_true, stripLoop_succ_ok rest h 0, strippedRecord]

theorem stripLoop_inv (record r' : List GoString) (h : stripLoop 0 record = .ok r') :
    r' = strippedRecord record ∧ ∀ r ∈ record.tail, r ≠ [] := by
  cases record with
  | nil =>
    simp only [stripLoop] at h
    cases h
    exact ⟨rfl, fun r hr => absurd hr (List.not_mem_nil r)⟩
  | cons r rest =>
    simp only [stripLoop, if_true] at h
    cases hs : stripLoop (0 + 1) rest with
    | error e => rw [hs] at h; cases h
    | ok rs' =>
      rw [hs] at h
      cases h
      obtain ⟨h1, h2⟩ := stripLoop_succ_inv rest 0 rs' hs
      exact ⟨by simp [strippedRecord, h1], h2⟩

theorem stripLoop_err (record : List GoString) (h : ∃ r ∈ record.tail, r = []) :
    ∃ e, stripLoop 0 record = .error e := by
  cases hs : stripLoop 0 record with
  | error e => exact ⟨e, rfl⟩
  | ok r' =>
    obtain ⟨r, hr, he⟩ := h
    exact absurd he ((stripLoop_inv record r' hs).2 r hr)

theorem strippedRecord_length (record : List GoString) :
    (strippedRecord record).length = record.length := by
  cases record <;> simp [strippedRecord]

theorem index_lt (r : List GoString) (i : Nat) (h : i < r.length) :
    index r i = .ok (r.getD i []) := by
  simp only [index, List.getD_eq_getElem?_getD, List.get?_eq_getElem?, List.getElem?_eq_getElem h,
    Option.getD_some]

theorem index_ge (r : List GoString) (i : Nat) (h : r.length ≤ i) :
    index r i = .error (.panicked r (.indexOutOfRange i r.length)) := by
  simp only [index, List.get?_eq_getElem?, List.getElem?_eq_none h]

theorem index_eq (r : List GoString) (i : Nat) :
    index r i = if i < r.length then .ok (r.getD i [])
      else .error (.panicked r (.indexOutOfRange i r.length)) := by
  split_ifs with h
  · exact index_lt r i h
  · exact index_ge r i (by omega)

theorem index_ok_iff (r : List GoString) (i : Nat) (x : GoString) :
    index r i = .ok x ↔ i < r.length ∧ r.getD i [] = x := by
  rw [index_eq]
  split_ifs with h
  · simp [h]
  · simp [h]

theorem index_error_iff (r : List GoString) (i : Nat) (out : Outcome) :
    index r i = .error out ↔
      r.length ≤ i ∧ out = .panicked r (.indexOutOfRange i r.length) := by
  rw [index_eq]
  split_ifs with h
  · simp [h]
  · simp only [Except.error.injEq]
    constructor
    · intro e; exact ⟨by omega, e.symm⟩
    · intro e; exact e.2.symm

/-- The decode returns without error exactly under the conditions `Parsed`. -/
theorem decode_ok_iff (r r' : List GoString) (l : Packet) :
    decode r = .returned r' l none ↔ r' = r ∧ Parsed r l := by
  constructor
  · intro h
    unfold decode at h
    simp only [] at h
    repeat' split at h
    all_goals try (exfalso; cases h; done)
    all_goals try (exfalso; subst h; simp only [index_error_iff, reduceCtorEq, and_false] at *)
    simp only [index_ok_iff] at *
    casesm* _ ∧ _
    subst_vars
    simp only [Outcome.returned.injEq, and_true] at h
    obtain ⟨h1, h2⟩ := h
    subst h1 h2
    refine ⟨rfl, ?_⟩
    constructor <;> dsimp only
    all_goals try assumption
    all_goals try exact Prod.ext rfl (by assumption)
    all_goals exact ⟨_, by assumption, by assumption⟩
  · rintro ⟨rfl, h⟩
    obtain ⟨v14, h14, g14⟩ := h.wep
    obtain ⟨v15, h15, g15⟩ := h.wpa1
    obtain ⟨v16, h16, g16⟩ := h.wpa2
    have hl := h.len
    have i0 : 0 < r'.length := by omega
    have i1 : 1 < r'.length := by omega
    have i2 : 2 < r'.length := by omega
    have i3 : 3 < r'.length := by omega
    have i4 : 4 < r'.length := by omega
    have i5 : 5 < r'.length := by omega
    have i6 : 6 < r'.length := by omega
    have i7 : 7 < r'.length := by omega
    have i8 : 8 < r'.length := by omega
    have i9 : 9 < r'.length := by omega
    have i10 : 10 < r'.length := by omega
    have i11 : 11 < r'.length := by omega
    have i12 : 12 < r'.length := by omega
    have i13 : 13 < r'.length := by omega
    have i14 : 14 < r'.length := by omega
    have i15 : 15 < r'.length := by omega
    have i16 : 16 < r'.length := by omega
    have i17 : 17 < r'.length := by omega
    have i18 : 18 < r'.length := by omega
    simp only [decode, index_eq, i0, i1, i2, i3, i4, i5, i6, i7, i8, i9, i10, i11, i12, i13, i14,
      i15, i16, i17, i18, if_true, h.time, h.macsrc, h.macdst, h.bssid, h.signal, h.length,
      h.phyRate, h.frequency, h.tsf, h.mode, h.channel, h14, g14, h15, g15, h16, g16, h.ipSrc,
      h.ipDst, ← h.wlanType, ← h.packetTypes, ← h.essid]

/-! ## Lemmas: well-formed records and the successful decode -/

theorem pair_of_isNone {α β : Type} (p : α × Option β) (h : p.2.isNone = true) :
    p = (p.1, none) := by
  obtain ⟨a, b⟩ := p
  cases b with
  | none => rfl
  | some x => simp at h

theorem Atoi_of_decimal (s : GoString) (v : Int) (h : decimalInt s = some v)
    (hf : fitsInt v = true) : strconv.Atoi s = (v, none) := by
  rcases strconv.Atoi_spec s with ⟨w, h1, _, h3⟩ | ⟨w, x, h1, h2, _⟩ | ⟨x, e, h1, _⟩
  · rw [h] at h1; cases h1; exact h3
  · rw [h] at h1; cases h1; rw [hf] at h2; cases h2
  · rw [h] at h1; cases h1

theorem Atoi_ok_inv (s : GoString) (v : Int) (h : strconv.Atoi s = (v, none)) :
    decimalInt s = some v ∧ fitsInt v = true := by
  rcases strconv.Atoi_spec s with ⟨w, h1, h2, h3⟩ | ⟨w, x, _, _, h3⟩ | ⟨x, e, _, h3⟩
  · rw [h] at h3; cases h3; exact ⟨h1, h2⟩
  · rw [h] at h3; cases h3
  · rw [h] at h3; cases h3

theorem Atoi_of_isIntText (s : GoString) (h : isIntText s = true) :
    strconv.Atoi s = ((decimalInt s).getD 0, none) := by
  simp only [isIntText] at h
  cases hd : decimalInt s with
  | none => rw [hd] at h; cases h
  | some v =>
    rw [hd] at h
    exact Atoi_of_decimal s v hd h

theorem isIntText_of_Atoi (s : GoString) (v : Int) (h : strconv.Atoi s = (v, none)) :
    isIntText s = true ∧ (decimalInt s).getD 0 = v := by
  obtain ⟨h1, h2⟩ := Atoi_ok_inv s v h
  simp only [isIntText, h1, h2, Option.getD_some, and_self]

theorem toBool_ok_iff (v : Int) (b : Bool) :
    toBool v = (b, none) ↔ (v = 1 ∧ b = true) ∨ (v = 0 ∧ b = false) := by
  simp only [toBool]
  split_ifs with h1 h0
  · subst h1; simp
  · subst h0; simp
  · simp [h1, h0]

theorem flag_of_isFlagText (s : GoString) (h : isFlagText s = true) :
    ∃ v, strconv.Atoi s = (v, none) ∧ toBool v = (decide (decimalInt s = some 1), none) := by
  simp only [isFlagText, decide_eq_true_eq] at h
  rcases h with h | h
  · exact ⟨0, Atoi_of_decimal s 0 h (by decide), by rw [h]; decide⟩
  · exact ⟨1, Atoi_of_decimal s 1 h (by decide), by rw [h]; decide⟩

theorem isFlagText_of_flag (s : GoString) (v : Int) (b : Bool)
    (h : strconv.Atoi s = (v, none)) (g : toBool v = (b, none)) :
    isFlagText s = true ∧ decide (decimalInt s = some 1) = b := by
  obtain ⟨h1, _⟩ := Atoi_ok_inv s v h
  rcases (toBool_ok_iff v b).mp g with ⟨rfl, rfl⟩ | ⟨rfl, rfl⟩
  · simp [isFlagText, h1]
  · simp [isFlagText, h1]

theorem DecodeString_of_isHexString (s : GoString) (h : isHexString s = true) :
    hex.DecodeString s = (hexPairs s, none) :=
  hex.Decode_hexString s h

theorem isHexString_of_DecodeString (s : GoString) (bs : List Nat)
    (h : hex.DecodeString s = (bs, none)) : isHexString s = true ∧ hexPairs s = bs := by
  by_cases hs : isHexString s = true
  · rw [DecodeString_of_isHexString s hs] at h
    cases h
    exact ⟨hs, rfl⟩
  · obtain ⟨e, he⟩ := hex.Decode_other s (by simpa using hs)
    simp only [hex.DecodeString] at h
    rw [h] at he
    cases he

theorem fieldText_eq (record : List GoString) (i : Nat) :
    (strippedRecord record).getD i [] = fieldText record i := rfl

/-- A well-formed record satisfies the conditions of a successful decode, with the
record it encodes. -/
theorem Parsed_of_WellFormed (record : List GoString) (h : WellFormed record) :
    Parsed (strippedRecord record) (encoded record) := by
  obtain ⟨hlen, _, hw⟩ := h
  have w := fun i (hi : i < 19) => hw i hi
  have w0 := w 0 (by norm_num)
  have w2 := w 2 (by norm_num)
  have w3 := w 3 (by norm_num)
  have w4 := w 4 (by norm_num)
  have w6 := w 6 (by norm_num)
  have w7 := w 7 (by norm_num)
  have w8 := w 8 (by norm_num)
  have w9 := w 9 (by norm_num)
  have w10 := w 10 (by norm_num)
  have w12 := w 12 (by norm_num)
  have w13 := w 13 (by norm_num)
  have w14 := w 14 (by norm_num)
  have w15 := w 15 (by norm_num)
  have w16 := w 16 (by norm_num)
  have w17 := w 17 (by norm_num)
  have w18 := w 18 (by norm_num)
  simp only [WellFormedAt] at w0 w2 w3 w4 w6 w7 w8 w9 w10 w12 w13 w14 w15 w16 w17 w18
  norm_num at w0 w2 w3 w4 w6 w7 w8 w9 w10 w12 w13 w14 w15 w16 w17 w18
  constructor <;> (try simp only [fieldText_eq, encoded])
  · rw [strippedRecord_length]; omega
  · exact pair_of_isNone _ (by simpa using w0)
  · exact pair_of_isNone _ (by simpa using w2)
  · exact pair_of_isNone _ (by simpa using w3)
  · exact pair_of_isNone _ (by simpa using w4)
  · exact Atoi_of_isIntText _ w6
  · exact Atoi_of_isIntText _ w7
  · exact Atoi_of_isIntText _ w8
  · exact Atoi_of_isIntText _ w9
  · exact DecodeString_of_isHexString _ w10
  · exact Atoi_of_isIntText _ w12
  · exact Atoi_of_isIntText _ w13
  · exact flag_of_isFlagText _ w14
  · exact flag_of_isFlagText _ w15
  · exact flag_of_isFlagText _ w16
  · exact pair_of_isNone _ (by simpa using w17)
  · exact pair_of_isNone _ (by simpa using w18)

theorem isNone_of_pair {α β : Type} (p : α × Option β) (a : α) (h : p = (a, none)) :
    p.2.isNone = true ∧ p.1 = a := by
  subst h
  exact ⟨rfl, rfl⟩

/-- The conditions of a successful decode make every one of the first 19 fields
well-formed, and the record returned is the encoded one. -/
theorem WellFormedAt_of_Parsed (record : List GoString) (l : Packet)
    (h : Parsed (strippedRecord record) l) :
    (∀ i, i < 19 → WellFormedAt i (fieldText record i) = true) ∧ l = encoded record := by
  obtain ⟨v14, h14, g14⟩ := h.wep
  obtain ⟨v15, h15, g15⟩ := h.wpa1
  obtain ⟨v16, h16, g16⟩ := h.wpa2
  have t0 := isNone_of_pair _ _ h.time
  have t2 := isNone_of_pair _ _ h.macsrc
  have t3 := isNone_of_pair _ _ h.macdst
  have t4 := isNone_of_pair _ _ h.bssid
  have t6 := isIntText_of_Atoi _ _ h.signal
  have t7 := isIntText_of_Atoi _ _ h.length
  have t8 := isIntText_of_Atoi _ _ h.phyRate
  have t9 := isIntText_of_Atoi _ _ h.frequency
  have t10 := isHexString_of_DecodeString _ _ h.tsf
  have t12 := isIntText_of_Atoi _ _ h.mode
  have t13 := isIntText_of_Atoi _ _ h.channel
  have t14 := isFlagText_of_flag _ _ _ h14 g14
  have t15 := isFlagText_of_flag _ _ _ h15 g15
  have t16 := isFlagText_of_flag _ _ _ h16 g16
  have t17 := isNone_of_pair _ _ h.ipSrc
  have t18 := isNone_of_pair _ _ h.ipDst
  have e1 := h.wlanType
  have e5 := h.packetTypes
  have e11 := h.essid
  simp only [fieldText_eq] at t0 t2 t3 t4 t6 t7 t8 t9 t10 t12 t13 t14 t15 t16 t17 t18 e1 e5 e11
  constructor
  · intro i hi
    interval_cases i <;>
      simp [WellFormedAt, t0.1, t2.1, t3.1, t4.1, t6.1, t7.1, t8.1, t9.1, t10.1, t12.1, t13.1,
        t14.1, t15.1, t16.1, t17.1, t18.1]
  · cases l
    simp only [encoded, Packet.mk.injEq]
    simp only [] at t0 t2 t3 t4 t6 t7 t8 t9 t10 t12 t13 t14 t15 t16 t17 t18 e1 e5 e11
    simp only [t0.2, t2.2, t3.2, t4.2, t6.2, t7.2, t8.2, t9.2, t10.2, t12.2, t13.2, t14.2,
      t15.2, t16.2, t17.2, t18.2, e1, e5, e11, and_self]

/-- A call returns without error exactly when the strip loop completes and the
stripped slice satisfies the conditions of a successful decode. -/
theorem ParseHorstFields_ok_iff (record r : List GoString) (l : Packet) :
    ParseHorstFields record = .returned r l none ↔
      NoEmptyField record ∧ r = strippedRecord record ∧ Parsed (strippedRecord record) l := by
  constructor
  · intro h
    simp only [ParseHorstFields] at h
    cases hs : stripLoop 0 record with
    | error e => rw [hs] at h; cases h
    | ok r1 =>
      rw [hs] at h
      obtain ⟨h1, h2⟩ := stripLoop_inv record r1 hs
      subst h1
      obtain ⟨h3, h4⟩ := (decode_ok_iff _ _ _).mp h
      exact ⟨h2, h3, h4⟩
  · rintro ⟨h1, rfl, h3⟩
    simp only [ParseHorstFields, stripLoop_ok record h1]
    exact (decode_ok_iff _ _ _).mpr ⟨rfl, h3⟩

/-- A well-formed record decodes to the record it encodes. -/
theorem decode_of_WellFormed (record : List GoString) (h : WellFormed record) :
    ParseHorstFields record = .returned (strippedRecord record) (encoded record) none :=
  (ParseHorstFields_ok_iff _ _ _).mpr ⟨h.2.1, rfl, Parsed_of_WellFormed record h⟩

/-- A record of 19 fields that decodes without error is well-formed. -/
theorem WellFormed_of_decode (record r : List GoString) (l : Packet)
    (hlen : record.length = 19) (h : ParseHorstFields record = .returned r l none) :
    WellFormed record ∧ r = strippedRecord record ∧ l = encoded record := by
  obtain ⟨h1, h2, h3⟩ := (ParseHorstFields_ok_iff _ _ _).mp h
  obtain ⟨h4, h5⟩ := WellFormedAt_of_Parsed record l h3
  exact ⟨⟨hlen, h1, h4⟩, h2, h5⟩

/-- The decode of the test line. -/
theorem decode_aLine :
    ParseHorstFields aLine = .returned (strippedRecord aLine)
      { Time := { year := 2025, month := 2, day := 11, hour := 8, min := 10, sec := 39,
                  nsec := 505813000, zoneOffset := 0 }
        WLANType := str "BEACON"
        MACSRC := [0x8c, 0x3b, 0xad, 0xf0, 0x94, 0x6e]
        MACDST := [0xff, 0xff, 0xff, 0xff, 0xff, 0xff]
        BSSID := [0x8c, 0x3b, 0xad, 0xf0, 0x94, 0x6e]
        PacketTypes := str "0"
        Signal := -49
        Length := 194
        PhyRate := 60
        Frequency := 2412
        TSF := [0x00, 0x00, 0x02, 0xad, 0x9e, 0x7e, 0x60, 0x61]
        ESSID := str "EXHO2"
        Mode := 1
        Channel := 1
        WEP := true
        WPA1 := false
        WPA2 := true
        IPSrc := netip.IPv4Unspecified
        IPDst := netip.IPv4Unspecified } none := by
  decide

/-! ## Lemmas: the caller's slice, partial decodes and the returned record -/

set_option linter.unusedTactic false

theorem map_drop_getD (rest : List GoString) :
    ∀ i, (rest.map (fun r => r.drop 1)).getD i [] = (rest.getD i []).drop 1 := by
  induction rest with
  | nil => intro i; simp
  | cons a t ih =>
    intro i
    cases i with
    | zero => simp
    | succ j => simpa using ih j

theorem strippedRecord_getD_zero (record : List GoString) :
    (strippedRecord record).getD 0 [] = record.getD 0 [] := by
  cases record <;> simp [strippedRecord]

theorem strippedRecord_getD_succ (record : List GoString) (i : Nat) :
    (strippedRecord record).getD (i + 1) [] = (record.getD (i + 1) []).drop 1 := by
  cases record with
  | nil => simp [strippedRecord]
  | cons r rest => simpa [strippedRecord] using map_drop_getD rest i

theorem noEmptyField_iff (record : List GoString) :
    NoEmptyField record ↔ ∀ i, 1 ≤ i → i < record.length → record.getD i [] ≠ [] := by
  cases record with
  | nil => simp [NoEmptyField]
  | cons r rest =>
    simp only [NoEmptyField, List.tail_cons, List.length_cons]
    constructor
    · intro h i hi hlt
      obtain ⟨j, rfl⟩ : ∃ j, i = j + 1 := ⟨i - 1, by omega⟩
      have hj : j < rest.length := by omega
      have hm : rest.getD j [] ∈ rest := by
        rw [List.getD_eq_getElem _ _ hj]
        exact List.getElem_mem _
      simpa using h _ hm
    · intro h x hx
      obtain ⟨j, hj, rfl⟩ := List.getElem_of_mem hx
      have := h (j + 1) (by omega) (by omega)
      simp only [List.getD_cons_succ, List.getD_eq_getElem _ _ hj] at this
      exact this

/-- The decode never touches the slice: what it returns with is what it was given. -/
theorem decode_record (r r' : List GoString) (l : Packet) (e : Option WrapError)
    (h : decode r = .returned r' l e) : r' = r := by
  unfold decode at h
  simp only [] at h
  repeat' split at h
  all_goals try (exfalso; subst h; simp only [index_error_iff, reduceCtorEq, and_false] at *)
  all_goals
    simp only [Outcome.returned.injEq] at h
    exact h.1.symm

/-- What a returning call leaves in the caller's slice. -/
theorem returned_record (record r : List GoString) (l : Packet) (e : Option WrapError)
    (h : ParseHorstFields record = .returned r l e) :
    NoEmptyField record ∧ r = strippedRecord record ∧ decode (strippedRecord record) = .returned r l e := by
  simp only [ParseHorstFields] at h
  cases hs : stripLoop 0 record with
  | error e => rw [hs] at h; cases h
  | ok r1 =>
    rw [hs] at h
    obtain ⟨h1, h2⟩ := stripLoop_inv record r1 hs
    subst h1
    exact ⟨h2, decode_record _ _ _ _ h, h⟩

theorem wf_time (s : GoString) (h : WellFormedAt 0 s = true) :
    time.Parse s = ((time.Parse s).1, none) :=
  pair_of_isNone _ (by simpa [WellFormedAt] using h)

theorem wf_mac (i : Nat) (s : GoString) (hi : i = 2 ∨ i = 3 ∨ i = 4)
    (h : WellFormedAt i s = true) : net.ParseMAC s = ((net.ParseMAC s).1, none) := by
  apply pair_of_isNone
  rcases hi with rfl | rfl | rfl <;> simpa [WellFormedAt] using h

theorem wf_int (i : Nat) (s : GoString)
    (hi : i = 6 ∨ i = 7 ∨ i = 8 ∨ i = 9 ∨ i = 12 ∨ i = 13) (h : WellFormedAt i s = true) :
    strconv.Atoi s = ((decimalInt s).getD 0, none) := by
  apply Atoi_of_isIntText
  rcases hi with rfl | rfl | rfl | rfl | rfl | rfl <;> simpa [WellFormedAt] using h

theorem wf_hex (s : GoString) (h : WellFormedAt 10 s = true) :
    hex.DecodeString s = (hexPairs s, none) :=
  DecodeString_of_isHexString s (by simpa [WellFormedAt] using h)

theorem wf_flag (i : Nat) (s : GoString) (hi : i = 14 ∨ i = 15 ∨ i = 16) :
    WellFormedAt i s = isFlagText s := by
  rcases hi with rfl | rfl | rfl <;> simp [WellFormedAt]

theorem index_stripped (record : List GoString) (n : Nat) (hlen : record.length = n) (i : Nat)
    (hi : i < n) : index (strippedRecord record) i = .ok (fieldText record i) := by
  rw [index_lt _ _ (by rw [strippedRecord_length]; omega)]
  rfl

theorem WellFormed_of_except (k : Nat) (record : List GoString) (hk : 1 ≤ k)
    (h : WellFormedExcept k record) (hne : record.getD k [] ≠ [])
    (hw : WellFormedAt k (fieldText record k) = true) : WellFormed record := by
  obtain ⟨hlen, h1, h2⟩ := h
  refine ⟨hlen, ?_, ?_⟩
  · rw [noEmptyField_iff]
    intro i hi hlt
    by_cases e : i = k
    · subst e; exact hne
    · exact h1 i (by omega) e hi
  · intro i hi
    by_cases e : i = k
    · subst e; exact hw
    · exact h2 i hi e

theorem Atoi_ok_iff (s : GoString) (v : Int) :
    strconv.Atoi s = (v, none) ↔ decimalInt s = some v ∧ fitsInt v = true :=
  ⟨Atoi_ok_inv s v, fun h => Atoi_of_decimal s v h.1 h.2⟩

theorem DecodeString_ok_iff (s : GoString) (bs : List Nat) :
    hex.DecodeString s = (bs, none) ↔ isHexString s = true ∧ hexPairs s = bs := by
  constructor
  · exact isHexString_of_DecodeString s bs
  · rintro ⟨h1, rfl⟩
    exact DecodeString_of_isHexString s h1

theorem toBool_ok_iff2 (v : Int) (b : Bool) :
    toBool v = (b, none) ↔ (v = 1 ∨ v = 0) ∧ b = decide (v = 1) := by
  simp only [toBool]
  split_ifs with h1 h0
  · subst h1; simp [eq_comm]
  · subst h0; simp [eq_comm]
  · simp [h1, h0]

theorem toBool_error_iff (v : Int) (b : Bool) (e : Cause) :
    toBool v = (b, some e) ↔
      v ≠ 1 ∧ v ≠ 0 ∧ b = false ∧ e = .errorString "toBool can only convert \"0\" or \"1\"" := by
  simp only [toBool]
  split_ifs with h1 h0
  · simp [h1]
  · simp [h0]
  · simp [h1, h0, eq_comm]

theorem named_Errorf (format : String) (arg : Arg) (err : Cause) :
    (Errorf format arg err).named =
      String.mk (((format.toList.dropWhile (fun c => c != ' ')).drop 1).takeWhile
        (fun c => c != ':')) := rfl

set_option maxHeartbeats 4000000 in
/-- The record returned together with an error: the attributes of the positions
before some position `k` as the fields encode them, zero values from `k` on; `k` is 0
when the error is that of the Time step. -/
theorem decode_error_packet (r r' : List GoString) (l : Packet) (e : WrapError)
    (h : decode r = .returned r' l (some e)) :
    ∃ k, k ≤ 18 ∧
      l = ({ Time := (time.Parse (r.getD 0 [])).1
             WLANType := r.getD 1 []
             MACSRC := (net.ParseMAC (r.getD 2 [])).1
             MACDST := (net.ParseMAC (r.getD 3 [])).1
             BSSID := (net.ParseMAC (r.getD 4 [])).1
             PacketTypes := r.getD 5 []
             Signal := (decimalInt (r.getD 6 [])).getD 0
             Length := (decimalInt (r.getD 7 [])).getD 0
             PhyRate := (decimalInt (r.getD 8 [])).getD 0
             Frequency := (decimalInt (r.getD 9 [])).getD 0
             TSF := hexPairs (r.getD 10 [])
             ESSID := r.getD 11 []
             Mode := (decimalInt (r.getD 12 [])).getD 0
             Channel := (decimalInt (r.getD 13 [])).getD 0
             WEP := decide (decimalInt (r.getD 14 []) = some 1)
             WPA1 := decide (decimalInt (r.getD 15 []) = some 1)
             WPA2 := decide (decimalInt (r.getD 16 []) = some 1)
             IPSrc := (netip.ParseAddr (r.getD 17 [])).1
             IPDst := (netip.ParseAddr (r.getD 18 [])).1 } : Packet).upTo k ∧
      (e.named = "time" → k = 0) := by
  unfold decode at h
  simp only [] at h
  repeat' split at h
  all_goals try (exfalso; cases h; done)
  all_goals try (exfalso; subst h; simp only [index_error_iff, reduceCtorEq, and_false] at *)
  all_goals
    simp only [index_ok_iff] at *
    casesm* _ ∧ _
    subst_vars
    simp only [Outcome.returned.injEq, Option.some.injEq] at h
    obtain ⟨-, h2, h3⟩ := h
    subst h2 h3
  all_goals
    try simp only [Atoi_ok_iff, DecodeString_ok_iff, toBool_ok_iff2, toBool_error_iff] at *
  all_goals first
    | (refine ⟨0, by norm_num, ?_, fun _ => rfl⟩
       simp [-List.getD_eq_getElem?_getD, Packet.upTo, *]; done)
    | (refine ⟨2, by norm_num, ?_, fun hn => absurd hn (by rw [named_Errorf]; decide)⟩
       simp [-List.getD_eq_getElem?_getD, Packet.upTo, *]; done)
    | (refine ⟨3, by norm_num, ?_, fun hn => absurd hn (by rw [named_Errorf]; decide)⟩
       simp [-List.getD_eq_getElem?_getD, Packet.upTo, *]; done)
    | (refine ⟨4, by norm_num, ?_, fun hn => absurd hn (by rw [named_Errorf]; decide)⟩
       simp [-List.getD_eq_getElem?_getD, Packet.upTo, *]; done)
    | (refine ⟨5, by norm_num, ?_, fun hn => absurd hn (by rw [named_Errorf]; decide)⟩
       simp [-List.getD_eq_getElem?_getD, Packet.upTo, *]; done)
    | (refine ⟨6, by norm_num, ?_, fun hn => absurd hn (by rw [named_Errorf]; decide)⟩
       simp [-List.getD_eq_getElem?_getD, Packet.upTo, *]; done)
    | (refine ⟨7, by norm_num, ?_, fun hn => absurd hn (by rw [named_Errorf]; decide)⟩
       simp [-List.getD_eq_getElem?_getD, Packet.upTo, *]; done)
    | (refine ⟨8, by norm_num, ?_, fun hn => absurd hn (by rw [named_Errorf]; decide)⟩
       simp [-List.getD_eq_getElem?_getD, Packet.upTo, *]; done)
    | (refine ⟨9, by norm_num, ?_, fun hn => absurd hn (by rw [named_Errorf]; decide)⟩
       simp [-List.getD_eq_getElem?_getD, Packet.upTo, *]; done)
    | (refine ⟨10, by norm_num, ?_, fun hn => absurd hn (by rw [named_Errorf]; decide)⟩
       simp [-List.getD_eq_getElem?_getD, Packet.upTo, *]; done)
    | (refine ⟨12, by norm_num, ?_, fun hn => absurd hn (by rw [named_Errorf]; decide)⟩
       simp [-List.getD_eq_getElem?_getD, Packet.upTo, *]; done)
    | (refine ⟨13, by norm_num, ?_, fun hn => absurd hn (by rw [named_Errorf]; decide)⟩
       simp [-List.getD_eq_getElem?_getD, Packet.upTo, *]; done)
    | (refine ⟨14, by norm_num, ?_, fun hn => absurd hn (by rw [named_Errorf]; decide)⟩
       simp [-List.getD_eq_getElem?_getD, Packet.upTo, *]; done)
    | (refine ⟨15, by norm_num, ?_, fun hn => absurd hn (by rw [named_Errorf]; decide)⟩
       simp [-List.getD_eq_getElem?_getD, Packet.upTo, *]; done)
    | (refine ⟨16, by norm_num, ?_, fun hn => absurd hn (by rw [named_Errorf]; decide)⟩
       simp [-List.getD_eq_getElem?_getD, Packet.upTo, *]; done)
    | (refine ⟨17, by norm_num, ?_, fun hn => absurd hn (by rw [named_Errorf]; decide)⟩
       simp [-List.getD_eq_getElem?_getD, Packet.upTo, *]; done)
    | (refine ⟨18, by norm_num, ?_, fun hn => absurd hn (by rw [named_Errorf]; decide)⟩
       simp [-List.getD_eq_getElem?_getD, Packet.upTo, *]; done)

/-- The record a call returns together with an error. -/
theorem error_packet (record r : List GoString) (l : Packet) (e : WrapError)
    (h : ParseHorstFields record = .returned r l (some e)) :
    ∃ k, k ≤ 18 ∧ l = (encoded record).upTo k ∧ (e.named = "time" → k = 0) := by
  obtain ⟨_, _, hd⟩ := returned_record record r l _ h
  exact decode_error_packet _ _ _ _ hd

theorem succeeded_iff (o : Outcome) :
    o.succeeded = true ↔ ∃ r l, o = .returned r l none := by
  cases o with
  | returned r l e =>
    cases e with
    | none => simp [Outcome.succeeded]
    | some e => simp [Outcome.succeeded]
  | panicked r p => simp [Outcome.succeeded]

theorem strippedRecord_set (record : List GoString) (i : Nat) (x : GoString) :
    strippedRecord (record.set (i + 1) x) = (strippedRecord record).set (i + 1) (x.drop 1) := by
  cases record with
  | nil => simp [strippedRecord]
  | cons r rest => simp [strippedRecord, List.map_set]

theorem noEmptyField_set (record : List GoString) (i : Nat) (c : Nat) (s : GoString)
    (h : NoEmptyField record) : NoEmptyField (record.set (i + 1) (c :: s)) := by
  cases record with
  | nil => simpa using h
  | cons r rest =>
    simp only [NoEmptyField, List.set_cons_succ, List.tail_cons] at h ⊢
    intro x hx
    rcases List.mem_or_eq_of_mem_set hx with hx | rfl
    · exact h x hx
    · exact List.cons_ne_nil _ _

theorem getD_set_ne (r : List GoString) (i j : Nat) (x : GoString) (h : i ≠ j) :
    (r.set i x).getD j [] = r.getD j [] := by
  simp only [List.getD_eq_getElem?_getD, List.getElem?_set_ne h]

theorem getD_set_eq (r : List GoString) (i : Nat) (x : GoString) (h : i < r.length) :
    (r.set i x).getD i [] = x := by
  simp [List.getD_eq_getElem?_getD, List.getElem?_set_self, h]

/-- Replacing the three opaque texts in a slice that decodes keeps it decoding. -/
theorem Parsed_set_opaque (r : List GoString) (l : Packet) (h : Parsed r l)
    (s1 s5 s11 : GoString) :
    Parsed (((r.set 1 s1).set 5 s5).set 11 s11)
      { l with WLANType := s1, PacketTypes := s5, ESSID := s11 } := by
  have hl := h.len
  have g : ∀ j, j ≠ 1 → j ≠ 5 → j ≠ 11 →
      (((r.set 1 s1).set 5 s5).set 11 s11).getD j [] = r.getD j [] := by
    intro j j1 j5 j11
    rw [getD_set_ne _ _ _ _ (Ne.symm j11), getD_set_ne _ _ _ _ (Ne.symm j5),
      getD_set_ne _ _ _ _ (Ne.symm j1)]
  constructor
  · simp only [List.length_set]; exact hl
  · rw [g 0 (by norm_num) (by norm_num) (by norm_num)]; exact h.time
  · show s1 = _
    rw [getD_set_ne _ _ _ _ (by norm_num), getD_set_ne _ _ _ _ (by norm_num),
      getD_set_eq _ _ _ (by omega)]
  · rw [g 2 (by norm_num) (by norm_num) (by norm_num)]; exact h.macsrc
  · rw [g 3 (by norm_num) (by norm_num) (by norm_num)]; exact h.macdst
  · rw [g 4 (by norm_num) (by norm_num) (by norm_num)]; exact h.bssid
  · show s5 = _
    rw [getD_set_ne _ _ _ _ (by norm_num),
      getD_set_eq _ _ _ (by simp only [List.length_set]; omega)]
  · rw [g 6 (by norm_num) (by norm_num) (by norm_num)]; exact h.signal
  · rw [g 7 (by norm_num) (by norm_num) (by norm_num)]; exact h.length
  · rw [g 8 (by norm_num) (by norm_num) (by norm_num)]; exact h.phyRate
  · rw [g 9 (by norm_num) (by norm_num) (by norm_num)]; exact h.frequency
  · rw [g 10 (by norm_num) (by norm_num) (by norm_num)]; exact h.tsf
  · show s11 = _
    rw [getD_set_eq _ _ _ (by simp only [List.length_set]; omega)]
  · rw [g 12 (by norm_num) (by norm_num) (by norm_num)]; exact h.mode
  · rw [g 13 (by norm_num) (by norm_num) (by norm_num)]; exact h.channel
  · rw [g 14 (by norm_num) (by norm_num) (by norm_num)]; exact h.wep
  · rw [g 15 (by norm_num) (by norm_num) (by norm_num)]; exact h.wpa1
  · rw [g 16 (by norm_num) (by norm_num) (by norm_num)]; exact h.wpa2
  · rw [g 17 (by norm_num) (by norm_num) (by norm_num)]; exact h.ipSrc
  · rw [g 18 (by norm_num) (by norm_num) (by norm_num)]; exact h.ipDst

theorem fieldText_of_cons (record : List GoString) (i : Nat) (c : Nat) (s : GoString)
    (h : record.getD (i + 1) [] = c :: s) : fieldText record (i + 1) = s := by
  simp only [fieldText, strippedRecord_getD_succ, h, List.drop_one, List.tail_cons]

theorem isHexString_false_iff (s : GoString) :
    isHexString s = false ↔ (s.length % 2 = 1 ∨ ∃ b ∈ s, isHexDigit b = false) := by
  simp only [isHexString, Bool.and_eq_false_iff, List.all_eq_false, decide_eq_false_iff_not,
    Bool.not_eq_true]
  constructor
  · rintro (⟨b, hb, hd⟩ | h)
    · exact Or.inr ⟨b, hb, hd⟩
    · exact Or.inl (by omega)
  · rintro (h | ⟨b, hb, hd⟩)
    · exact Or.inr (by omega)
    · exact Or.inl ⟨b, hb, hd⟩


/-! ## Lemmas: the step at which a decode stops -/

set_option linter.unusedTactic false

theorem bad_int (s : GoString) (x : Int) (e : Cause) (h : strconv.Atoi s = (x, some e)) :
    isIntText s = false := by
  cases hi : isIntText s with
  | false => rfl
  | true =>
    rw [Atoi_of_isIntText s hi] at h
    cases h

theorem bad_flag (s : GoString) (x : Int) (e : Cause) (h : strconv.Atoi s = (x, some e)) :
    isFlagText s = false := by
  cases hi : isFlagText s with
  | false => rfl
  | true =>
    obtain ⟨v, hv, _⟩ := flag_of_isFlagText s hi
    rw [hv] at h
    cases h

theorem bad_flag_value (s : GoString) (v : Int) (b : Bool) (e : Cause)
    (h : strconv.Atoi s = (v, none)) (g : toBool v = (b, some e)) : isFlagText s = false := by
  cases hi : isFlagText s with
  | false => rfl
  | true =>
    obtain ⟨w, hw, hb⟩ := flag_of_isFlagText s hi
    rw [h] at hw
    cases hw
    rw [g] at hb
    cases hb

theorem bad_hex (s : GoString) (bs : List Nat) (e : Cause)
    (h : hex.DecodeString s = (bs, some e)) : isHexString s = false := by
  cases hi : isHexString s with
  | false => rfl
  | true =>
    rw [DecodeString_of_isHexString s hi] at h
    cases h

theorem toBool_ok_iff3 (v : Int) (b : Bool) :
    toBool v = (b, none) ↔ (v = 0 ∨ v = 1) ∧ b = decide (v = 1) := by
  rw [toBool_ok_iff2, or_comm]

set_option maxHeartbeats 8000000 in
/-- A decode that returns an error stopped at the first position `k` whose text is not
well-formed: the positions before `k` are well-formed, the error is that of the step
of `k`, and the record holds the attributes of the positions before `k`. -/
theorem decode_error_inv (r r' : List GoString) (l : Packet) (e : WrapError)
    (h : decode r = .returned r' l (some e)) :
    ∃ k, k < 19 ∧ k < r.length ∧ (∀ i, i < k → WellFormedAt i (r.getD i []) = true) ∧
      WellFormedAt k (r.getD k []) = false ∧ errorAt r k = some e ∧
      l = (decoded r).upTo k := by
  unfold decode at h
  simp only [] at h
  repeat' split at h
  all_goals try (exfalso; cases h; done)
  all_goals try (exfalso; subst h; simp only [index_error_iff, reduceCtorEq, and_false] at *)
  all_goals
    simp only [index_ok_iff] at *
    casesm* _ ∧ _
    subst_vars
    simp only [Outcome.returned.injEq, Option.some.injEq] at h
    obtain ⟨-, h2, h3⟩ := h
    subst h2 h3
  all_goals first
    | contradiction
    | (show ∃ k, _ ∧ _ ∧ _ ∧ _ ∧ errorAt r k = some (Errorf "parsing time: %v %w" _ _) ∧ _
       refine ⟨0, by norm_num, by assumption, ?wf, ?bad,
         by simp [-List.getD_eq_getElem?_getD, errorAt, flagError, *], ?l⟩
       case wf => intro i hi; omega
       case bad => simp [-List.getD_eq_getElem?_getD, WellFormedAt, *]
       all_goals
         try simp only [Atoi_ok_iff, DecodeString_ok_iff, toBool_ok_iff3, toBool_error_iff] at *
       case l =>
         simp [-List.getD_eq_getElem?_getD, Packet.upTo, decoded, *])
    | (show ∃ k, _ ∧ _ ∧ _ ∧ _ ∧ errorAt r k = some (Errorf "parsing WLANType: %v %w" _ _) ∧ _
       refine ⟨2, by norm_num, by assumption, ?wf, ?bad,
         by simp [-List.getD_eq_getElem?_getD, errorAt, flagError, *], ?l⟩
       case bad => simp [-List.getD_eq_getElem?_getD, WellFormedAt, *]
       all_goals
         try simp only [Atoi_ok_iff, DecodeString_ok_iff, toBool_ok_iff3, toBool_error_iff] at *
       case wf =>
         intro i hi
         interval_cases i <;>
           simp [-List.getD_eq_getElem?_getD, WellFormedAt, isIntText, isFlagText, *]
       case l =>
         simp [-List.getD_eq_getElem?_getD, Packet.upTo, decoded, *])
    | (show ∃ k, _ ∧ _ ∧ _ ∧ _ ∧ errorAt r k = some (Errorf "parsing MACDST: %v %w" _ _) ∧ _
       refine ⟨3, by norm_num, by assumption, ?wf, ?bad,
         by simp [-List.getD_eq_getElem?_getD, errorAt, flagError, *], ?l⟩
       case bad => simp [-List.getD_eq_getElem?_getD, WellFormedAt, *]
       all_goals
         try simp only [Atoi_ok_iff, DecodeString_ok_iff, toBool_ok_iff3, toBool_error_iff] at *
       case wf =>
         intro i hi
         interval_cases i <;>
           simp [-List.getD_eq_getElem?_getD, WellFormedAt, isIntText, isFlagText, *]
       case l =>
         simp [-List.getD_eq_getElem?_getD, Packet.upTo, decoded, *])
    | (show ∃ k, _ ∧ _ ∧ _ ∧ _ ∧ errorAt r k = some (Errorf "parsing BSSID: %v %w" _ _) ∧ _
       refine ⟨4, by norm_num, by assumption, ?wf, ?bad,
         by simp [-List.getD_eq_getElem?_getD, errorAt, flagError, *], ?l⟩
       case bad => simp [-List.getD_eq_getElem?_getD, WellFormedAt, *]
       all_goals
         try simp only [Atoi_ok_iff, DecodeString_ok_iff, toBool_ok_iff3, toBool_error_iff] at *
       case wf =>
         intro i hi
         interval_cases i <;>
           simp [-List.getD_eq_getElem?_getD, WellFormedAt, isIntText, isFlagText, *]
       case l =>
         simp [-List.getD_eq_getElem?_getD, Packet.upTo, decoded, *])
    | (show ∃ k, _ ∧ _ ∧ _ ∧ _ ∧ errorAt r k = some (Errorf "parsing Signal: %v %w" _ _) ∧ _
       refine ⟨6, by norm_num, by assumption, ?wf, ?bad,
         by simp [-List.getD_eq_getElem?_getD, errorAt, flagError, *], ?l⟩
       case bad => exact bad_int _ _ _ (by assumption)
       all_goals
         try simp only [Atoi_ok_iff, DecodeString_ok_iff, toBool_ok_iff3, toBool_error_iff] at *
       case wf =>
         intro i hi
         interval_cases i <;>
           simp [-List.getD_eq_getElem?_getD, WellFormedAt, isIntText, isFlagText, *]
       case l =>
         simp [-List.getD_eq_getElem?_getD, Packet.upTo, decoded, *])
    | (show ∃ k, _ ∧ _ ∧ _ ∧ _ ∧ errorAt r k = some (Errorf "parsing Length: %v %w" _ _) ∧ _
       refine ⟨7, by norm_num, by assumption, ?wf, ?bad,
         by simp [-List.getD_eq_getElem?_getD, errorAt, flagError, *], ?l⟩
       case bad => exact bad_int _ _ _ (by assumption)
       all_goals
         try simp only [Atoi_ok_iff, DecodeString_ok_iff, toBool_ok_iff3, toBool_error_iff] at *
       case wf =>
         intro i hi
         interval_cases i <;>
           simp [-List.getD_eq_getElem?_getD, WellFormedAt, isIntText, isFlagText, *]
       case l =>
         simp [-List.getD_eq_getElem?_getD, Packet.upTo, decoded, *])
    | (show ∃ k, _ ∧ _ ∧ _ ∧ _ ∧ errorAt r k = some (Errorf "parsing PhyRate: %v %w" _ _) ∧ _
       refine ⟨8, by norm_num, by assumption, ?wf, ?bad,
         by simp [-List.getD_eq_getElem?_getD, errorAt, flagError, *], ?l⟩
       case bad => exact bad_int _ _ _ (by assumption)
       all_goals
         try simp only [Atoi_ok_iff, DecodeString_ok_iff, toBool_ok_iff3, toBool_error_iff] at *
       case wf =>
         intro i hi
         interval_cases i <;>
           simp [-List.getD_eq_getElem?_getD, WellFormedAt, isIntText, isFlagText, *]
       case l =>
         simp [-List.getD_eq_getElem?_getD, Packet.upTo, decoded, *])
    | (show ∃ k, _ ∧ _ ∧ _ ∧ _ ∧ errorAt r k = some (Errorf "parsing Frequency: %v %w" _ _) ∧ _
       refine ⟨9, by norm_num, by assumption, ?wf, ?bad,
         by simp [-List.getD_eq_getElem?_getD, errorAt, flagError, *], ?l⟩
       case bad => exact bad_int _ _ _ (by assumption)
       all_goals
         try simp only [Atoi_ok_iff, DecodeString_ok_iff, toBool_ok_iff3, toBool_error_iff] at *
       case wf =>
         intro i hi
         interval_cases i <;>
           simp [-List.getD_eq_getElem?_getD, WellFormedAt, isIntText, isFlagText, *]
       case l =>
         simp [-List.getD_eq_getElem?_getD, Packet.upTo, decoded, *])
    | (show ∃ k, _ ∧ _ ∧ _ ∧ _ ∧ errorAt r k = some (Errorf "parsing TSF: %v %w" _ _) ∧ _
       refine ⟨10, by norm_num, by assumption, ?wf, ?bad,
         by simp [-List.getD_eq_getElem?_getD, errorAt, flagError, *], ?l⟩
       case bad => exact bad_hex _ _ _ (by assumption)
       all_goals
         try simp only [Atoi_ok_iff, DecodeString_ok_iff, toBool_ok_iff3, toBool_error_iff] at *
       case wf =>
         intro i hi
         interval_cases i <;>
           simp [-List.getD_eq_getElem?_getD, WellFormedAt, isIntText, isFlagText, *]
       case l =>
         simp [-List.getD_eq_getElem?_getD, Packet.upTo, decoded, *])
    | (show ∃ k, _ ∧ _ ∧ _ ∧ _ ∧ errorAt r k = some (Errorf "parsing Mode: %v %w" _ _) ∧ _
       refine ⟨12, by norm_num, by assumption, ?wf, ?bad,
         by simp [-List.getD_eq_getElem?_getD, errorAt, flagError, *], ?l⟩
       case bad => exact bad_int _ _ _ (by assumption)
       all_goals
         try simp only [Atoi_ok_iff, DecodeString_ok_iff, toBool_ok_iff3, toBool_error_iff] at *
       case wf =>
         intro i hi
         interval_cases i <;>
           simp [-List.getD_eq_getElem?_getD, WellFormedAt, isIntText, isFlagText, *]
       case l =>
         simp [-List.getD_eq_getElem?_getD, Packet.upTo, decoded, *])
    | (show ∃ k, _ ∧ _ ∧ _ ∧ _ ∧ errorAt r k = some (Errorf "parsing Channel: %v %w" _ _) ∧ _
       refine ⟨13, by norm_num, by assumption, ?wf, ?bad,
         by simp [-List.getD_eq_getElem?_getD, errorAt, flagError, *], ?l⟩
       case bad => exact bad_int _ _ _ (by assumption)
       all_goals
         try simp only [Atoi_ok_iff, DecodeString_ok_iff, toBool_ok_iff3, toBool_error_iff] at *
       case wf =>
         intro i hi
         interval_cases i <;>
           simp [-List.getD_eq_getElem?_getD, WellFormedAt, isIntText, isFlagText, *]
       case l =>
         simp [-List.getD_eq_getElem?_getD, Packet.upTo, decoded, *])
    | (show ∃ k, _ ∧ _ ∧ _ ∧ _ ∧ errorAt r k = some (Errorf "parsing WEP: %v %w" _ _) ∧ _
       refine ⟨14, by norm_num, by assumption, ?wf, ?bad,
         by simp [-List.getD_eq_getElem?_getD, errorAt, flagError, *], ?l⟩
       case bad => exact bad_flag _ _ _ (by assumption)
       all_goals
         try simp only [Atoi_ok_iff, DecodeString_ok_iff, toBool_ok_iff3, toBool_error_iff] at *
       case wf =>
         intro i hi
         interval_cases i <;>
           simp [-List.getD_eq_getElem?_getD, WellFormedAt, isIntText, isFlagText, *]
       case l =>
         simp [-List.getD_eq_getElem?_getD, Packet.upTo, decoded, *])
    | (show ∃ k, _ ∧ _ ∧ _ ∧ _ ∧ errorAt r k = some (Errorf "toBool WEP: %v %w" _ _) ∧ _
       refine ⟨14, by norm_num, by assumption, ?wf, ?bad,
         by simp [-List.getD_eq_getElem?_getD, errorAt, flagError, *], ?l⟩
       case bad => exact bad_flag_value _ _ _ _ (by assumption) (by assumption)
       all_goals
         try simp only [Atoi_ok_iff, DecodeString_ok_iff, toBool_ok_iff3, toBool_error_iff] at *
       case wf =>
         intro i hi
         interval_cases i <;>
           simp [-List.getD_eq_getElem?_getD, WellFormedAt, isIntText, isFlagText, *]
       case l =>
         simp [-List.getD_eq_getElem?_getD, Packet.upTo, decoded, *])
    | (show ∃ k, _ ∧ _ ∧ _ ∧ _ ∧ errorAt r k = some (Errorf "parsing WPA: %v %w" _ _) ∧ _
       refine ⟨15, by norm_num, by assumption, ?wf, ?bad,
         by simp [-List.getD_eq_getElem?_getD, errorAt, flagError, *], ?l⟩
       case bad => exact bad_flag _ _ _ (by assumption)
       all_goals
         try simp only [Atoi_ok_iff, DecodeString_ok_iff, toBool_ok_iff3, toBool_error_iff] at *
       case wf =>
         intro i hi
         interval_cases i <;>
           simp [-List.getD_eq_getElem?_getD, WellFormedAt, isIntText, isFlagText, *]
       case l =>
         simp [-List.getD_eq_getElem?_getD, Packet.upTo, decoded, *])
    | (show ∃ k, _ ∧ _ ∧ _ ∧ _ ∧ errorAt r k = some (Errorf "toBool WPA: %v %w" _ _) ∧ _
       refine ⟨15, by norm_num, by assumption, ?wf, ?bad,
         by simp [-List.getD_eq_getElem?_getD, errorAt, flagError, *], ?l⟩
       case bad => exact bad_flag_value _ _ _ _ (by assumption) (by assumption)
       all_goals
         try simp only [Atoi_ok_iff, DecodeString_ok_iff, toBool_ok_iff3, toBool_error_iff] at *
       case wf =>
         intro i hi
         interval_cases i <;>
           simp [-List.getD_eq_getElem?_getD, WellFormedAt, isIntText, isFlagText, *]
       case l =>
         simp [-List.getD_eq_getElem?_getD, Packet.upTo, decoded, *])
    | (show ∃ k, _ ∧ _ ∧ _ ∧ _ ∧ errorAt r k = some (Errorf "parsing WPA2: %v %w" _ _) ∧ _
       refine ⟨16, by norm_num, by assumption, ?wf, ?bad,
         by simp [-List.getD_eq_getElem?_getD, errorAt, flagError, *], ?l⟩
       case bad => exact bad_flag _ _ _ (by assumption)
       all_goals
         try simp only [Atoi_ok_iff, DecodeString_ok_iff, toBool_ok_iff3, toBool_error_iff] at *
       case wf =>
         intro i hi
         interval_cases i <;>
           simp [-List.getD_eq_getElem?_getD, WellFormedAt, isIntText, isFlagText, *]
       case l =>
         simp [-List.getD_eq_getElem?_getD, Packet.upTo, decoded, *])
    | (show ∃ k, _ ∧ _ ∧ _ ∧ _ ∧ errorAt r k = some (Errorf "toBool WPA2: %v %w" _ _) ∧ _
       refine ⟨16, by norm_num, by assumption, ?wf, ?bad,
         by simp [-List.getD_eq_getElem?_getD, errorAt, flagError, *], ?l⟩
       case bad => exact bad_flag_value _ _ _ _ (by assumption) (by assumption)
       all_goals
         try simp only [Atoi_ok_iff, DecodeString_ok_iff, toBool_ok_iff3, toBool_error_iff] at *
       case wf =>
         intro i hi
         interval_cases i <;>
           simp [-List.getD_eq_getElem?_getD, WellFormedAt, isIntText, isFlagText, *]
       case l =>
         simp [-List.getD_eq_getElem?_getD, Packet.upTo, decoded, *])
    | (show ∃ k, _ ∧ _ ∧ _ ∧ _ ∧ errorAt r k = some (Errorf "parsing IPSrc: %v %w" _ _) ∧ _
       refine ⟨17, by norm_num, by assumption, ?wf, ?bad,
         by simp [-List.getD_eq_getElem?_getD, errorAt, flagError, *], ?l⟩
       case bad => simp [-List.getD_eq_getElem?_getD, WellFormedAt, *]
       all_goals
         try simp only [Atoi_ok_iff, DecodeString_ok_iff, toBool_ok_iff3, toBool_error_iff] at *
       case wf =>
         intro i hi
         interval_cases i <;>
           simp [-List.getD_eq_getElem?_getD, WellFormedAt, isIntText, isFlagText, *]
       case l =>
         simp [-List.getD_eq_getElem?_getD, Packet.upTo, decoded, *])
    | (show ∃ k, _ ∧ _ ∧ _ ∧ _ ∧ errorAt r k = some (Errorf "parsing IPDst: %v %w" _ _) ∧ _
       refine ⟨18, by norm_num, by assumption, ?wf, ?bad,
         by simp [-List.getD_eq_getElem?_getD, errorAt, flagError, *], ?l⟩
       case bad => simp [-List.getD_eq_getElem?_getD, WellFormedAt, *]
       all_goals
         try simp only [Atoi_ok_iff, DecodeString_ok_iff, toBool_ok_iff3, toBool_error_iff] at *
       case wf =>
         intro i hi
         interval_cases i <;>
           simp [-List.getD_eq_getElem?_getD, WellFormedAt, isIntText, isFlagText, *]
       case l =>
         simp [-List.getD_eq_getElem?_getD, Packet.upTo, decoded, *])

set_option maxHeartbeats 8000000 in
/-- A decode that panics does so at the index expression of the first position the
slice lacks: the slice is shorter than 19 and all its elements are well-formed. -/
theorem decode_panic_inv (r r' : List GoString) (p : Panic) (h : decode r = .panicked r' p) :
    r' = r ∧ p = .indexOutOfRange r.length r.length ∧ r.length < 19 ∧
      ∀ i, i < r.length → WellFormedAt i (r.getD i []) = true := by
  unfold decode at h
  simp only [] at h
  repeat' split at h
  all_goals try (exfalso; cases h; done)
  all_goals
    simp only [index_ok_iff, index_error_iff] at *
    casesm* _ ∧ _
    subst_vars
    rename_i hp
    simp only [Outcome.panicked.injEq] at hp
    obtain ⟨h1, h2⟩ := hp
    subst h1 h2
    try simp only [Atoi_ok_iff, DecodeString_ok_iff, toBool_ok_iff3] at *
    refine ⟨by trivial, ?_, by omega, ?_⟩
    · congr 1; omega
    · intro i hi
      have hi2 : i < 19 := by omega
      interval_cases i <;> first
        | omega
        | (simp [-List.getD_eq_getElem?_getD, WellFormedAt, isIntText, isFlagText, *]; done)

/-! ## Lemmas: the outcome of a call from the first malformed field -/

/-- A slice of at least 19 elements, the first 19 well-formed, satisfies the conditions
of a successful decode. -/
theorem Parsed_of_wf (r : List GoString) (hlen : 19 ≤ r.length)
    (hw : ∀ i, i < 19 → WellFormedAt i (r.getD i []) = true) : Parsed r (decoded r) := by
  have w0 := hw 0 (by norm_num)
  have w2 := hw 2 (by norm_num)
  have w3 := hw 3 (by norm_num)
  have w4 := hw 4 (by norm_num)
  have w6 := hw 6 (by norm_num)
  have w7 := hw 7 (by norm_num)
  have w8 := hw 8 (by norm_num)
  have w9 := hw 9 (by norm_num)
  have w10 := hw 10 (by norm_num)
  have w12 := hw 12 (by norm_num)
  have w13 := hw 13 (by norm_num)
  have w14 := hw 14 (by norm_num)
  have w15 := hw 15 (by norm_num)
  have w16 := hw 16 (by norm_num)
  have w17 := hw 17 (by norm_num)
  have w18 := hw 18 (by norm_num)
  simp only [WellFormedAt] at w0 w2 w3 w4 w6 w7 w8 w9 w10 w12 w13 w14 w15 w16 w17 w18
  norm_num [-List.getD_eq_getElem?_getD] at w0 w2 w3 w4 w6 w7 w8 w9 w10 w12 w13 w14 w15 w16 w17 w18
  constructor <;> (try simp only [decoded])
  · exact hlen
  · exact pair_of_isNone _ (by simpa [-List.getD_eq_getElem?_getD] using w0)
  · exact pair_of_isNone _ (by simpa [-List.getD_eq_getElem?_getD] using w2)
  · exact pair_of_isNone _ (by simpa [-List.getD_eq_getElem?_getD] using w3)
  · exact pair_of_isNone _ (by simpa [-List.getD_eq_getElem?_getD] using w4)
  · exact Atoi_of_isIntText _ w6
  · exact Atoi_of_isIntText _ w7
  · exact Atoi_of_isIntText _ w8
  · exact Atoi_of_isIntText _ w9
  · exact DecodeString_of_isHexString _ w10
  · exact Atoi_of_isIntText _ w12
  · exact Atoi_of_isIntText _ w13
  · exact flag_of_isFlagText _ w14
  · exact flag_of_isFlagText _ w15
  · exact flag_of_isFlagText _ w16
  · exact pair_of_isNone _ (by simpa [-List.getD_eq_getElem?_getD] using w17)
  · exact pair_of_isNone _ (by simpa [-List.getD_eq_getElem?_getD] using w18)

/-- The conditions of a successful decode make the first 19 elements of the slice
well-formed, and the record is the one the slice encodes. -/
theorem Parsed_inv (r : List GoString) (l : Packet) (h : Parsed r l) :
    (∀ i, i < 19 → WellFormedAt i (r.getD i []) = true) ∧ l = decoded r := by
  obtain ⟨v14, h14, g14⟩ := h.wep
  obtain ⟨v15, h15, g15⟩ := h.wpa1
  obtain ⟨v16, h16, g16⟩ := h.wpa2
  have t0 := isNone_of_pair _ _ h.time
  have t2 := isNone_of_pair _ _ h.macsrc
  have t3 := isNone_of_pair _ _ h.macdst
  have t4 := isNone_of_pair _ _ h.bssid
  have t6 := isIntText_of_Atoi _ _ h.signal
  have t7 := isIntText_of_Atoi _ _ h.length
  have t8 := isIntText_of_Atoi _ _ h.phyRate
  have t9 := isIntText_of_Atoi _ _ h.frequency
  have t10 := isHexString_of_DecodeString _ _ h.tsf
  have t12 := isIntText_of_Atoi _ _ h.mode
  have t13 := isIntText_of_Atoi _ _ h.channel
  have t14 := isFlagText_of_flag _ _ _ h14 g14
  have t15 := isFlagText_of_flag _ _ _ h15 g15
  have t16 := isFlagText_of_flag _ _ _ h16 g16
  have t17 := isNone_of_pair _ _ h.ipSrc
  have t18 := isNone_of_pair _ _ h.ipDst
  have e1 := h.wlanType
  have e5 := h.packetTypes
  have e11 := h.essid
  constructor
  · intro i hi
    interval_cases i <;>
      simp [-List.getD_eq_getElem?_getD, WellFormedAt, t0.1, t2.1, t3.1, t4.1, t6.1, t7.1, t8.1,
        t9.1, t10.1, t12.1, t13.1, t14.1, t15.1, t16.1, t17.1, t18.1]
  · cases l
    simp only [decoded, Packet.mk.injEq]
    simp only [] at t0 t2 t3 t4 t6 t7 t8 t9 t10 t12 t13 t14 t15 t16 t17 t18 e1 e5 e11
    simp only [t0.2, t2.2, t3.2, t4.2, t6.2, t7.2, t8.2, t9.2, t10.2, t12.2, t13.2, t14.2,
      t15.2, t16.2, t17.2, t18.2, e1, e5, e11, and_self]

/-- A slice of at least 19 elements, the first 19 well-formed, decodes to the record it
encodes. -/
theorem decode_of_wf (r : List GoString) (hlen : 19 ≤ r.length)
    (hw : ∀ i, i < 19 → WellFormedAt i (r.getD i []) = true) :
    decode r = .returned r (decoded r) none :=
  (decode_ok_iff _ _ _).mpr ⟨rfl, Parsed_of_wf r hlen hw⟩

/-- The decode of a slice whose first malformed element is at `k`: it returns the error
of the step of `k`, with the attributes of the positions before `k`. -/
theorem decode_stops_at (r : List GoString) (k : Nat) (hk : k < 19) (hlen : k < r.length)
    (hb : ∀ i, i < k → WellFormedAt i (r.getD i []) = true)
    (hbad : WellFormedAt k (r.getD k []) = false) :
    ∃ e, errorAt r k = some e ∧ decode r = .returned r ((decoded r).upTo k) (some e) := by
  cases hd : decode r with
  | returned r' l err =>
    cases err with
    | none =>
      obtain ⟨_, hp⟩ := (decode_ok_iff _ _ _).mp hd
      have := (Parsed_inv r l hp).1 k hk
      rw [hbad] at this
      cases this
    | some e =>
      obtain ⟨j, _, _, hj, hjbad, he, hl⟩ := decode_error_inv r r' l e hd
      have hr := decode_record r r' l _ hd
      have hjk : j = k := by
        rcases Nat.lt_trichotomy j k with c | c | c
        · have := hb j c
          rw [hjbad] at this
          cases this
        · exact c
        · have := hj k c
          rw [hbad] at this
          cases this
      subst hjk hr hl
      exact ⟨e, he, rfl⟩
  | panicked r' p =>
    obtain ⟨_, _, _, hw⟩ := decode_panic_inv r r' p hd
    have := hw k hlen
    rw [hbad] at this
    cases this

/-- The decode of a slice of fewer than 19 elements, all well-formed: the index
expression of the first missing position panics. -/
theorem decode_short (r : List GoString) (hlen : r.length < 19)
    (hw : ∀ i, i < r.length → WellFormedAt i (r.getD i []) = true) :
    decode r = .panicked r (.indexOutOfRange r.length r.length) := by
  cases hd : decode r with
  | returned r' l err =>
    cases err with
    | none =>
      obtain ⟨_, hp⟩ := (decode_ok_iff _ _ _).mp hd
      have := hp.len
      omega
    | some e =>
      obtain ⟨j, _, hjl, _, hjbad, _, _⟩ := decode_error_inv r r' l e hd
      have := hw j hjl
      rw [hjbad] at this
      cases this
  | panicked r' p =>
    obtain ⟨h1, h2, _, _⟩ := decode_panic_inv r r' p hd
    subst h1 h2
    rfl

/-- A call whose strip loop completes is the decode of the stripped slice. -/
theorem ParseHorstFields_of_noEmpty (record : List GoString) (h : NoEmptyField record) :
    ParseHorstFields record = decode (strippedRecord record) := by
  simp only [ParseHorstFields, stripLoop_ok record h]

/-- A call on a record, none of whose fields after the first is empty, whose first
malformed field is at `k`: it returns the error of the step of `k`. -/
theorem ParseHorstFields_stops_at (record : List GoString) (k : Nat) (hne : NoEmptyField record)
    (hk : k < 19) (hlen : k < record.length)
    (hb : ∀ i, i < k → WellFormedAt i (fieldText record i) = true)
    (hbad : WellFormedAt k (fieldText record k) = false) :
    ∃ e, errorAt (strippedRecord record) k = some e ∧
      ParseHorstFields record =
        .returned (strippedRecord record) ((encoded record).upTo k) (some e) := by
  rw [ParseHorstFields_of_noEmpty record hne]
  exact decode_stops_at (strippedRecord record) k hk (by rw [strippedRecord_length]; exact hlen)
    hb hbad

/-- A call that returns an error stopped at the first malformed field. -/
theorem ParseHorstFields_error_inv (record r : List GoString) (l : Packet) (e : WrapError)
    (h : ParseHorstFields record = .returned r l (some e)) :
    NoEmptyField record ∧ r = strippedRecord record ∧
      ∃ k, k < 19 ∧ k < record.length ∧
        (∀ i, i < k → WellFormedAt i (fieldText record i) = true) ∧
        WellFormedAt k (fieldText record k) = false ∧
        errorAt (strippedRecord record) k = some e ∧ l = (encoded record).upTo k := by
  obtain ⟨h1, h2, h3⟩ := returned_record record r l _ h
  obtain ⟨k, a, b, c, d, f, g⟩ := decode_error_inv _ _ _ _ h3
  rw [strippedRecord_length] at b
  exact ⟨h1, h2, k, a, b, c, d, f, g⟩

/-! ## Lemmas: the strip loop at an empty field -/

theorem stripLoop_succ_empty (rs : List GoString) (h : ∃ r ∈ rs, r = []) :
    ∀ i, stripLoop (i + 1) rs = .error (stripUntilEmpty rs) := by
  induction rs with
  | nil =>
    obtain ⟨r, hr, _⟩ := h
    exact absurd hr (List.not_mem_nil r)
  | cons r rest ih =>
    intro i
    cases r with
    | nil => simp [stripLoop, stripUntilEmpty]
    | cons c r1 =>
      have h2 : ∃ r ∈ rest, r = [] := by
        obtain ⟨x, hx, he⟩ := h
        rcases List.mem_cons.mp hx with rfl | hx
        · cases he
        · exact ⟨x, hx, he⟩
      simp only [stripLoop, Nat.add_one_ne_zero, if_false, ih h2 (i + 1), stripUntilEmpty]

/-- The strip loop on a record with an empty field after the first: it stops there,
with the fields before it stripped. -/
theorem stripLoop_empty (record : List GoString) (h : ∃ r ∈ record.tail, r = []) :
    stripLoop 0 record = .error (partlyStripped record) := by
  cases record with
  | nil =>
    obtain ⟨r, hr, _⟩ := h
    exact absurd hr (List.not_mem_nil r)
  | cons r rest =>
    simp only [List.tail_cons] at h
    simp only [stripLoop, if_true, stripLoop_succ_empty rest h 0, partlyStripped]

/-! ## Lemmas: the error of a step -/

theorem flagError_some (p c : String) (s : GoString) (e : WrapError)
    (h : flagError p c s = some e) :
    (∃ x a, strconv.Atoi s = (x, some a) ∧ e = Errorf p (.text s) a) ∨
    (∃ v b a, strconv.Atoi s = (v, none) ∧ toBool v = (b, some a) ∧ e = Errorf c (.int v) a) := by
  simp only [flagError] at h
  split at h
  · rename_i x a heq
    simp only [Option.some.injEq] at h
    exact Or.inl ⟨x, a, heq, h.symm⟩
  · rename_i v heq
    obtain ⟨a, ha, rfl⟩ := Option.map_eq_some'.mp h
    exact Or.inr ⟨v, (toBool v).1, a, heq, Prod.ext rfl ha, rfl⟩

/-- Only the steps of the 19 positions return an error. -/
theorem errorAt_lt (r : List GoString) (k : Nat) (e : WrapError)
    (h : errorAt r k = some e) : k < 19 := by
  unfold errorAt at h
  by_contra hk
  have ne : ∀ j, j < 19 → k ≠ j := fun j hj => by omega
  simp only [ne 0 (by norm_num), ne 2 (by norm_num), ne 3 (by norm_num), ne 4 (by norm_num),
    ne 6 (by norm_num), ne 7 (by norm_num), ne 8 (by norm_num), ne 9 (by norm_num),
    ne 10 (by norm_num), ne 12 (by norm_num), ne 13 (by norm_num), ne 14 (by norm_num),
    ne 15 (by norm_num), ne 16 (by norm_num), ne 17 (by norm_num), ne 18 (by norm_num),
    if_false] at h
  cases h

/-- The error of a step wraps what the parser of the step reports on the text of its
position. -/
theorem errorAt_cause (r : List GoString) (k : Nat) (e : WrapError)
    (h : errorAt r k = some e) : causeAt k (r.getD k []) = some e.err := by
  have hk := errorAt_lt r k e h
  unfold errorAt at h
  interval_cases k
  all_goals simp only [Nat.reduceEqDiff, if_false, if_true] at h
  all_goals try cases h
  all_goals first
    | (obtain ⟨a, ha, rfl⟩ := Option.map_eq_some'.mp h
       simp [-List.getD_eq_getElem?_getD, causeAt, ha, Errorf])
    | (rcases flagError_some _ _ _ _ h with ⟨x, a, h1, rfl⟩ | ⟨v, b, a, h1, h2, rfl⟩
       · simp [-List.getD_eq_getElem?_getD, causeAt, h1, Errorf]
       · simp [-List.getD_eq_getElem?_getD, causeAt, h1, h2, Errorf])

/-- No step returns the error of the PacketTypes test. -/
theorem errorAt_not_packetTypes (r : List GoString) (k : Nat) (e : WrapError)
    (h : errorAt r k = some e) :
    e.format ≠ "parsing PacketTypes: %v %w" ∧ e.named ≠ "PacketTypes" := by
  have hk := errorAt_lt r k e h
  unfold errorAt at h
  interval_cases k
  all_goals simp only [Nat.reduceEqDiff, if_false, if_true] at h
  all_goals try cases h
  all_goals first
    | (obtain ⟨a, ha, rfl⟩ := Option.map_eq_some'.mp h
       exact ⟨by simp only [Errorf]; decide, by rw [named_Errorf]; decide⟩)
    | (rcases flagError_some _ _ _ _ h with ⟨x, a, h1, rfl⟩ | ⟨v, b, a, h1, h2, rfl⟩
       · exact ⟨by simp only [Errorf]; decide, by rw [named_Errorf]; decide⟩
       · exact ⟨by simp only [Errorf]; decide, by rw [named_Errorf]; decide⟩)

/-- The errors of the integer and flag steps name the field by its label. -/
theorem errorAt_named (r : List GoString) (k : Nat) (e : WrapError)
    (h : errorAt r k = some e) (hk : isNumberPosition k = true) : e.named = fieldLabel k := by
  simp only [isNumberPosition, decide_eq_true_eq] at hk
  unfold errorAt at h
  rcases hk with rfl | rfl | rfl | rfl | rfl | rfl | rfl | rfl | rfl
  all_goals simp only [Nat.reduceEqDiff, if_false, if_true] at h
  all_goals first
    | (obtain ⟨a, ha, rfl⟩ := Option.map_eq_some'.mp h
       rfl)
    | (rcases flagError_some _ _ _ _ h with ⟨x, a, h1, rfl⟩ | ⟨v, b, a, h1, h2, rfl⟩
       · rfl
       · rfl)

/-- The error of the step of `k` depends on the texts of the positions up to `k` only. -/
theorem errorAt_congr (r r' : List GoString) (k : Nat)
    (h : ∀ i, i ≤ k → r'.getD i [] = r.getD i []) : errorAt r' k = errorAt r k := by
  have hk := h k (le_refl k)
  unfold errorAt
  simp only [hk]
  by_cases h2 : k = 2
  · subst h2
    rw [h 1 (by norm_num)]
  · simp only [h2, if_false]

/-- The attributes of the positions before `k` depend on the texts of those positions
only. -/
theorem upTo_congr (r r' : List GoString) (k : Nat)
    (h : ∀ i, i < k → r'.getD i [] = r.getD i []) :
    (decoded r').upTo k = (decoded r).upTo k := by
  simp only [Packet.upTo, decoded, Packet.mk.injEq]
  refine ⟨?_, ?_, ?_, ?_, ?_, ?_, ?_, ?_, ?_, ?_, ?_, ?_, ?_, ?_, ?_, ?_, ?_, ?_, ?_⟩
  all_goals
    split_ifs with hlt
    · rw [h _ hlt]
    · rfl

/-! ## Lemmas: field texts under changes of the record -/

theorem fieldText_zero (record : List GoString) : fieldText record 0 = record.getD 0 [] :=
  strippedRecord_getD_zero record

theorem fieldText_succ (record : List GoString) (i : Nat) :
    fieldText record (i + 1) = (record.getD (i + 1) []).drop 1 :=
  strippedRecord_getD_succ record i

/-- Records that agree at a position have the same field text there. -/
theorem fieldText_congr (record record' : List GoString) (i : Nat)
    (h : record'.getD i [] = record.getD i []) : fieldText record' i = fieldText record i := by
  cases i with
  | zero => rw [fieldText_zero, fieldText_zero, h]
  | succ j => rw [fieldText_succ, fieldText_succ, h]

/-- The record a stripped slice encodes after its PacketTypes text is replaced. -/
theorem decoded_set_packetTypes (r : List GoString) (s : GoString) (hlen : 5 < r.length) :
    decoded (r.set 5 s) = { decoded r with PacketTypes := s } := by
  simp only [decoded, getD_set_eq r 5 s hlen,
    getD_set_ne r 5 0 s (by norm_num), getD_set_ne r 5 1 s (by norm_num),
    getD_set_ne r 5 2 s (by norm_num), getD_set_ne r 5 3 s (by norm_num),
    getD_set_ne r 5 4 s (by norm_num), getD_set_ne r 5 6 s (by norm_num),
    getD_set_ne r 5 7 s (by norm_num), getD_set_ne r 5 8 s (by norm_num),
    getD_set_ne r 5 9 s (by norm_num), getD_set_ne r 5 10 s (by norm_num),
    getD_set_ne r 5 11 s (by norm_num), getD_set_ne r 5 12 s (by norm_num),
    getD_set_ne r 5 13 s (by norm_num), getD_set_ne r 5 14 s (by norm_num),
    getD_set_ne r 5 15 s (by norm_num), getD_set_ne r 5 16 s (by norm_num),
    getD_set_ne r 5 17 s (by norm_num), getD_set_ne r 5 18 s (by norm_num)]

/-- The error of an integer or flag step whose `strconv.Atoi` fails: the `Atoi` error
wrapped with the text of the field. -/
theorem errorAt_of_Atoi_error (r : List GoString) (k : Nat) (hk : isNumberPosition k = true)
    (x : Int) (a : Cause) (h : strconv.Atoi (r.getD k []) = (x, some a)) :
    ∃ format, errorAt r k = some (Errorf format (.text (r.getD k [])) a) := by
  simp only [isNumberPosition, decide_eq_true_eq] at hk
  unfold errorAt
  rcases hk with rfl | rfl | rfl | rfl | rfl | rfl | rfl | rfl | rfl
  all_goals simp only [Nat.reduceEqDiff, if_false, if_true, h, flagError, Option.map_some']
  all_goals exact ⟨_, rfl⟩

/-- A text that denotes an integer outside the range of `int` is not well-formed at an
integer or flag position. -/
theorem not_wf_of_range (k : Nat) (hk : isNumberPosition k = true) (s : GoString) (v : Int)
    (hv : decimalInt s = some v) (hf : fitsInt v = false) : WellFormedAt k s = false := by
  simp only [isNumberPosition, decide_eq_true_eq] at hk
  have h0 : v ≠ 0 := by rintro rfl; revert hf; decide
  have h1 : v ≠ 1 := by rintro rfl; revert hf; decide
  rcases hk with rfl | rfl | rfl | rfl | rfl | rfl | rfl | rfl | rfl <;>
    simp [WellFormedAt, isIntText, isFlagText, hv, hf, h0, h1]

/-- The integer stored for an integer or flag position by a successful decode is the
integer the text denotes. -/
theorem number_of_Parsed (r : List GoString) (l : Packet) (h : Parsed r l) (k : Nat)
    (hk : isNumberPosition k = true) :
    decimalInt (r.getD k []) = some (l.number k) ∧ fitsInt (l.number k) = true := by
  simp only [isNumberPosition, decide_eq_true_eq] at hk
  obtain ⟨v14, h14, g14⟩ := h.wep
  obtain ⟨v15, h15, g15⟩ := h.wpa1
  obtain ⟨v16, h16, g16⟩ := h.wpa2
  rcases hk with rfl | rfl | rfl | rfl | rfl | rfl | rfl | rfl | rfl
  · exact Atoi_ok_inv _ _ h.signal
  · exact Atoi_ok_inv _ _ h.length
  · exact Atoi_ok_inv _ _ h.phyRate
  · exact Atoi_ok_inv _ _ h.frequency
  · exact Atoi_ok_inv _ _ h.mode
  · exact Atoi_ok_inv _ _ h.channel
  · obtain ⟨a, b⟩ := Atoi_ok_inv _ _ h14
    rcases (toBool_ok_iff _ _).mp g14 with ⟨rfl, e⟩ | ⟨rfl, e⟩ <;>
      simp [-List.getD_eq_getElem?_getD, Packet.number, e, a, b]
  · obtain ⟨a, b⟩ := Atoi_ok_inv _ _ h15
    rcases (toBool_ok_iff _ _).mp g15 with ⟨rfl, e⟩ | ⟨rfl, e⟩ <;>
      simp [-List.getD_eq_getElem?_getD, Packet.number, e, a, b]
  · obtain ⟨a, b⟩ := Atoi_ok_inv _ _ h16
    rcases (toBool_ok_iff _ _).mp g16 with ⟨rfl, e⟩ | ⟨rfl, e⟩ <;>
      simp [-List.getD_eq_getElem?_getD, Packet.number, e, a, b]


/-! ## Lemmas: `net.ParseMAC` against the texts of a hardware address -/

namespace net

theorem xtoiLoop_hex (c : Nat) (rest : GoString) (n i : Nat) (hc : isHexDigit c = true) :
    xtoiLoop (c :: rest) n i =
      if n * 16 + hexVal c ≥ big then (0, i, false) else xtoiLoop rest (n * 16 + hexVal c) (i + 1) := by
  simp only [isHexDigit, decide_eq_true_eq] at hc
  rcases hc with h | h | h
  · have e : hexVal c = c - 48 := by simp only [hexVal]; split_ifs <;> omega
    rw [xtoiLoop, if_pos h, e]
  · have e : hexVal c = c - 97 + 10 := by simp only [hexVal]; split_ifs <;> omega
    rw [xtoiLoop, if_neg (by omega), if_pos h, e]
    rfl
  · have e : hexVal c = c - 65 + 10 := by simp only [hexVal]; split_ifs <;> omega
    rw [xtoiLoop, if_neg (by omega), if_neg (by omega), if_pos h, e]
    rfl

theorem xtoiLoop_other (c : Nat) (rest : GoString) (n i : Nat) (hc : isHexDigit c = false) :
    xtoiLoop (c :: rest) n i = if i = 0 then (0, i, false) else (n, i, true) := by
  simp only [isHexDigit, decide_eq_false_iff_not, not_or] at hc
  obtain ⟨h1, h2, h3⟩ := hc
  rw [xtoiLoop, if_neg h1, if_neg h2, if_neg h3]

theorem hexVal_le (c : Nat) (hc : isHexDigit c = true) : hexVal c ≤ 15 := by
  simp only [isHexDigit, decide_eq_true_eq] at hc
  simp only [hexVal]
  split_ifs <;> omega

theorem xtoi_pair (a b : Nat) (ha : isHexDigit a = true) (hb : isHexDigit b = true) :
    xtoi [a, b] = (16 * hexVal a + hexVal b, 2, true) := by
  have la := hexVal_le a ha
  have lb := hexVal_le b hb
  rw [xtoi, xtoiLoop_hex a _ _ _ ha, if_neg (by simp only [big]; omega),
    xtoiLoop_hex b _ _ _ hb, if_neg (by simp only [big]; omega)]
  simp only [xtoiLoop]
  norm_num
  omega

/-- The two-digit test of `xtoi2`: anything but two hexadecimal digits fails it. -/
theorem xtoi_pair_bad (a b : Nat) (h : ¬ (isHexDigit a = true ∧ isHexDigit b = true)) :
    ((xtoi [a, b]).2.2 && decide ((xtoi [a, b]).2.1 = 2)) = false := by
  cases ha : isHexDigit a with
  | false =>
    rw [xtoi, xtoiLoop_other a _ _ _ ha]
    rfl
  | true =>
    have hb : isHexDigit b = false := by
      cases hb : isHexDigit b with
      | false => rfl
      | true => exact absurd ⟨ha, hb⟩ h
    have la := hexVal_le a ha
    rw [xtoi, xtoiLoop_hex a _ _ _ ha, if_neg (by simp only [big]; omega),
      xtoiLoop_other b _ _ _ hb]
    rfl

theorem xtoi2_pair (a b e : Nat) (ha : isHexDigit a = true) (hb : isHexDigit b = true) :
    xtoi2 [a, b] e = (16 * hexVal a + hexVal b, true) := by
  have la := hexVal_le a ha
  have lb := hexVal_le b hb
  simp only [xtoi2, List.length_cons, List.length_nil, List.take, xtoi_pair a b ha hb]
  norm_num
  omega

theorem xtoi2_pair_bad (a b e : Nat) (h : ¬ (isHexDigit a = true ∧ isHexDigit b = true)) :
    xtoi2 [a, b] e = ((xtoi2 [a, b] e).1, false) := by
  refine Prod.ext rfl ?_
  have := xtoi_pair_bad a b h
  simp only [xtoi2, List.length_cons, List.length_nil, List.take]
  norm_num
  simpa using this

theorem xtoi2_sep (a b c e : Nat) (rest : GoString) (ha : isHexDigit a = true)
    (hb : isHexDigit b = true) (hc : c = e) :
    xtoi2 (a :: b :: c :: rest) e = (16 * hexVal a + hexVal b, true) := by
  have la := hexVal_le a ha
  have lb := hexVal_le b hb
  simp only [xtoi2, List.length_cons, List.take, xtoi_pair a b ha hb, List.getD_cons_succ,
    List.getD_cons_zero, hc]
  norm_num
  omega

theorem xtoi2_sep_bad (a b c e : Nat) (rest : GoString)
    (h : ¬ (isHexDigit a = true ∧ isHexDigit b = true ∧ c = e)) :
    xtoi2 (a :: b :: c :: rest) e = ((xtoi2 (a :: b :: c :: rest) e).1, false) := by
  refine Prod.ext rfl ?_
  simp only [xtoi2, List.length_cons, List.take, List.getD_cons_succ, List.getD_cons_zero]
  by_cases hc : c = e
  · have := xtoi_pair_bad a b (fun hab => h ⟨hab.1, hab.2, hc⟩)
    rw [if_neg (by simp [hc])]
    simpa using this
  · rw [if_pos ⟨by omega, hc⟩]

theorem length_two (s : GoString) (h : s.length = 2) : ∃ a b, s = [a, b] := by
  match s, h with
  | [a, b], _ => exact ⟨a, b, rfl⟩

theorem length_three_add (s : GoString) (n : Nat) (h : s.length = n + 3) :
    ∃ a b c rest, s = a :: b :: c :: rest ∧ rest.length = n := by
  match s, h with
  | a :: b :: c :: rest, h =>
    exact ⟨a, b, c, rest, rfl, by simpa using h⟩

/-- The loop of the octet form accepts the texts `isOctetForm` describes. -/
theorem macOctets_spec (e : Nat) : ∀ (n : Nat) (s : GoString), s.length = 3 * n + 2 →
    macOctets e (n + 1) s = if isOctetForm e n s = true then some (octetBytes s) else none := by
  intro n
  induction n with
  | zero =>
    intro s hs
    obtain ⟨a, b, rfl⟩ := length_two s (by simpa using hs)
    by_cases h : isHexDigit a = true ∧ isHexDigit b = true
    · simp [macOctets, xtoi2_pair a b e h.1 h.2, isOctetForm, octetBytes, h.1, h.2]
    · rw [macOctets, xtoi2_pair_bad a b e h]
      have : isOctetForm e 0 [a, b] = false := by
        simp only [isOctetForm, Bool.and_eq_false_iff]
        by_cases ha : isHexDigit a = true
        · exact Or.inr (by simpa using fun hb => h ⟨ha, hb⟩)
        · exact Or.inl (by simpa using ha)
      simp [this]
  | succ n ih =>
    intro s hs
    obtain ⟨a, b, c, rest, rfl, hr⟩ := length_three_add s (3 * n + 2) (by omega)
    have ih' := ih rest hr
    by_cases h : isHexDigit a = true ∧ isHexDigit b = true ∧ c = e
    · rw [macOctets, xtoi2_sep a b c e rest h.1 h.2.1 h.2.2]
      simp only [List.drop_succ_cons, List.drop_zero, ih', isOctetForm, octetBytes, h.1, h.2.1,
        h.2.2, decide_True, Bool.true_and]
      split_ifs <;> rfl
    · rw [macOctets, xtoi2_sep_bad a b c e rest h]
      have : isOctetForm e (n + 1) (a :: b :: c :: rest) = false := by
        simp only [isOctetForm, Bool.and_eq_false_iff, decide_eq_false_iff_not]
        by_cases ha : isHexDigit a = true
        · by_cases hb : isHexDigit b = true
          · exact Or.inl (Or.inr (fun hc => h ⟨ha, hb, hc⟩))
          · exact Or.inl (Or.inl (Or.inr (by simpa using hb)))
        · exact Or.inl (Or.inl (Or.inl (by simpa using ha)))
      simp [this]

theorem length_four (s : GoString) (h : s.length = 4) : ∃ a b c d, s = [a, b, c, d] := by
  match s, h with
  | [a, b, c, d], _ => exact ⟨a, b, c, d, rfl⟩

theorem length_five_add (s : GoString) (n : Nat) (h : s.length = n + 5) :
    ∃ a b c d f rest, s = a :: b :: c :: d :: f :: rest ∧ rest.length = n := by
  match s, h with
  | a :: b :: c :: d :: f :: rest, h =>
    exact ⟨a, b, c, d, f, rest, rfl, by simpa using h⟩

/-- The loop of the dotted form accepts the texts `isGroupForm` describes. -/
theorem macGroups_spec : ∀ (k : Nat) (s : GoString), s.length = 5 * k + 4 →
    macGroups 46 (k + 1) s = if isGroupForm k s = true then some (groupBytes s) else none := by
  intro k
  induction k with
  | zero =>
    intro s hs
    obtain ⟨a, b, c, d, rfl⟩ := length_four s (by simpa using hs)
    rw [macGroups]
    simp only [List.take, List.drop]
    by_cases h1 : isHexDigit a = true ∧ isHexDigit b = true
    · rw [xtoi2_pair a b 0 h1.1 h1.2]
      by_cases h2 : isHexDigit c = true ∧ isHexDigit d = true
      · simp [xtoi2_pair c d 46 h2.1 h2.2, isGroupForm, groupBytes, h1.1, h1.2, h2.1, h2.2,
          macGroups]
      · rw [xtoi2_pair_bad c d 46 h2]
        have : isGroupForm 0 [a, b, c, d] = false := by
          simp only [isGroupForm, Bool.and_eq_false_iff]
          by_cases hc : isHexDigit c = true
          · exact Or.inr (by simpa using fun hd => h2 ⟨hc, hd⟩)
          · exact Or.inl (Or.inr (by simpa using hc))
        simp [this]
    · rw [xtoi2_pair_bad a b 0 h1]
      have : isGroupForm 0 [a, b, c, d] = false := by
        simp only [isGroupForm, Bool.and_eq_false_iff]
        by_cases ha : isHexDigit a = true
        · exact Or.inl (Or.inl (Or.inr (by simpa using fun hb => h1 ⟨ha, hb⟩)))
        · exact Or.inl (Or.inl (Or.inl (by simpa using ha)))
      simp [this]
  | succ k ih =>
    intro s hs
    obtain ⟨a, b, c, d, f, rest, rfl, hr⟩ := length_five_add s (5 * k + 4) (by omega)
    have ih' := ih rest hr
    rw [macGroups]
    simp only [List.take, List.drop]
    by_cases h1 : isHexDigit a = true ∧ isHexDigit b = true
    · rw [xtoi2_pair a b 0 h1.1 h1.2]
      by_cases h2 : isHexDigit c = true ∧ isHexDigit d = true ∧ f = 46
      · rw [xtoi2_sep c d f 46 rest h2.1 h2.2.1 h2.2.2]
        simp only [ih', isGroupForm, groupBytes, h1.1, h1.2, h2.1, h2.2.1, h2.2.2, decide_True,
          Bool.true_and]
        split_ifs <;> rfl
      · rw [xtoi2_sep_bad c d f 46 rest h2]
        have : isGroupForm (k + 1) (a :: b :: c :: d :: f :: rest) = false := by
          simp only [isGroupForm, Bool.and_eq_false_iff, decide_eq_false_iff_not]
          by_cases hc : isHexDigit c = true
          · by_cases hd : isHexDigit d = true
            · exact Or.inl (Or.inr (fun hf => h2 ⟨hc, hd, hf⟩))
            · exact Or.inl (Or.inl (Or.inr (by simpa using hd)))
          · exact Or.inl (Or.inl (Or.inl (Or.inr (by simpa using hc))))
        simp [this]
    · rw [xtoi2_pair_bad a b 0 h1]
      have : isGroupForm (k + 1) (a :: b :: c :: d :: f :: rest) = false := by
        simp only [isGroupForm, Bool.and_eq_false_iff, decide_eq_false_iff_not]
        by_cases ha : isHexDigit a = true
        · exact Or.inl (Or.inl (Or.inl (Or.inl (Or.inr (by simpa using fun hb => h1 ⟨ha, hb⟩)))))
        · exact Or.inl (Or.inl (Or.inl (Or.inl (Or.inl (by simpa using ha)))))
      simp [this]

theorem isHexDigit_not_sep (c : Nat) (h : isHexDigit c = true) : c ≠ 58 ∧ c ≠ 45 ∧ c ≠ 46 := by
  simp only [isHexDigit, decide_eq_true_eq] at h
  omega

theorem isOctetForm_length (e : Nat) : ∀ (n : Nat) (s : GoString),
    isOctetForm e n s = true → s.length = 3 * n + 2 := by
  intro n
  induction n with
  | zero =>
    intro s h
    match s, h with
    | [a, b], _ => rfl
  | succ n ih =>
    intro s h
    match s, h with
    | a :: b :: c :: rest, h =>
      simp only [isOctetForm, Bool.and_eq_true] at h
      have := ih rest h.2
      simp only [List.length_cons, this]
      omega

theorem isOctetForm_head (e n : Nat) (s : GoString) (h : isOctetForm e n s = true) :
    isHexDigit (s.getD 0 0) = true ∧ isHexDigit (s.getD 1 0) = true := by
  cases n with
  | zero =>
    match s, h with
    | [a, b], h =>
      simp only [isOctetForm, Bool.and_eq_true] at h
      exact h
  | succ n =>
    match s, h with
    | a :: b :: c :: rest, h =>
      simp only [isOctetForm, Bool.and_eq_true] at h
      exact ⟨h.1.1.1, h.1.1.2⟩

theorem isOctetForm_sep (e n : Nat) (s : GoString) (h : isOctetForm e (n + 1) s = true) :
    s.getD 2 0 = e ∧ isHexDigit (s.getD 4 0) = true := by
  match s, h with
  | a :: b :: c :: rest, h =>
    simp only [isOctetForm, Bool.and_eq_true, decide_eq_true_eq] at h
    exact ⟨h.1.2, (isOctetForm_head e n rest h.2).2⟩

theorem isGroupForm_length : ∀ (k : Nat) (s : GoString),
    isGroupForm k s = true → s.length = 5 * k + 4 := by
  intro k
  induction k with
  | zero =>
    intro s h
    match s, h with
    | [a, b, c, d], _ => rfl
  | succ k ih =>
    intro s h
    match s, h with
    | a :: b :: c :: d :: f :: rest, h =>
      simp only [isGroupForm, Bool.and_eq_true] at h
      have := ih rest h.2
      simp only [List.length_cons, this]
      omega

theorem isGroupForm_sep (k : Nat) (s : GoString) (h : isGroupForm (k + 1) s = true) :
    s.getD 4 0 = 46 ∧ isHexDigit (s.getD 2 0) = true := by
  match s, h with
  | a :: b :: c :: d :: f :: rest, h =>
    simp only [isGroupForm, Bool.and_eq_true, decide_eq_true_eq] at h
    exact ⟨h.1.2, h.1.1.1.2⟩

theorem octet_false (e n : Nat) (s : GoString)
    (h : s.length ≠ 3 * (n + 1) + 2 ∨ s.getD 2 0 ≠ e ∨ s.getD 4 0 = 46) :
    isOctetForm e (n + 1) s = false := by
  cases hf : isOctetForm e (n + 1) s with
  | false => rfl
  | true =>
    have h1 := isOctetForm_length e _ s hf
    obtain ⟨h2, h3⟩ := isOctetForm_sep e n s hf
    have := isHexDigit_not_sep _ h3
    rcases h with h | h | h
    · exact absurd h1 h
    · exact absurd h2 h
    · exact absurd h this.2.2

theorem group_false (k : Nat) (s : GoString)
    (h : s.length ≠ 5 * (k + 1) + 4 ∨ s.getD 4 0 ≠ 46 ∨ s.getD 2 0 = 58 ∨ s.getD 2 0 = 45) :
    isGroupForm (k + 1) s = false := by
  cases hf : isGroupForm (k + 1) s with
  | false => rfl
  | true =>
    have h1 := isGroupForm_length _ s hf
    obtain ⟨h2, h3⟩ := isGroupForm_sep k s hf
    have := isHexDigit_not_sep _ h3
    rcases h with h | h | h | h
    · exact absurd h1 h
    · exact absurd h2 h
    · exact absurd h this.1
    · exact absurd h this.2.1

theorem isHexString_cons2 (a b : Nat) (rest : GoString) :
    isHexString (a :: b :: rest) = (isHexDigit a && isHexDigit b && isHexString rest) := by
  have e : decide ((rest.length + 1 + 1) % 2 = 0) = decide (rest.length % 2 = 0) :=
    decide_eq_decide.mpr (by omega)
  simp only [isHexString, List.all_cons, List.length_cons, Bool.and_assoc, e]

/-- The loop of the form without separators accepts the strings of hexadecimal
digits. -/
theorem macPlain_spec : ∀ (n : Nat) (s : GoString), s.length = 2 * n →
    macPlain n s = if isHexString s = true then some (hexPairs s) else none := by
  intro n
  induction n with
  | zero =>
    intro s hs
    have : s = [] := List.eq_nil_of_length_eq_zero (by simpa using hs)
    subst this
    rfl
  | succ n ih =>
    intro s hs
    obtain ⟨a, b, rest, rfl, hr⟩ : ∃ a b rest, s = a :: b :: rest ∧ rest.length = 2 * n := by
      match s, hs with
      | a :: b :: rest, h => exact ⟨a, b, rest, rfl, by simp only [List.length_cons] at h; omega⟩
    have ih' := ih rest hr
    rw [macPlain, isHexString_cons2]
    simp only [List.take, List.drop]
    by_cases h : isHexDigit a = true ∧ isHexDigit b = true
    · rw [xtoi2_pair a b 0 h.1 h.2]
      simp only [ih', h.1, h.2, Bool.true_and, hexPairs]
      split_ifs <;> rfl
    · rw [xtoi2_pair_bad a b 0 h]
      have : (isHexDigit a && isHexDigit b) = false := by
        by_cases ha : isHexDigit a = true
        · simpa [ha] using fun hb => h ⟨ha, hb⟩
        · simp [ha]
      simp [this]

theorem isHexString_getD (s : GoString) (h : isHexString s = true) (i : Nat)
    (hi : i < s.length) : isHexDigit (s.getD i 0) = true := by
  simp only [isHexString, Bool.and_eq_true, List.all_eq_true] at h
  rw [List.getD_eq_getElem _ _ hi]
  exact h.1 _ (List.getElem_mem _)

theorem plain_false_of (n : Nat) (s : GoString)
    (h : s.length ≠ 2 * n ∨
      (4 < s.length ∧ (s.getD 2 0 = 58 ∨ s.getD 2 0 = 45 ∨ s.getD 4 0 = 46))) :
    isPlainForm n s = false := by
  cases hf : isPlainForm n s with
  | false => rfl
  | true =>
    simp only [isPlainForm, Bool.and_eq_true, decide_eq_true_eq] at hf
    rcases h with h | ⟨hl, h⟩
    · exact absurd hf.2 h
    · have h2 := isHexDigit_not_sep _ (isHexString_getD s hf.1 2 (by omega))
      have h4 := isHexDigit_not_sep _ (isHexString_getD s hf.1 4 (by omega))
      rcases h with h | h | h
      · exact absurd h h2.1
      · exact absurd h h2.2.1
      · exact absurd h h4.2.2

theorem octet_false_of (e n : Nat) (s : GoString) (hn : 1 ≤ n)
    (h : s.length ≠ 3 * n + 2 ∨ s.getD 2 0 ≠ e ∨ s.getD 4 0 = 46) :
    isOctetForm e n s = false := by
  obtain ⟨m, rfl⟩ : ∃ m, n = m + 1 := ⟨n - 1, by omega⟩
  exact octet_false e m s h

theorem group_false_of (k : Nat) (s : GoString) (hk : 1 ≤ k)
    (h : s.length ≠ 5 * k + 4 ∨ s.getD 4 0 ≠ 46 ∨ s.getD 2 0 = 58 ∨ s.getD 2 0 = 45) :
    isGroupForm k s = false := by
  obtain ⟨m, rfl⟩ : ∃ m, k = m + 1 := ⟨k - 1, by omega⟩
  exact group_false m s h

/-- The octet branch of `ParseMAC`. -/
theorem octet_case (s : GoString) (e m : Nat) (he : e = 58 ∨ e = 45) (h2 : s.getD 2 0 = e)
    (hm : m = 5 ∨ m = 7 ∨ m = 19) (hl : s.length = 3 * m + 2) :
    (match macOctets e (m + 1) s with
      | none => macError s
      | some hw => (hw, none)) =
      if isMACText s = true then (macBytes s, none) else macError s := by
  rw [macOctets_spec e m s hl]
  have hsep : s.getD 2 0 = 58 ∨ s.getD 2 0 = 45 := by omega
  have g : ∀ k, 1 ≤ k → isGroupForm k s = false :=
    fun k hk => group_false_of k s hk (Or.inr (Or.inr hsep))
  have p : ∀ n, isPlainForm n s = false :=
    fun n => plain_false_of n s (Or.inr ⟨by omega, by omega⟩)
  have o : ∀ e' m', 1 ≤ m' → (e' ≠ e ∨ m' ≠ m) → isOctetForm e' m' s = false := by
    intro e' m' hm' hne
    apply octet_false_of e' m' s hm'
    rcases hne with hne | hne
    · exact Or.inr (Or.inl (by omega))
    · exact Or.inl (by omega)
  have key : isMACText s = isOctetForm e m s := by
    rcases he with rfl | rfl <;> rcases hm with rfl | rfl | rfl
    · simp only [isMACText, g 2 (by norm_num), g 3 (by norm_num), g 9 (by norm_num), p 6,
        p 8, p 20, Bool.or_false, Bool.false_or,
        o 58 7 (by norm_num) (by omega), o 58 19 (by norm_num) (by omega),
        o 45 5 (by norm_num) (by omega), o 45 7 (by norm_num) (by omega),
        o 45 19 (by norm_num) (by omega)]
    · simp only [isMACText, g 2 (by norm_num), g 3 (by norm_num), g 9 (by norm_num), p 6,
        p 8, p 20, Bool.or_false, Bool.false_or,
        o 58 5 (by norm_num) (by omega), o 58 19 (by norm_num) (by omega),
        o 45 5 (by norm_num) (by omega), o 45 7 (by norm_num) (by omega),
        o 45 19 (by norm_num) (by omega)]
    · simp only [isMACText, g 2 (by norm_num), g 3 (by norm_num), g 9 (by norm_num), p 6,
        p 8, p 20, Bool.or_false, Bool.false_or,
        o 58 5 (by norm_num) (by omega), o 58 7 (by norm_num) (by omega),
        o 45 5 (by norm_num) (by omega), o 45 7 (by norm_num) (by omega),
        o 45 19 (by norm_num) (by omega)]
    · simp only [isMACText, g 2 (by norm_num), g 3 (by norm_num), g 9 (by norm_num), p 6,
        p 8, p 20, Bool.or_false, Bool.false_or,
        o 58 5 (by norm_num) (by omega), o 58 7 (by norm_num) (by omega),
        o 58 19 (by norm_num) (by omega), o 45 7 (by norm_num) (by omega),
        o 45 19 (by norm_num) (by omega)]
    · simp only [isMACText, g 2 (by norm_num), g 3 (by norm_num), g 9 (by norm_num), p 6,
        p 8, p 20, Bool.or_false, Bool.false_or,
        o 58 5 (by norm_num) (by omega), o 58 7 (by norm_num) (by omega),
        o 58 19 (by norm_num) (by omega), o 45 5 (by norm_num) (by omega),
        o 45 19 (by norm_num) (by omega)]
    · simp only [isMACText, g 2 (by norm_num), g 3 (by norm_num), g 9 (by norm_num), p 6,
        p 8, p 20, Bool.or_false, Bool.false_or,
        o 58 5 (by norm_num) (by omega), o 58 7 (by norm_num) (by omega),
        o 58 19 (by norm_num) (by omega), o 45 5 (by norm_num) (by omega),
        o 45 7 (by norm_num) (by omega)]
  rw [key]
  by_cases hf : isOctetForm e m s = true
  · simp only [hf, if_true, macBytes, if_pos hsep]
  · simp [hf]

/-- The dotted branch of `ParseMAC`. -/
theorem group_case (s : GoString) (k : Nat) (h2 : ¬ (s.getD 2 0 = 58 ∨ s.getD 2 0 = 45))
    (h4 : s.getD 4 0 = 46) (hk : k = 2 ∨ k = 3 ∨ k = 9) (hl : s.length = 5 * k + 4) :
    (match macGroups 46 (k + 1) s with
      | none => macError s
      | some hw => (hw, none)) =
      if isMACText s = true then (macBytes s, none) else macError s := by
  rw [macGroups_spec k s hl]
  have o := fun e n (hn : 1 ≤ n) => octet_false_of e n s hn (Or.inr (Or.inr h4))
  have p : ∀ n, isPlainForm n s = false :=
    fun n => plain_false_of n s (Or.inr ⟨by omega, Or.inr (Or.inr h4)⟩)
  have g : ∀ k', 1 ≤ k' → k' ≠ k → isGroupForm k' s = false :=
    fun k' hk' hne => group_false_of k' s hk' (Or.inl (by omega))
  have key : isMACText s = isGroupForm k s := by
    rcases hk with rfl | rfl | rfl
    · simp only [isMACText, o 58 5 (by norm_num), o 58 7 (by norm_num), o 58 19 (by norm_num),
        o 45 5 (by norm_num), o 45 7 (by norm_num), o 45 19 (by norm_num), p 6, p 8, p 20,
        Bool.or_false, Bool.false_or, g 3 (by norm_num) (by norm_num),
        g 9 (by norm_num) (by norm_num)]
    · simp only [isMACText, o 58 5 (by norm_num), o 58 7 (by norm_num), o 58 19 (by norm_num),
        o 45 5 (by norm_num), o 45 7 (by norm_num), o 45 19 (by norm_num), p 6, p 8, p 20,
        Bool.or_false, Bool.false_or, g 2 (by norm_num) (by norm_num),
        g 9 (by norm_num) (by norm_num)]
    · simp only [isMACText, o 58 5 (by norm_num), o 58 7 (by norm_num), o 58 19 (by norm_num),
        o 45 5 (by norm_num), o 45 7 (by norm_num), o 45 19 (by norm_num), p 6, p 8, p 20,
        Bool.or_false, Bool.false_or, g 2 (by norm_num) (by norm_num),
        g 3 (by norm_num) (by norm_num)]
  rw [key]
  by_cases hf : isGroupForm k s = true
  · simp only [hf, if_true, macBytes, if_neg h2, if_pos h4]
  · simp [hf]

/-- The branch of `ParseMAC` for the form without separators. -/
theorem plain_case (s : GoString) (n : Nat) (h2 : ¬ (s.getD 2 0 = 58 ∨ s.getD 2 0 = 45))
    (h4 : ¬ s.getD 4 0 = 46) (hn : n = 6 ∨ n = 8 ∨ n = 20) (hl : s.length = 2 * n) :
    (match macPlain n s with
      | none => macError s
      | some hw => (hw, none)) =
      if isMACText s = true then (macBytes s, none) else macError s := by
  rw [macPlain_spec n s hl]
  have o := fun e (he : e = 58 ∨ e = 45) m (hm : 1 ≤ m) =>
    octet_false_of e m s hm (Or.inr (Or.inl (by omega)))
  have g := fun k (hk : 1 ≤ k) => group_false_of k s hk (Or.inr (Or.inl h4))
  have p : ∀ n', n' ≠ n → isPlainForm n' s = false :=
    fun n' hne => plain_false_of n' s (Or.inl (by omega))
  have self : isPlainForm n s = isHexString s := by
    simp only [isPlainForm, hl, decide_True, Bool.and_true]
  have key : isMACText s = isHexString s := by
    rcases hn with rfl | rfl | rfl
    · simp only [isMACText, o 58 (by norm_num) 5 (by norm_num), o 58 (by norm_num) 7 (by norm_num),
        o 58 (by norm_num) 19 (by norm_num), o 45 (by norm_num) 5 (by norm_num),
        o 45 (by norm_num) 7 (by norm_num), o 45 (by norm_num) 19 (by norm_num),
        g 2 (by norm_num), g 3 (by norm_num), g 9 (by norm_num), self,
        p 8 (by norm_num), p 20 (by norm_num), Bool.or_false, Bool.false_or]
    · simp only [isMACText, o 58 (by norm_num) 5 (by norm_num), o 58 (by norm_num) 7 (by norm_num),
        o 58 (by norm_num) 19 (by norm_num), o 45 (by norm_num) 5 (by norm_num),
        o 45 (by norm_num) 7 (by norm_num), o 45 (by norm_num) 19 (by norm_num),
        g 2 (by norm_num), g 3 (by norm_num), g 9 (by norm_num), self,
        p 6 (by norm_num), p 20 (by norm_num), Bool.or_false, Bool.false_or]
    · simp only [isMACText, o 58 (by norm_num) 5 (by norm_num), o 58 (by norm_num) 7 (by norm_num),
        o 58 (by norm_num) 19 (by norm_num), o 45 (by norm_num) 5 (by norm_num),
        o 45 (by norm_num) 7 (by norm_num), o 45 (by norm_num) 19 (by norm_num),
        g 2 (by norm_num), g 3 (by norm_num), g 9 (by norm_num), self,
        p 6 (by norm_num), p 8 (by norm_num), Bool.or_false, Bool.false_or]
  rw [key]
  by_cases hf : isHexString s = true
  · simp only [hf, if_true, macBytes, if_neg h2, if_neg h4]
  · simp [hf]

/-- No text is a hardware address unless `ParseMAC` reaches one of its three loops. -/
theorem not_isMACText (s : GoString)
    (ho : ∀ n, n = 5 ∨ n = 7 ∨ n = 19 →
      s.length ≠ 3 * n + 2 ∨ (s.getD 2 0 ≠ 58 ∧ s.getD 2 0 ≠ 45) ∨ s.getD 4 0 = 46)
    (hg : ∀ k, k = 2 ∨ k = 3 ∨ k = 9 →
      s.length ≠ 5 * k + 4 ∨ s.getD 4 0 ≠ 46 ∨ s.getD 2 0 = 58 ∨ s.getD 2 0 = 45)
    (hp : ∀ n, n = 6 ∨ n = 8 ∨ n = 20 →
      s.length ≠ 2 * n ∨
        (4 < s.length ∧ (s.getD 2 0 = 58 ∨ s.getD 2 0 = 45 ∨ s.getD 4 0 = 46))) :
    isMACText s = false := by
  have o : ∀ e n, (e = 58 ∨ e = 45) → (n = 5 ∨ n = 7 ∨ n = 19) → isOctetForm e n s = false := by
    intro e n he hn
    apply octet_false_of e n s (by omega)
    rcases ho n hn with h | h | h
    · exact Or.inl h
    · exact Or.inr (Or.inl (by omega))
    · exact Or.inr (Or.inr h)
  have g : ∀ k, (k = 2 ∨ k = 3 ∨ k = 9) → isGroupForm k s = false :=
    fun k hk => group_false_of k s (by omega) (hg k hk)
  have p : ∀ n, (n = 6 ∨ n = 8 ∨ n = 20) → isPlainForm n s = false :=
    fun n hn => plain_false_of n s (hp n hn)
  simp only [isMACText, o 58 5 (by norm_num) (by norm_num), o 58 7 (by norm_num) (by norm_num),
    o 58 19 (by norm_num) (by norm_num), o 45 5 (by norm_num) (by norm_num),
    o 45 7 (by norm_num) (by norm_num), o 45 19 (by norm_num) (by norm_num),
    g 2 (by norm_num), g 3 (by norm_num), g 9 (by norm_num),
    p 6 (by norm_num), p 8 (by norm_num), p 20 (by norm_num), Bool.or_false]

/-- The model of `ParseMAC` accepts exactly the texts of a hardware address, and
returns their bytes. -/
theorem ParseMAC_spec (s : GoString) :
    ParseMAC s = if isMACText s = true then (macBytes s, none) else macError s := by
  unfold ParseMAC
  by_cases h12 : s.length < 12
  · rw [if_pos h12, not_isMACText s (fun n hn => Or.inl (by omega))
      (fun k hk => Or.inl (by omega)) (fun n hn => Or.inl (by omega))]
    simp
  rw [if_neg h12]
  by_cases h2 : s.getD 2 0 = 58 ∨ s.getD 2 0 = 45
  · rw [if_pos h2]
    have hp : ∀ n, n = 6 ∨ n = 8 ∨ n = 20 → s.length ≠ 2 * n ∨
        (4 < s.length ∧ (s.getD 2 0 = 58 ∨ s.getD 2 0 = 45 ∨ s.getD 4 0 = 46)) :=
      fun n hn => Or.inr ⟨by omega, by omega⟩
    by_cases h3 : (s.length + 1) % 3 ≠ 0
    · rw [if_pos h3, not_isMACText s (fun n hn => Or.inl (by omega))
        (fun k hk => Or.inr (Or.inr h2)) hp]
      simp
    rw [if_neg h3]
    simp only []
    by_cases hn : (s.length + 1) / 3 ≠ 6 ∧ (s.length + 1) / 3 ≠ 8 ∧ (s.length + 1) / 3 ≠ 20
    · rw [if_pos hn, not_isMACText s (fun n hn => Or.inl (by omega))
        (fun k hk => Or.inr (Or.inr h2)) hp]
      simp
    rw [if_neg hn]
    have hq : (s.length + 1) / 3 = 6 ∨ (s.length + 1) / 3 = 8 ∨ (s.length + 1) / 3 = 20 := by
      omega
    rcases hq with hq | hq | hq
    · rw [hq]
      exact octet_case s _ 5 h2 rfl (by norm_num) (by omega)
    · rw [hq]
      exact octet_case s _ 7 h2 rfl (by norm_num) (by omega)
    · rw [hq]
      exact octet_case s _ 19 h2 rfl (by norm_num) (by omega)
  rw [if_neg h2]
  by_cases h4 : s.getD 4 0 = 46
  · rw [if_pos h4]
    have hp : ∀ n, n = 6 ∨ n = 8 ∨ n = 20 → s.length ≠ 2 * n ∨
        (4 < s.length ∧ (s.getD 2 0 = 58 ∨ s.getD 2 0 = 45 ∨ s.getD 4 0 = 46)) :=
      fun n hn => Or.inr ⟨by omega, Or.inr (Or.inr h4)⟩
    by_cases h5 : (s.length + 1) % 5 ≠ 0
    · rw [if_pos h5, not_isMACText s (fun n hn => Or.inr (Or.inr h4))
        (fun k hk => Or.inl (by omega)) hp]
      simp
    rw [if_neg h5]
    simp only []
    by_cases hn : 2 * (s.length + 1) / 5 ≠ 6 ∧ 2 * (s.length + 1) / 5 ≠ 8 ∧
        2 * (s.length + 1) / 5 ≠ 20
    · rw [if_pos hn, not_isMACText s (fun n hn => Or.inr (Or.inr h4))
        (fun k hk => Or.inl (by omega)) hp]
      simp
    rw [if_neg hn, h4]
    have hq : 2 * (s.length + 1) / 5 = 6 ∨ 2 * (s.length + 1) / 5 = 8 ∨
        2 * (s.length + 1) / 5 = 20 := by
      omega
    rcases hq with hq | hq | hq
    · rw [hq]
      exact group_case s 2 h2 h4 (by norm_num) (by omega)
    · rw [hq]
      exact group_case s 3 h2 h4 (by norm_num) (by omega)
    · rw [hq]
      exact group_case s 9 h2 h4 (by norm_num) (by omega)
  rw [if_neg h4]
  have ho : ∀ n, n = 5 ∨ n = 7 ∨ n = 19 →
      s.length ≠ 3 * n + 2 ∨ (s.getD 2 0 ≠ 58 ∧ s.getD 2 0 ≠ 45) ∨ s.getD 4 0 = 46 :=
    fun n hn => Or.inr (Or.inl (by omega))
  have hg : ∀ k, k = 2 ∨ k = 3 ∨ k = 9 →
      s.length ≠ 5 * k + 4 ∨ s.getD 4 0 ≠ 46 ∨ s.getD 2 0 = 58 ∨ s.getD 2 0 = 45 :=
    fun k hk => Or.inr (Or.inl h4)
  by_cases h6 : s.length % 2 ≠ 0
  · rw [if_pos h6, not_isMACText s ho hg (fun n hn => Or.inl (by omega))]
    simp
  rw [if_neg h6]
  simp only []
  by_cases hn : s.length / 2 ≠ 6 ∧ s.length / 2 ≠ 8 ∧ s.length / 2 ≠ 20
  · rw [if_pos hn, not_isMACText s ho hg (fun n hn => Or.inl (by omega))]
    simp
  rw [if_neg hn]
  exact plain_case s _ h2 h4 (by omega) (by omega)

theorem octetBytes_length (e : Nat) : ∀ (n : Nat) (s : GoString),
    isOctetForm e n s = true → (octetBytes s).length = n + 1 := by
  intro n
  induction n with
  | zero =>
    intro s h
    match s, h with
    | [a, b], _ => rfl
  | succ n ih =>
    intro s h
    match s, h with
    | a :: b :: c :: rest, h =>
      simp only [isOctetForm, Bool.and_eq_true] at h
      simp only [octetBytes, List.length_cons, ih rest h.2]

theorem groupBytes_length : ∀ (k : Nat) (s : GoString),
    isGroupForm k s = true → (groupBytes s).length = 2 * k + 2 := by
  intro k
  induction k with
  | zero =>
    intro s h
    match s, h with
    | [a, b, c, d], _ => rfl
  | succ k ih =>
    intro s h
    match s, h with
    | a :: b :: c :: d :: f :: rest, h =>
      simp only [isGroupForm, Bool.and_eq_true] at h
      simp only [groupBytes, List.length_cons, ih rest h.2]
      omega

/-- The text of a hardware address writes 6, 8 or 20 bytes. -/
theorem macBytes_length (s : GoString) (h : isMACText s = true) :
    (macBytes s).length = 6 ∨ (macBytes s).length = 8 ∨ (macBytes s).length = 20 := by
  have oct : ∀ e n, (e = 58 ∨ e = 45) → isOctetForm e (n + 1) s = true →
      (macBytes s).length = n + 2 := by
    intro e n he hf
    have h2 : s.getD 2 0 = 58 ∨ s.getD 2 0 = 45 := by
      rw [(isOctetForm_sep e n s hf).1]
      exact he
    simp only [macBytes, if_pos h2, octetBytes_length e _ s hf]
  have grp : ∀ k, isGroupForm (k + 1) s = true → (macBytes s).length = 2 * k + 4 := by
    intro k hf
    obtain ⟨h4, hx⟩ := isGroupForm_sep k s hf
    have h2 := isHexDigit_not_sep _ hx
    simp only [macBytes, if_neg (not_or.mpr ⟨h2.1, h2.2.1⟩), if_pos h4,
      groupBytes_length _ s hf]
    omega
  have pln : ∀ n, 3 ≤ n → isPlainForm n s = true → (macBytes s).length = n := by
    intro n hn hf
    simp only [isPlainForm, Bool.and_eq_true, decide_eq_true_eq] at hf
    have h2 := isHexDigit_not_sep _ (isHexString_getD s hf.1 2 (by omega))
    have h4 := isHexDigit_not_sep _ (isHexString_getD s hf.1 4 (by omega))
    simp only [macBytes, if_neg (not_or.mpr ⟨h2.1, h2.2.1⟩), if_neg h4.2.2,
      hex.hexPairs_length, hf.2]
    omega
  simp only [isMACText, Bool.or_eq_true] at h
  rcases h with ((((((((((h | h) | h) | h) | h) | h) | h) | h) | h) | h) | h) | h
  · exact Or.inl (oct 58 4 (by norm_num) h)
  · exact Or.inr (Or.inl (oct 58 6 (by norm_num) h))
  · exact Or.inr (Or.inr (oct 58 18 (by norm_num) h))
  · exact Or.inl (oct 45 4 (by norm_num) h)
  · exact Or.inr (Or.inl (oct 45 6 (by norm_num) h))
  · exact Or.inr (Or.inr (oct 45 18 (by norm_num) h))
  · exact Or.inl (grp 1 h)
  · exact Or.inr (Or.inl (grp 2 h))
  · exact Or.inr (Or.inr (grp 8 h))
  · exact Or.inl (pln 6 (by norm_num) h)
  · exact Or.inr (Or.inl (pln 8 (by norm_num) h))
  · exact Or.inr (Or.inr (pln 20 (by norm_num) h))

/-- The model of `ParseMAC` returns without error exactly on the text of a hardware
address, with the bytes it writes. -/
theorem ParseMAC_ok_iff (s : GoString) (m : HardwareAddr) :
    ParseMAC s = (m, none) ↔ isMACText s = true ∧ m = macBytes s := by
  rw [ParseMAC_spec]
  by_cases h : isMACText s = true
  · simp [h, eq_comm]
  · simp [h, macError]

end net

/-! ## Lemmas: `time.Parse` on a time stamp written in the layout -/

namespace time

theorem leadingIntLoop_digits (ds : List Nat) (hd : ds.all isDecDigit = true) :
    ∀ x, digitsAcc x ds < 2 ^ 63 → leadingIntLoop ds x = .ok (digitsAcc x ds, []) := by
  induction ds with
  | nil => intro x _; rfl
  | cons c rest ih =>
    intro x hx
    simp only [List.all_cons, Bool.and_eq_true, isDecDigit, decide_eq_true_eq] at hd
    rw [digitsAcc_cons] at hx
    have h1 := le_digitsAcc rest (x * 10 + (c - 48))
    have e : (x * 10 + c + 2 ^ 64 - 48) % 2 ^ 64 = x * 10 + (c - 48) := by
      norm_num at hx h1 ⊢
      omega
    have hx2 : ¬ x > 2 ^ 63 / 10 := by
      norm_num at hx h1 ⊢
      omega
    have hx3 : ¬ x * 10 + (c - 48) > 2 ^ 63 := by
      norm_num at hx h1 ⊢
      omega
    rw [leadingIntLoop, if_neg (by omega), if_neg hx2]
    simp only [e, if_neg hx3]
    rw [digitsAcc_cons]
    exact ih hd.2 _ hx

/-- `atoi` of package `time` on a run of digits. -/
theorem atoi_digits (c : Nat) (ds : List Nat) (hd : (c :: ds).all isDecDigit = true)
    (hl : (c :: ds).length ≤ 18) : atoi (c :: ds) = .ok (digitsValue (c :: ds) : Int) := by
  have hv := digitsValue_lt _ hd hl
  have hc : c ≠ 45 ∧ c ≠ 43 := by
    simp only [List.all_cons, Bool.and_eq_true, isDecDigit, decide_eq_true_eq] at hd
    omega
  have h63 : digitsValue (c :: ds) < 2 ^ 63 := by
    norm_num at hv ⊢
    omega
  have hl := leadingIntLoop_digits (c :: ds) hd 0 h63
  have hw : wrapInt ((digitsValue (c :: ds) : Nat) : Int) = (digitsValue (c :: ds) : Nat) :=
    strconv.wrapInt_eq _ (by norm_num; omega) (by exact_mod_cast h63)
  simp only [atoi, List.headD_cons, hc.1, hc.2, decide_False, or_self, and_false, if_false,
    leadingInt, hl, digitsValue, List.length_nil, gt_iff_lt, lt_self_iff_false,
    Bool.false_eq_true]
  simp only [digitsValue] at hw
  rw [hw]

theorem getnum_two (a b : Nat) (rest : GoString) (fixed : Bool)
    (ha : isDecDigit a = true) (hb : isDecDigit b = true) :
    getnum (a :: b :: rest) fixed = .ok (digitsValue [a, b], rest) := by
  simp only [isDecDigit, decide_eq_true_eq] at ha hb
  simp [getnum, isDigit, ha, hb, digitsValue, digitsAcc]

theorem skip_byte (p : Nat) (rest : GoString) (hp : p ≠ 32) :
    skip (p :: rest) p = .ok rest := by
  simp [skip, hp]

theorem skip_blank (c : Nat) (rest : GoString) (hc : c ≠ 32) :
    skip (32 :: c :: rest) 32 = .ok (c :: rest) := by
  simp [skip, cutspace, hc]

theorem daysIn_eq (m : Nat) (y : Nat) (h1 : 1 ≤ m) (h2 : m ≤ 12) :
    daysIn m (y : Int) = daysInMonth y m := by
  have hl : isLeap (y : Int) = leapYear y := by
    simp only [isLeap, leapYear]
    congr 1
    apply propext
    omega
  interval_cases m <;> simp [daysIn, daysInMonth, hl]

theorem literal_byte (avalue rest : GoString) (p : Nat) (text : String) (hp : p ≠ 32) :
    literal avalue (p :: rest) p text = .ok rest := by
  simp only [literal, skip_byte p rest hp]

theorem literal_blank (avalue rest : GoString) (c : Nat) (text : String) (hc : c ≠ 32) :
    literal avalue (32 :: c :: rest) 32 text = .ok (c :: rest) := by
  simp only [literal, skip_blank c rest hc]

theorem stdLongYear_digits (avalue rest : GoString) (a b c d : Nat)
    (h : [a, b, c, d].all isDecDigit = true) :
    stdLongYear avalue (a :: b :: c :: d :: rest) = .ok ((digitsValue [a, b, c, d] : Nat), rest) := by
  have ha : isDecDigit a = true := by
    simp only [List.all_cons, Bool.and_eq_true] at h
    exact h.1
  have hd : isDigit (a :: b :: c :: d :: rest) 0 = true := by
    simp only [isDecDigit, decide_eq_true_eq] at ha
    simp [isDigit, ha]
  simp only [stdLongYear, List.length_cons, hd, List.take, List.drop,
    atoi_digits a [b, c, d] h (by simp)]
  simp

theorem stdZeroMonth_digits (avalue rest : GoString) (a b : Nat) (ha : isDecDigit a = true)
    (hb : isDecDigit b = true) (h1 : 1 ≤ digitsValue [a, b]) (h2 : digitsValue [a, b] ≤ 12) :
    stdZeroMonth avalue (a :: b :: rest) = .ok (digitsValue [a, b], rest) := by
  simp only [stdZeroMonth, getnum_two a b rest true ha hb]
  rw [if_neg (by omega)]

theorem stdZeroDay_digits (avalue rest : GoString) (a b : Nat) (ha : isDecDigit a = true)
    (hb : isDecDigit b = true) :
    stdZeroDay avalue (a :: b :: rest) = .ok (digitsValue [a, b], rest) := by
  simp only [stdZeroDay, getnum_two a b rest true ha hb]

theorem stdHour_digits (avalue rest : GoString) (a b : Nat) (ha : isDecDigit a = true)
    (hb : isDecDigit b = true) (h : digitsValue [a, b] < 24) :
    stdHour avalue (a :: b :: rest) = .ok (digitsValue [a, b], rest) := by
  simp only [stdHour, getnum_two a b rest false ha hb]
  rw [if_neg (by omega)]

theorem stdZeroMinute_digits (avalue rest : GoString) (a b : Nat) (ha : isDecDigit a = true)
    (hb : isDecDigit b = true) (h : digitsValue [a, b] < 60) :
    stdZeroMinute avalue (a :: b :: rest) = .ok (digitsValue [a, b], rest) := by
  simp only [stdZeroMinute, getnum_two a b rest true ha hb]
  rw [if_neg (by omega)]

theorem stdZeroSecond_digits (avalue rest : GoString) (a b : Nat) (ha : isDecDigit a = true)
    (hb : isDecDigit b = true) (h : digitsValue [a, b] < 60) :
    stdZeroSecond avalue (a :: b :: rest) = .ok (digitsValue [a, b], rest) := by
  simp only [stdZeroSecond, getnum_two a b rest true ha hb]
  rw [if_neg (by omega)]

theorem stdFracSecond0_digits (avalue rest : GoString) (a b c d e f : Nat)
    (h : [a, b, c, d, e, f].all isDecDigit = true) :
    stdFracSecond0 avalue (46 :: a :: b :: c :: d :: e :: f :: rest) =
      .ok (((digitsValue [a, b, c, d, e, f] * 1000 : Nat) : Int), rest) := by
  have hv := digitsAcc_lt_pow [a, b, c, d, e, f] h 0
  have hw : wrapInt (((digitsValue [a, b, c, d, e, f] : Nat) : Int) * 1000) =
      ((digitsValue [a, b, c, d, e, f] : Nat) : Int) * 1000 := by
    rw [strconv.wrapInt_eq]
    · have : (0 : Int) ≤ ((digitsValue [a, b, c, d, e, f] : Nat) : Int) := Int.ofNat_nonneg _
      norm_num
      omega
    · simp only [digitsValue] at hv ⊢
      norm_num at hv ⊢
      omega
  have hn : ¬ (((digitsValue [a, b, c, d, e, f] : Nat) : Int) < 0) := by
    have : (0 : Int) ≤ ((digitsValue [a, b, c, d, e, f] : Nat) : Int) := Int.ofNat_nonneg _
    omega
  simp only [stdFracSecond0, parseNanoseconds, List.length_cons, List.headD_cons, commaOrPeriod,
    List.take, List.drop, atoi_digits a [b, c, d, e, f] h (by simp)]
  simp [hw, hn]

theorem stdNumTZ_digits (avalue rest : GoString) (sg a b c d : Nat)
    (hs : sg = 43 ∨ sg = 45) (ha : isDecDigit a = true) (hb : isDecDigit b = true)
    (hc : isDecDigit c = true) (hd : isDecDigit d = true)
    (h1 : digitsValue [a, b] ≤ 24) (h2 : digitsValue [c, d] ≤ 60) :
    stdNumTZ avalue (sg :: a :: b :: c :: d :: rest) =
      .ok (if sg = 45 then
          -((digitsValue [a, b] * 3600 + digitsValue [c, d] * 60 : Nat) : Int)
        else ((digitsValue [a, b] * 3600 + digitsValue [c, d] * 60 : Nat) : Int), rest) := by
  have g0 : getnum (str "00") true = .ok (0, []) := by rfl
  have e : ((digitsValue [a, b] * 60 + digitsValue [c, d]) * 60 + 0 : Nat) =
      digitsValue [a, b] * 3600 + digitsValue [c, d] * 60 := by ring
  simp only [stdNumTZ, List.length_cons, List.take, List.drop, List.headD_cons,
    getnum_two a b [] true ha hb, getnum_two c d [] true hc hd, g0]
  rw [if_neg (by omega)]
  rcases hs with rfl | rfl
  · simp [e, Nat.not_lt.mpr h1, Nat.not_lt.mpr h2]
  · simp [e, Nat.not_lt.mpr h1, Nat.not_lt.mpr h2]

theorem length_32 (s : GoString) (h : s.length = 32) :
    ∃ b0 b1 b2 b3 b4 b5 b6 b7 b8 b9 b10 b11 b12 b13 b14 b15 b16 b17 b18 b19 b20 b21 b22 b23 b24 b25 b26 b27 b28 b29 b30 b31, s = [b0, b1, b2, b3, b4, b5, b6, b7, b8, b9, b10, b11, b12, b13, b14, b15, b16, b17, b18, b19, b20, b21, b22, b23, b24, b25, b26, b27, b28, b29, b30, b31] := by
  match s, h with
  | [b0, b1, b2, b3, b4, b5, b6, b7, b8, b9, b10, b11, b12, b13, b14, b15, b16, b17, b18, b19, b20, b21, b22, b23, b24, b25, b26, b27, b28, b29, b30, b31], _ => exact ⟨b0, b1, b2, b3, b4, b5, b6, b7, b8, b9, b10, b11, b12, b13, b14, b15, b16, b17, b18, b19, b20, b21, b22, b23, b24, b25, b26, b27, b28, b29, b30, b31, rfl⟩

set_option maxRecDepth 100000 in
/-- The model of `time.Parse` reads a time stamp written in the layout as the time it
denotes. -/
theorem Parse_timestamp (s : GoString) (h : isTimestampText s = true) :
    Parse s = (timestampOf s, none) := by
  have hlen : s.length = 32 := by
    simp only [isTimestampText, Bool.and_eq_true, decide_eq_true_eq] at h
    exact h.1.1.1.1.1.1.1.1.1.1.1.1.1.1.1.1.1.1.1.1.1.1.1
  obtain ⟨b0, b1, b2, b3, b4, b5, b6, b7, b8, b9, b10, b11, b12, b13, b14, b15, b16, b17, b18, b19, b20, b21, b22, b23, b24, b25, b26, b27, b28, b29, b30, b31, rfl⟩ := length_32 s hlen
  simp only [isTimestampText, slice, List.drop, List.take, List.all_cons, List.all_nil,
    Bool.and_true, Bool.and_eq_true, decide_eq_true_eq, List.getD_cons_succ,
    List.getD_cons_zero, List.length_cons, List.length_nil] at h
  obtain ⟨⟨⟨⟨⟨⟨⟨⟨⟨⟨⟨⟨⟨⟨⟨⟨⟨⟨⟨⟨⟨⟨⟨-, d0, d1, d2, d3⟩, rfl⟩, d5, d6⟩, rfl⟩, d8, d9⟩, rfl⟩, d11, d12⟩, rfl⟩,
    d14, d15⟩, rfl⟩, d17, d18⟩, rfl⟩, d20, d21, d22, d23, d24, d25⟩, rfl⟩, hsign⟩,
    d28, d29, d30, d31⟩, hmon⟩, hday⟩, hhour⟩, hmin⟩, hsec⟩, hzh⟩, hzm⟩ := h
  have c11 : b11 ≠ 32 := by
    simp only [isDecDigit, decide_eq_true_eq] at d11
    omega
  have c27 : b27 ≠ 32 := by omega
  have hdays : daysIn (digitsValue [b5, b6]) ((digitsValue [b0, b1, b2, b3] : Nat) : Int) =
      daysInMonth (digitsValue [b0, b1, b2, b3]) (digitsValue [b5, b6]) :=
    daysIn_eq _ _ hmon.1 hmon.2
  simp only [Parse, parseChunks, bind, Except.bind,
    stdLongYear_digits _ _ b0 b1 b2 b3 (by simp [d0, d1, d2, d3]),
    literal_byte _ _ 45 _ (by norm_num), stdZeroMonth_digits _ _ b5 b6 d5 d6 hmon.1 hmon.2,
    stdZeroDay_digits _ _ b8 b9 d8 d9, literal_blank _ _ b11 _ c11,
    stdHour_digits _ _ b11 b12 d11 d12 hhour, literal_byte _ _ 58 _ (by norm_num),
    stdZeroMinute_digits _ _ b14 b15 d14 d15 hmin,
    stdZeroSecond_digits _ _ b17 b18 d17 d18 hsec,
    stdFracSecond0_digits _ _ b20 b21 b22 b23 b24 b25 (by simp [d20, d21, d22, d23, d24, d25]),
    literal_blank _ _ b27 _ c27,
    stdNumTZ_digits _ _ b27 b28 b29 b30 b31 hsign d28 d29 d30 d31 hzh hzm,
    finish, List.length_nil, hdays]
  rw [if_neg (by simp), if_neg (by omega)]
  simp only [timestampOf, slice, List.drop, List.take, List.getD_cons_succ, List.getD_cons_zero]
  push_cast
  rfl

end time

/-! ## Lemmas: `netip.ParseAddr` on an IPv4 address in dotted-decimal form -/

namespace netip

/-- A run of digits in the loop of `parseIPv4Fields`: the value grows digit by digit;
`n` digits of the field have been read before, with value `v`. -/
theorem parseIPv4Loop_digits (inp : GoString) (ds : List Nat) (hd : ds.all isDecDigit = true) :
    ∀ (rest : GoString) (i prev v n pos : Nat) (fields : List Nat),
      digitsAcc v ds ≤ 255 →
      (n = 0 → 2 ≤ ds.length → ds.headD 0 ≠ 48) →
      (n = 1 → ds ≠ [] → v ≠ 0) →
      parseIPv4Loop inp (ds ++ rest) i prev { val := v, pos := pos, digLen := n, fields := fields } =
        parseIPv4Loop inp rest (i + ds.length) ((prev :: ds).getLast (List.cons_ne_nil _ _))
          { val := digitsAcc v ds, pos := pos, digLen := n + ds.length, fields := fields } := by
  induction ds with
  | nil =>
    intro rest i prev v n pos fields _ _ _
    rfl
  | cons c cs ih =>
    intro rest i prev v n pos fields hv h0 h1
    simp only [List.all_cons, Bool.and_eq_true, isDecDigit, decide_eq_true_eq] at hd
    have hle := le_digitsAcc cs (v * 10 + (c - 48))
    rw [digitsAcc_cons] at hv
    have hz : ¬ (n = 1 ∧ v = 0) := fun hh => h1 hh.1 (List.cons_ne_nil _ _) hh.2
    have e : v * 10 + c - 48 = v * 10 + (c - 48) := by omega
    rw [List.cons_append, parseIPv4Loop, if_pos (by omega)]
    simp only [hz, if_false, e]
    rw [if_neg (by omega)]
    have := ih hd.2 rest (i + 1) c (v * 10 + (c - 48)) (n + 1) pos fields hv
      (by omega)
      (by
        intro hn hcs
        have hn0 : n = 0 := by omega
        have := h0 hn0 (by
          cases cs with
          | nil => exact absurd rfl hcs
          | cons _ _ => simp)
        simp only [List.headD_cons] at this
        omega)
    rw [this, digitsAcc_cons]
    simp only [List.length_cons, List.getLast_cons (List.cons_ne_nil _ _)]
    congr 1
    · omega
    · congr 1
      omega

theorem isOctetText_inv (f : GoString) (h : isOctetText f = true) :
    f ≠ [] ∧ f.all isDecDigit = true ∧ digitsAcc 0 f ≤ 255 ∧ (2 ≤ f.length → f.headD 0 ≠ 48) := by
  simp only [isOctetText, isDigits, Bool.and_eq_true, Bool.or_eq_true, decide_eq_true_eq,
    Bool.not_eq_true', List.isEmpty_eq_false] at h
  obtain ⟨⟨⟨h1, h2⟩, h3⟩, h4⟩ := h
  refine ⟨by simpa using h1, h2, h4, ?_⟩
  intro hl
  rcases h3 with h3 | h3
  · omega
  · exact h3

theorem getLast_digit (prev : Nat) (ds : List Nat) (hne : ds ≠ [])
    (hd : ds.all isDecDigit = true) : (prev :: ds).getLast (List.cons_ne_nil _ _) ≠ 46 := by
  rw [List.getLast_cons hne]
  have hm := List.getLast_mem hne
  have := (List.all_eq_true.mp hd) _ hm
  simp only [isDecDigit, decide_eq_true_eq] at this
  omega

/-- A decimal octet followed by a dot, in the loop of `parseIPv4Fields`. -/
theorem parseIPv4Loop_field (inp f rest : GoString) (hf : isOctetText f = true)
    (hr : rest ≠ []) (i prev pos : Nat) (fields : List Nat) (hp : pos ≠ 3) :
    parseIPv4Loop inp (f ++ 46 :: rest) i prev
        { val := 0, pos := pos, digLen := 0, fields := fields } =
      parseIPv4Loop inp rest (i + f.length + 1) 46
        { val := 0, pos := pos + 1, digLen := 0, fields := fields.set pos (digitsValue f) } := by
  obtain ⟨hne, hd, hv, hz⟩ := isOctetText_inv f hf
  rw [parseIPv4Loop_digits inp f hd (46 :: rest) i prev 0 0 pos fields hv (fun _ => hz)
    (by omega)]
  have hl : 0 < f.length := List.length_pos.mpr hne
  have hlast := getLast_digit prev f hne hd
  rw [parseIPv4Loop, if_neg (by omega), if_pos rfl]
  simp only []
  rw [if_neg (by
    intro h
    rcases h with h | h | h
    · omega
    · exact hr h
    · exact hlast h), if_neg hp]
  have : digitsAcc 0 f % 256 = digitsAcc 0 f := Nat.mod_eq_of_lt (by omega)
  simp only [this, digitsValue]

/-- The last decimal octet, in the loop of `parseIPv4Fields`. -/
theorem parseIPv4Loop_last (inp f : GoString) (hf : isOctetText f = true)
    (i prev pos : Nat) (fields : List Nat) :
    parseIPv4Loop inp f i prev { val := 0, pos := pos, digLen := 0, fields := fields } =
      .ok { val := digitsValue f, pos := pos, digLen := 0 + f.length, fields := fields } := by
  obtain ⟨hne, hd, hv, hz⟩ := isOctetText_inv f hf
  have := parseIPv4Loop_digits inp f hd [] i prev 0 0 pos fields hv (fun _ => hz) (by omega)
  rw [List.append_nil] at this
  rw [this]
  rfl

theorem isOctetText_ne_nil (f : GoString) (hf : isOctetText f = true) : f ≠ [] :=
  (isOctetText_inv f hf).1

/-- The four octets that `parseIPv4Fields` reads from a dotted-decimal text. -/
theorem parseIPv4Fields_dotted (inp a b c d : GoString) (ha : isOctetText a = true)
    (hb : isOctetText b = true) (hc : isOctetText c = true) (hd : isOctetText d = true) :
    parseIPv4Fields inp (a ++ 46 :: (b ++ 46 :: (c ++ 46 :: d))) =
      .ok [digitsValue a, digitsValue b, digitsValue c, digitsValue d] := by
  have nb := isOctetText_ne_nil b hb
  have nc := isOctetText_ne_nil c hc
  have nd := isOctetText_ne_nil d hd
  have vd := (isOctetText_inv d hd).2.2.1
  have e : digitsValue d % 256 = digitsValue d := Nat.mod_eq_of_lt (by
    simp only [digitsValue]
    omega)
  have s0 : ({} : V4State) = { val := 0, pos := 0, digLen := 0, fields := [0, 0, 0, 0] } := rfl
  rw [parseIPv4Fields, s0,
    parseIPv4Loop_field inp a _ ha (by simp) 0 0 0 _ (by norm_num),
    parseIPv4Loop_field inp b _ hb (by simp) _ 46 _ _ (by norm_num),
    parseIPv4Loop_field inp c _ hc nd _ 46 _ _ (by norm_num),
    parseIPv4Loop_last inp d hd]
  simp [e]

end netip

theorem fieldsOf_ne_nil (sep : Nat) : ∀ s : GoString, fieldsOf sep s ≠ [] := by
  intro s
  induction s with
  | nil => simp [fieldsOf]
  | cons c rest ih =>
    simp only [fieldsOf]
    split_ifs
    · simp
    · split <;> simp

/-- The first of several fields of a text is followed by the separator and the text of
the other fields. -/
theorem fieldsOf_cons (sep : Nat) : ∀ (s f g : GoString) (fs : List GoString),
    fieldsOf sep s = f :: g :: fs → ∃ s', s = f ++ sep :: s' ∧ fieldsOf sep s' = g :: fs := by
  intro s
  induction s with
  | nil =>
    intro f g fs h
    simp [fieldsOf] at h
  | cons c rest ih =>
    intro f g fs h
    simp only [fieldsOf] at h
    split_ifs at h with hc
    · simp only [List.cons.injEq] at h
      obtain ⟨rfl, h2⟩ := h
      exact ⟨rest, by simp [hc], h2⟩
    · split at h
      · rename_i f' fs' heq
        simp only [List.cons.injEq] at h
        obtain ⟨rfl, rfl⟩ := h
        obtain ⟨s', h1, h2⟩ := ih f' g fs heq
        exact ⟨s', by simp [h1], h2⟩
      · simp at h

/-- A text with a single field is that field. -/
theorem fieldsOf_single (sep : Nat) : ∀ (s f : GoString), fieldsOf sep s = [f] → s = f := by
  intro s
  induction s with
  | nil =>
    intro f h
    simp only [fieldsOf, List.cons.injEq, and_true] at h
    exact h
  | cons c rest ih =>
    intro f h
    simp only [fieldsOf] at h
    split_ifs at h with hc
    · simp only [List.cons.injEq] at h
      exact absurd h.2 (fieldsOf_ne_nil sep rest)
    · split at h
      · rename_i f' fs' heq
        simp only [List.cons.injEq] at h
        obtain ⟨rfl, rfl⟩ := h
        rw [ih f' heq]
      · rename_i heq
        exact absurd heq (fieldsOf_ne_nil sep rest)

/-- A dotted-decimal text is its four octets with dots between them. -/
theorem isIPv4Text_inv (s : GoString) (h : isIPv4Text s = true) :
    ∃ a b c d, s = a ++ 46 :: (b ++ 46 :: (c ++ 46 :: d)) ∧ fieldsOf 46 s = [a, b, c, d] ∧
      isOctetText a = true ∧ isOctetText b = true ∧ isOctetText c = true ∧
      isOctetText d = true := by
  simp only [isIPv4Text] at h
  split at h
  · rename_i a b c d heq
    simp only [Bool.and_eq_true] at h
    obtain ⟨s1, e1, h1⟩ := fieldsOf_cons 46 s a b [c, d] heq
    obtain ⟨s2, e2, h2⟩ := fieldsOf_cons 46 s1 b c [d] h1
    obtain ⟨s3, e3, h3⟩ := fieldsOf_cons 46 s2 c d [] h2
    have e4 := fieldsOf_single 46 s3 d h3
    subst e4 e3 e2
    exact ⟨a, b, c, s3, e1, heq, h.1.1.1, h.1.1.2, h.1.2, h.2⟩
  · cases h

namespace netip

theorem parseAddrScan_digits (s : GoString) (ds : List Nat) (hd : ds.all isDecDigit = true)
    (rest : GoString) : parseAddrScan s (ds ++ 46 :: rest) = parseIPv4 s := by
  induction ds with
  | nil => simp [parseAddrScan]
  | cons c cs ih =>
    simp only [List.all_cons, Bool.and_eq_true, isDecDigit, decide_eq_true_eq] at hd
    rw [List.cons_append, parseAddrScan, if_neg (by omega), if_neg (by omega),
      if_neg (by omega)]
    exact ih hd.2

/-- The model of `netip.ParseAddr` reads a dotted-decimal text as the address of its
four octets. -/
theorem ParseAddr_ipv4 (s : GoString) (h : isIPv4Text s = true) :
    ParseAddr s = (ipv4Of s, none) := by
  obtain ⟨a, b, c, d, hs, hf, ha, hb, hc, hd⟩ := isIPv4Text_inv s h
  have hscan : parseAddrScan s s = parseIPv4 s := by
    conv_lhs => arg 2; rw [hs]
    exact parseAddrScan_digits s a (isOctetText_inv a ha).2.1 _
  have hfields := parseIPv4Fields_dotted s a b c d ha hb hc hd
  rw [← hs] at hfields
  simp only [ParseAddr, hscan, parseIPv4, hfields, ipv4Of, hf]

end netip

namespace netip

theorem digit_of_hex (c : Nat) (h : isHexDigit c = true) :
    (if c ≥ 48 ∧ c ≤ 57 then some (c - 48)
      else if c ≥ 97 ∧ c ≤ 102 then some (c - 97 + 10)
      else if c ≥ 65 ∧ c ≤ 70 then some (c - 65 + 10)
      else none) = some (hexVal c) := by
  simp only [isHexDigit, decide_eq_true_eq] at h
  unfold hexVal
  split_ifs <;> first | rfl | (congr 1; omega)

theorem digit_of_not_hex (c : Nat) (h : isHexDigit c = false) :
    (if c ≥ 48 ∧ c ≤ 57 then some (c - 48)
      else if c ≥ 97 ∧ c ≤ 102 then some (c - 97 + 10)
      else if c ≥ 65 ∧ c ≤ 70 then some (c - 65 + 10)
      else none) = none := by
  simp only [isHexDigit, decide_eq_false_iff_not] at h
  split_ifs <;> first | rfl | omega

theorem hexVal_lt (c : Nat) (h : isHexDigit c = true) : hexVal c < 16 := by
  simp only [isHexDigit, decide_eq_true_eq] at h
  unfold hexVal
  split_ifs <;> omega

theorem hexGroup_digits (inp whole : GoString) (g rest : GoString) (off acc : Nat)
    (hg : g.all isHexDigit = true) (hoff : off + g.length ≤ 4) (hacc : acc < 16 ^ off)
    (hrest : isHexDigit (rest.headD 0) = false) :
    hexGroup inp whole (g ++ rest) off acc = .ok (off + g.length, hexAcc acc g) := by
  induction g generalizing off acc with
  | nil =>
    cases rest with
    | nil => simp [hexGroup, hexAcc]
    | cons c r =>
      simp only [List.headD_cons] at hrest
      simp only [List.nil_append, hexGroup, digit_of_not_hex c hrest, List.length_nil,
        Nat.add_zero, hexAcc, List.foldl_nil]
  | cons c g ih =>
    simp only [List.all_cons, Bool.and_eq_true] at hg
    simp only [List.length_cons] at hoff
    have hv := hexVal_lt c hg.1
    have hpow : 16 ^ (off + 1) ≤ 16 ^ 4 := Nat.pow_le_pow_right (by omega) (by omega)
    have hlt : acc * 16 + hexVal c < 16 ^ (off + 1) := by
      rw [pow_succ]; omega
    have hmod : (acc * 16 + hexVal c) % 2 ^ 32 = acc * 16 + hexVal c :=
      Nat.mod_eq_of_lt (by omega)
    have hsh : acc <<< 4 = acc * 16 := by rw [Nat.shiftLeft_eq]
    simp only [List.cons_append, hexGroup, digit_of_hex c hg.1, hsh, hmod]
    rw [if_neg (by omega), if_neg (by omega)]
    have := ih (off + 1) _ hg.2 (by omega) hlt
    simp only [List.append_eq] at this ⊢
    rw [this]
    simp only [hexAcc, List.foldl_cons, List.length_cons]
    congr 2; omega

end netip

namespace netip

theorem isGroupText_inv (g : GoString) (h : isGroupText g = true) :
    1 ≤ g.length ∧ g.length ≤ 4 ∧ g.all isHexDigit = true := by
  simp only [isGroupText, Bool.and_eq_true, decide_eq_true_eq] at h
  exact ⟨h.1.1, h.1.2, h.2⟩

theorem hexAcc_lt (g : GoString) (hg : g.all isHexDigit = true) :
    ∀ n, hexAcc n g < (n + 1) * 16 ^ g.length := by
  induction g with
  | nil => intro n; simp [hexAcc]
  | cons c g ih =>
    intro n
    simp only [List.all_cons, Bool.and_eq_true] at hg
    have hv := hexVal_lt c hg.1
    have := ih hg.2 (n * 16 + hexVal c)
    simp only [hexAcc, List.foldl_cons, List.length_cons] at this ⊢
    calc _ < (n * 16 + hexVal c + 1) * 16 ^ g.length := this
      _ ≤ ((n + 1) * 16) * 16 ^ g.length := Nat.mul_le_mul_right _ (by omega)
      _ = _ := by rw [pow_succ]; ring

theorem group_value_lt (g : GoString) (h : isGroupText g = true) : hexAcc 0 g < 65536 := by
  obtain ⟨_, h4, hg⟩ := isGroupText_inv g h
  have := hexAcc_lt g hg 0
  have hpow : 16 ^ g.length ≤ 16 ^ 4 := Nat.pow_le_pow_right (by omega) h4
  omega

theorem write_pair (pre : List Nat) (a b : Nat) (hpre : pre.length ≤ 14) :
    ((pre ++ List.replicate (16 - pre.length) 0).set pre.length a).set (pre.length + 1) b =
      (pre ++ [a, b]) ++ List.replicate (16 - (pre.length + 2)) 0 := by
  obtain ⟨k, hk⟩ : ∃ k, 16 - pre.length = k + 2 := ⟨14 - pre.length, by omega⟩
  have hk2 : 16 - (pre.length + 2) = k := by omega
  rw [hk, hk2]
  simp [List.replicate_succ, List.set_append]

end netip

namespace netip

theorem group_write (g : GoString) (h : isGroupText g = true) (pre : List Nat)
    (hpre : pre.length ≤ 14) :
    ((pre ++ List.replicate (16 - pre.length) 0).set pre.length
        ((hexAcc 0 g >>> 8) % 256)).set (pre.length + 1) (hexAcc 0 g % 256) =
      (pre ++ groupPair g) ++ List.replicate (16 - (pre.length + 2)) 0 := by
  have hv := group_value_lt g h
  rw [write_pair pre _ _ hpre, Nat.shiftRight_eq_div_pow]
  have : hexAcc 0 g / 2 ^ 8 % 256 = hexAcc 0 g / 256 := by
    rw [Nat.mod_eq_of_lt]
    · rfl
    · omega
  rw [this, groupPair]

theorem loop_head (inp g rest : GoString) (pre : List Nat) (ell : Option Nat) (fuel : Nat)
    (hg : isGroupText g = true) (hpre : pre.length ≤ 14)
    (hrest : isHexDigit (rest.headD 0) = false) (h46 : rest.headD 0 ≠ 46) :
    parseIPv6Loop inp (fuel + 1)
      { s := g ++ rest, i := pre.length, ip := pre ++ List.replicate (16 - pre.length) 0,
        ellipsis := ell } =
    (let ip := (pre ++ groupPair g) ++ List.replicate (16 - (pre.length + 2)) 0
     let i := pre.length + 2
     if rest.length = 0 then .ok { s := rest, i := i, ip := ip, ellipsis := ell }
     else if rest.headD 0 ≠ 58 then
       .error (.parseAddrError inp "unexpected character, want colon" rest)
     else if rest.length = 1 then
       .error (.parseAddrError inp "colon must be followed by more characters" rest)
     else
       if (rest.drop 1).headD 0 = 58 then
         if ell ≠ none then
           .error (.parseAddrError inp "multiple :: in address" (rest.drop 1))
         else
           if ((rest.drop 1).drop 1).length = 0 then
             .ok { s := (rest.drop 1).drop 1, i := i, ip := ip, ellipsis := some i }
           else parseIPv6Loop inp fuel
             { s := (rest.drop 1).drop 1, i := i, ip := ip, ellipsis := some i }
       else parseIPv6Loop inp fuel { s := rest.drop 1, i := i, ip := ip, ellipsis := ell }) := by
  obtain ⟨h1, h4, hd⟩ := isGroupText_inv g hg
  have hgrp := hexGroup_digits inp (g ++ rest) g rest 0 0 hd (by omega) (by norm_num) hrest
  have hget : (g ++ rest).getD g.length 0 = rest.headD 0 := by
    cases rest with
    | nil => simp
    | cons c r => simp [List.getD_eq_getElem?_getD, List.getElem_append_right]
  rw [parseIPv6Loop]
  simp only [hgrp, Nat.zero_add]
  rw [if_neg (by omega), if_neg (by omega), if_neg (by rw [hget]; exact fun h => h46 h.2)]
  simp only [group_write g hg pre hpre, List.drop_left]

end netip

namespace netip

theorem not_hex_58 : isHexDigit 58 = false := by decide

theorem joinFields_head (g : GoString) (gs : List GoString) (hg : isGroupText g = true) :
    ∃ c t, joinFields 58 (g :: gs) = c :: t ∧ isHexDigit c = true := by
  obtain ⟨h1, _, hd⟩ := isGroupText_inv g hg
  cases g with
  | nil => simp at h1
  | cons c t =>
    simp only [List.all_cons, Bool.and_eq_true] at hd
    cases gs with
    | nil => exact ⟨c, t, rfl, hd.1⟩
    | cons g' rest => exact ⟨c, _, rfl, hd.1⟩

theorem groupPair_length (g : GoString) : (groupPair g).length = 2 := rfl

theorem loop_groups (inp : GoString) : ∀ (gs : List GoString) (pre : List Nat)
    (ell : Option Nat) (fuel : Nat), gs ≠ [] → (∀ g ∈ gs, isGroupText g = true) →
    gs.length ≤ fuel → pre.length + 2 * gs.length ≤ 16 →
    parseIPv6Loop inp fuel
      { s := joinFields 58 gs, i := pre.length,
        ip := pre ++ List.replicate (16 - pre.length) 0, ellipsis := ell } =
    .ok { s := [], i := pre.length + 2 * gs.length,
          ip := (pre ++ gs.flatMap groupPair) ++
            List.replicate (16 - (pre.length + 2 * gs.length)) 0,
          ellipsis := ell } := by
  intro gs
  induction gs with
  | nil => intro _ _ _ h; exact absurd rfl h
  | cons g gs ih =>
    intro pre ell fuel _ hv hfuel hlen
    simp only [List.length_cons] at hfuel hlen
    obtain ⟨f, rfl⟩ : ∃ f, fuel = f + 1 := ⟨fuel - 1, by omega⟩
    have hg := hv g (List.mem_cons_self _ _)
    cases gs with
    | nil =>
      have := loop_head inp g [] pre ell f hg (by omega) (by decide) (by decide)
      simp only [List.append_nil, List.length_nil, if_true] at this
      simp only [joinFields, this, List.flatMap_cons, List.flatMap_nil, List.append_nil,
        List.length_nil, List.length_cons]
    | cons g' rest =>
      obtain ⟨c, t, hj, hc⟩ := joinFields_head g' rest (hv g' (by simp))
      have hc58 : c ≠ 58 := fun h => by rw [h] at hc; exact absurd hc (by decide)
      have := loop_head inp g (58 :: joinFields 58 (g' :: rest)) pre ell f hg (by
        simp only [List.length_cons] at hlen; omega) not_hex_58 (by simp)
      rw [joinFields, this]
      simp only [List.length_cons, List.headD_cons, List.drop_succ_cons, List.drop_zero, hj]
      rw [if_neg (by omega), if_neg (by simp), if_neg (by omega), if_neg hc58, ← hj]
      have hl : (pre ++ groupPair g).length = pre.length + 2 := by
        rw [List.length_append, groupPair_length]
      have := ih (pre ++ groupPair g) ell f (by simp)
        (fun x hx => hv x (List.mem_cons_of_mem _ hx)) (by omega) (by rw [hl]; omega)
      rw [hl] at this
      rw [this]
      have e1 : pre.length + 2 + 2 * (g' :: rest).length =
          pre.length + 2 * ((g' :: rest).length + 1) := by omega
      simp only [e1]
      simp only [List.flatMap_cons, List.append_assoc, List.length_cons]

theorem loop_groups_ellipsis (inp r : GoString) : ∀ (gs : List GoString) (pre : List Nat)
    (fuel : Nat), gs ≠ [] → (∀ g ∈ gs, isGroupText g = true) →
    gs.length ≤ fuel → pre.length + 2 * gs.length ≤ 16 →
    parseIPv6Loop inp fuel
      { s := joinFields 58 gs ++ 58 :: 58 :: r, i := pre.length,
        ip := pre ++ List.replicate (16 - pre.length) 0, ellipsis := none } =
    (let st : V6State :=
      { s := r, i := pre.length + 2 * gs.length,
        ip := (pre ++ gs.flatMap groupPair) ++
          List.replicate (16 - (pre.length + 2 * gs.length)) 0,
        ellipsis := some (pre.length + 2 * gs.length) }
     if r.length = 0 then .ok st else parseIPv6Loop inp (fuel - gs.length) st) := by
  intro gs
  induction gs with
  | nil => intro _ _ h; exact absurd rfl h
  | cons g gs ih =>
    intro pre fuel _ hv hfuel hlen
    simp only [List.length_cons] at hfuel hlen
    obtain ⟨f, rfl⟩ : ∃ f, fuel = f + 1 := ⟨fuel - 1, by omega⟩
    have hg := hv g (List.mem_cons_self _ _)
    cases gs with
    | nil =>
      have := loop_head inp g (58 :: 58 :: r) pre none f hg (by omega) not_hex_58 (by simp)
      rw [joinFields, this]
      simp only [List.length_cons, List.headD_cons, List.drop_succ_cons, List.drop_zero,
        List.flatMap_cons, List.flatMap_nil, List.append_nil, List.length_nil]
      simp only [Nat.zero_add, Nat.mul_one, Nat.add_sub_cancel, if_true, ne_eq, not_true,
        if_false, Nat.add_eq_zero, one_ne_zero, and_false, Nat.add_left_eq_self,
        List.length_eq_zero, reduceCtorEq, and_self]
    | cons g' rest =>
      obtain ⟨c, t, hj, hc⟩ := joinFields_head g' rest (hv g' (by simp))
      have hc58 : c ≠ 58 := fun h => by rw [h] at hc; exact absurd hc (by decide)
      have := loop_head inp g (58 :: (joinFields 58 (g' :: rest) ++ 58 :: 58 :: r)) pre none f hg
        (by simp only [List.length_cons] at hlen; omega) not_hex_58 (by simp)
      rw [joinFields, List.append_assoc, List.cons_append, this]
      simp only [List.length_cons, List.headD_cons, List.drop_succ_cons, List.drop_zero, hj,
        List.cons_append, List.length_append]
      rw [if_neg (by omega), if_neg (by simp), if_neg (by omega), if_neg hc58,
        ← List.cons_append, ← hj]
      have hl : (pre ++ groupPair g).length = pre.length + 2 := by
        rw [List.length_append, groupPair_length]
      have := ih (pre ++ groupPair g) f (by simp)
        (fun x hx => hv x (List.mem_cons_of_mem _ hx)) (by omega) (by rw [hl]; omega)
      rw [hl] at this
      rw [this]
      have e1 : pre.length + 2 + 2 * (g' :: rest).length =
          pre.length + 2 * ((g' :: rest).length + 1) := by omega
      have e2 : f + 1 - ((g' :: rest).length + 1) = f - (g' :: rest).length := by omega
      simp only [e1]
      simp only [List.flatMap_cons, List.append_assoc, List.length_cons, e2,
        Nat.add_sub_add_right]

end netip

theorem joinFields_cons_cons (sep c : Nat) (f : GoString) (fs : List GoString) :
    joinFields sep ((c :: f) :: fs) = c :: joinFields sep (f :: fs) := by
  cases fs with
  | nil => rfl
  | cons g rest => rfl

theorem joinFields_fieldsOf (sep : Nat) : ∀ s : GoString, joinFields sep (fieldsOf sep s) = s := by
  intro s
  induction s with
  | nil => rfl
  | cons c rest ih =>
    simp only [fieldsOf]
    split_ifs with hc
    · cases hf : fieldsOf sep rest with
      | nil => exact absurd hf (fieldsOf_ne_nil sep rest)
      | cons f fs =>
        rw [hf] at ih
        rw [joinFields, ih, hc, List.nil_append]
    · cases hf : fieldsOf sep rest with
      | nil => exact absurd hf (fieldsOf_ne_nil sep rest)
      | cons f fs =>
        rw [hf] at ih
        simp only [joinFields_cons_cons, ih]

theorem joinFields_groupsOf (s : GoString) : joinFields 58 (groupsOf s) = s := by
  unfold groupsOf
  split_ifs with h
  · rw [h]; rfl
  · exact joinFields_fieldsOf 58 s

theorem splitEllipsis_eq : ∀ (s l r : GoString), splitEllipsis s = some (l, r) →
    s = l ++ 58 :: 58 :: r := by
  intro s
  induction s with
  | nil => intro l r h; simp [splitEllipsis] at h
  | cons c rest ih =>
    intro l r h
    simp only [splitEllipsis] at h
    split_ifs at h with hc
    · simp only [Option.some.injEq, Prod.mk.injEq] at h
      obtain ⟨hl, hr⟩ := h
      cases rest with
      | nil => simp at hc
      | cons d t =>
        simp only [List.headD_cons] at hc
        simp only [List.drop_succ_cons, List.drop_zero] at hr
        rw [← hl, ← hr, hc.1, hc.2, List.nil_append]
    · cases hs : splitEllipsis rest with
      | none => rw [hs] at h; simp at h
      | some p =>
        rw [hs] at h
        simp only [Option.map, Option.some.injEq, Prod.mk.injEq] at h
        obtain ⟨hl, hr⟩ := h
        have := ih p.1 p.2 (by rw [hs])
        rw [this, ← hl, ← hr, List.cons_append]

theorem joinFields_chars : ∀ gs : List GoString, (∀ g ∈ gs, isGroupText g = true) →
    ∀ c ∈ joinFields 58 gs, isHexDigit c = true ∨ c = 58 := by
  intro gs
  induction gs with
  | nil => intro _ c hc; simp [joinFields] at hc
  | cons g gs ih =>
    intro hv c hc
    have hg := (netip.isGroupText_inv g (hv g (List.mem_cons_self _ _))).2.2
    cases gs with
    | nil =>
      simp only [joinFields] at hc
      exact Or.inl (List.all_eq_true.mp hg c hc)
    | cons g' rest =>
      simp only [joinFields, List.mem_append, List.mem_cons] at hc
      rcases hc with hc | hc | hc
      · exact Or.inl (List.all_eq_true.mp hg c hc)
      · exact Or.inr hc
      · exact ih (fun x hx => hv x (List.mem_cons_of_mem _ hx)) c hc

namespace netip

theorem parseAddrScan_colon (s : GoString) : ∀ t : GoString,
    (∀ c ∈ t, isHexDigit c = true ∨ c = 58) → 58 ∈ t → parseAddrScan s t = parseIPv6 s := by
  intro t
  induction t with
  | nil => intro _ h; simp at h
  | cons c rest ih =>
    intro hall hmem
    by_cases hc : c = 58
    · rw [parseAddrScan, if_neg (by omega), if_pos hc]
    · have hx : isHexDigit c = true := (hall c (List.mem_cons_self _ _)).resolve_right hc
      simp only [isHexDigit, decide_eq_true_eq] at hx
      rw [parseAddrScan, if_neg (by omega), if_neg hc, if_neg (by omega)]
      refine ih (fun x hx => hall x (List.mem_cons_of_mem _ hx)) ?_
      rcases List.mem_cons.mp hmem with h | h
      · exact absurd h.symm hc
      · exact h

theorem takeWhile_no_percent : ∀ t : GoString, (∀ c ∈ t, isHexDigit c = true ∨ c = 58) →
    t.takeWhile (fun c => c ≠ 37) = t ∧ t.dropWhile (fun c => c ≠ 37) = [] ∧ 37 ∉ t := by
  intro t
  induction t with
  | nil => intro _; simp
  | cons c rest ih =>
    intro hall
    have hc : c ≠ 37 := by
      rcases hall c (List.mem_cons_self _ _) with h | h
      · simp only [isHexDigit, decide_eq_true_eq] at h; omega
      · omega
    obtain ⟨h1, h2, h3⟩ := ih (fun x hx => hall x (List.mem_cons_of_mem _ hx))
    refine ⟨?_, ?_, ?_⟩
    · rw [List.takeWhile_cons_of_pos (by simpa using hc), h1]
    · rw [List.dropWhile_cons_of_pos (by simpa using hc), h2]
    · simp only [List.mem_cons, not_or]
      exact ⟨fun h => hc h.symm, h3⟩

theorem flatMap_groupPair_length (gs : List GoString) :
    (gs.flatMap groupPair).length = 2 * gs.length := by
  induction gs with
  | nil => rfl
  | cons g gs ih => rw [List.flatMap_cons, List.length_append, ih, groupPair_length,
      List.length_cons]; omega

end netip

namespace netip

theorem isIPv6Text_inv (s : GoString) (h : isIPv6Text s = true) :
    (∃ l r, splitEllipsis s = some (l, r) ∧ s = l ++ 58 :: 58 :: r ∧
      (∀ g ∈ groupsOf l, isGroupText g = true) ∧ (∀ g ∈ groupsOf r, isGroupText g = true) ∧
      (groupsOf l).length + (groupsOf r).length ≤ 7) ∨
    (splitEllipsis s = none ∧ (∀ g ∈ fieldsOf 58 s, isGroupText g = true) ∧
      (fieldsOf 58 s).length = 8) := by
  unfold isIPv6Text at h
  split at h
  · rename_i l r heq
    simp only [Bool.and_eq_true, List.all_eq_true, decide_eq_true_eq] at h
    exact Or.inl ⟨l, r, heq, splitEllipsis_eq s l r heq, h.1.1, h.1.2, h.2⟩
  · rename_i heq
    simp only [Bool.and_eq_true, List.all_eq_true, decide_eq_true_eq] at h
    exact Or.inr ⟨heq, h.1, h.2⟩

theorem isIPv6Text_chars (s : GoString) (h : isIPv6Text s = true) :
    (∀ c ∈ s, isHexDigit c = true ∨ c = 58) ∧ 58 ∈ s := by
  rcases isIPv6Text_inv s h with ⟨l, r, _, hs, hl, hr, _⟩ | ⟨_, hv, hlen⟩
  · refine ⟨?_, by rw [hs]; simp⟩
    intro c hc
    rw [hs, List.mem_append, List.mem_cons, List.mem_cons] at hc
    rcases hc with hc | hc | hc | hc
    · exact joinFields_chars _ hl c (by rw [joinFields_groupsOf]; exact hc)
    · exact Or.inr hc
    · exact Or.inr hc
    · exact joinFields_chars _ hr c (by rw [joinFields_groupsOf]; exact hc)
  · have hj := joinFields_fieldsOf 58 s
    refine ⟨fun c hc => joinFields_chars _ hv c (by rw [hj]; exact hc), ?_⟩
    cases hf : fieldsOf 58 s with
    | nil => rw [hf] at hlen; simp at hlen
    | cons g gs =>
      cases gs with
      | nil => rw [hf] at hlen; simp at hlen
      | cons g' rest =>
        rw [hf, joinFields] at hj
        rw [← hj]; simp

theorem AddrFrom16_WithZone (a : List Nat) : (AddrFrom16 a).WithZone [] = AddrFrom16 a := rfl

theorem head_not_colon (gs : List GoString) (rest : GoString) (hne : gs ≠ [])
    (hv : ∀ g ∈ gs, isGroupText g = true) : (joinFields 58 gs ++ rest).getD 0 0 ≠ 58 := by
  cases gs with
  | nil => exact absurd rfl hne
  | cons g gs =>
    obtain ⟨c, t, hj, hc⟩ := joinFields_head g gs (hv g (List.mem_cons_self _ _))
    rw [hj]
    intro h
    simp only [List.cons_append, List.getD_cons_zero] at h
    rw [h] at hc
    exact absurd hc (by decide)

theorem groupsOf_ne_nil (s : GoString) (h : s ≠ []) : groupsOf s ≠ [] := by
  unfold groupsOf
  rw [if_neg h]
  exact fieldsOf_ne_nil 58 s

theorem parseIPv6_full (s : GoString) (hv : ∀ g ∈ fieldsOf 58 s, isGroupText g = true)
    (hlen : (fieldsOf 58 s).length = 8) (hchars : ∀ c ∈ s, isHexDigit c = true ∨ c = 58) :
    parseIPv6 s = (AddrFrom16 ((fieldsOf 58 s).flatMap groupPair), none) := by
  obtain ⟨h1, h2, h3⟩ := takeWhile_no_percent s hchars
  have hj := joinFields_fieldsOf 58 s
  have hne : fieldsOf 58 s ≠ [] := fieldsOf_ne_nil 58 s
  have hhead := head_not_colon (fieldsOf 58 s) [] hne hv
  rw [List.append_nil, hj] at hhead
  have hloop := loop_groups s (fieldsOf 58 s) [] none 8 hne hv (by omega) (by
    simp only [List.length_nil]; omega)
  simp only [hj, List.length_nil, List.nil_append, Nat.sub_zero, hlen, Nat.zero_add,
    show 2 * 8 = 16 from rfl, Nat.sub_self, List.replicate_zero, List.append_nil] at hloop
  simp only [parseIPv6, h1, h2, h3, List.drop_nil, false_and, if_false, hhead, and_false,
    decide_False, Bool.false_eq_true, hloop, List.length_nil, ne_eq, not_true,
    Nat.lt_irrefl, AddrFrom16_WithZone]

end netip

namespace netip

theorem parseIPv6_lead (s r : GoString) (hs : s = 58 :: 58 :: r)
    (hr : ∀ g ∈ groupsOf r, isGroupText g = true) (hsum : (groupsOf r).length ≤ 7)
    (hchars : ∀ c ∈ s, isHexDigit c = true ∨ c = 58) :
    parseIPv6 s = (AddrFrom16 (List.replicate (16 - ((groupsOf r).flatMap groupPair).length) 0 ++
      (groupsOf r).flatMap groupPair), none) := by
  obtain ⟨h1, h2, h3⟩ := takeWhile_no_percent s hchars
  have hlead : s.length ≥ 2 ∧ s.getD 0 0 = 58 ∧ s.getD 1 0 = 58 := by
    rw [hs]; simp
  have hdrop : s.drop 2 = r := by rw [hs]; rfl
  by_cases hr0 : r = []
  · simp only [parseIPv6, h1, h2, h3, List.drop_nil, false_and, if_false, hlead, and_self,
      decide_True, if_true, hdrop, hr0, List.length_nil, true_and]
    rfl
  · have hne := groupsOf_ne_nil r hr0
    have hB := flatMap_groupPair_length (groupsOf r)
    have hloop := loop_groups s (groupsOf r) [] (some 0) 8 hne hr (by omega) (by
      simp only [List.length_nil]; omega)
    simp only [joinFields_groupsOf, List.length_nil, List.nil_append, Nat.sub_zero,
      Nat.zero_add] at hloop
    rw [← hB] at hloop
    have hlen : r.length ≠ 0 := fun h => hr0 (List.length_eq_zero.mp h)
    have hlt : ((groupsOf r).flatMap groupPair).length < 16 := by omega
    simp only [parseIPv6, h1, h2, h3, List.drop_nil, false_and, if_false, hlead, and_self,
      decide_True, if_true, hdrop, hlen, and_false, hloop, List.length_nil, ne_eq, not_true,
      hlt, List.take_zero, List.nil_append, List.take_left, List.drop_zero,
      AddrFrom16_WithZone]

theorem parseIPv6_groups_then_ellipsis (s l r : GoString) (hs : s = l ++ 58 :: 58 :: r)
    (hl0 : l ≠ [])
    (hl : ∀ g ∈ groupsOf l, isGroupText g = true) (hr : ∀ g ∈ groupsOf r, isGroupText g = true)
    (hsum : (groupsOf l).length + (groupsOf r).length ≤ 7)
    (hchars : ∀ c ∈ s, isHexDigit c = true ∨ c = 58) :
    parseIPv6 s = (AddrFrom16 ((groupsOf l).flatMap groupPair ++
      List.replicate (16 - ((groupsOf l).flatMap groupPair).length -
        ((groupsOf r).flatMap groupPair).length) 0 ++ (groupsOf r).flatMap groupPair), none) := by
  obtain ⟨h1, h2, h3⟩ := takeWhile_no_percent s hchars
  have hnl := groupsOf_ne_nil l hl0
  have hhead := head_not_colon (groupsOf l) (58 :: 58 :: r) hnl hl
  rw [joinFields_groupsOf, ← hs] at hhead
  have hA := flatMap_groupPair_length (groupsOf l)
  have hB := flatMap_groupPair_length (groupsOf r)
  have hq := loop_groups_ellipsis s r (groupsOf l) [] 8 hnl hl (by omega) (by
    simp only [List.length_nil]; omega)
  simp only [joinFields_groupsOf, List.length_nil, List.nil_append, Nat.sub_zero,
    Nat.zero_add] at hq
  rw [← hs, ← hA] at hq
  have hltA : ((groupsOf l).flatMap groupPair).length < 16 := by omega
  by_cases hr0 : r = []
  · have hg0 : groupsOf r = [] := by rw [hr0]; rfl
    simp only [hr0, List.length_nil, if_true] at hq
    simp only [parseIPv6, h1, h2, h3, List.drop_nil, false_and, if_false, hhead, and_false,
      decide_False, Bool.false_eq_true, hq, List.length_nil, ne_eq, not_true, hltA, if_true,
      List.take_left, List.drop_length, hg0, List.flatMap_nil, Nat.sub_zero,
      AddrFrom16_WithZone]
  · have hnr := groupsOf_ne_nil r hr0
    have hlen : r.length ≠ 0 := fun h => hr0 (List.length_eq_zero.mp h)
    rw [if_neg hlen] at hq
    have hloop := loop_groups s (groupsOf r) ((groupsOf l).flatMap groupPair)
      (some ((groupsOf l).flatMap groupPair).length) (8 - (groupsOf l).length) hnr hr
      (by omega) (by omega)
    rw [joinFields_groupsOf] at hloop
    rw [hloop] at hq
    have hlt : ((groupsOf l).flatMap groupPair).length + 2 * (groupsOf r).length < 16 := by
      omega
    have htake : List.take (((groupsOf l).flatMap groupPair).length + 2 * (groupsOf r).length)
        (((groupsOf l).flatMap groupPair ++ (groupsOf r).flatMap groupPair) ++
          List.replicate (16 - (((groupsOf l).flatMap groupPair).length +
            2 * (groupsOf r).length)) 0) =
        (groupsOf l).flatMap groupPair ++ (groupsOf r).flatMap groupPair := by
      rw [← hB, ← List.length_append, List.take_left]
    have htakeA : List.take ((groupsOf l).flatMap groupPair).length
        (((groupsOf l).flatMap groupPair ++ (groupsOf r).flatMap groupPair) ++
          List.replicate (16 - (((groupsOf l).flatMap groupPair).length +
            2 * (groupsOf r).length)) 0) = (groupsOf l).flatMap groupPair := by
      rw [List.append_assoc, List.take_left]
    simp only [parseIPv6, h1, h2, h3, List.drop_nil, false_and, if_false, hhead, and_false,
      decide_False, Bool.false_eq_true, hq, List.length_nil, ne_eq, not_true, hlt, if_true,
      htake, htakeA, List.drop_left, AddrFrom16_WithZone]
    rw [← hB, Nat.sub_add_eq]

theorem parseIPv6_text (s : GoString) (h : isIPv6Text s = true) :
    parseIPv6 s = (ipv6Of s, none) := by
  have hchars := (isIPv6Text_chars s h).1
  rcases isIPv6Text_inv s h with ⟨l, r, hsp, hs, hl, hr, hsum⟩ | ⟨hsp, hv, hlen⟩
  · by_cases hl0 : l = []
    · rw [hl0, List.nil_append] at hs
      have hg0 : groupsOf l = [] := by rw [hl0]; rfl
      rw [hg0, List.length_nil, Nat.zero_add] at hsum
      rw [parseIPv6_lead s r hs hr hsum hchars]
      simp only [ipv6Of, ipv6Bytes, hsp, hg0, List.flatMap_nil, List.length_nil, Nat.sub_zero,
        List.nil_append]
    · rw [parseIPv6_groups_then_ellipsis s l r hs hl0 hl hr hsum hchars]
      simp only [ipv6Of, ipv6Bytes, hsp]
  · rw [parseIPv6_full s hv hlen hchars]
    simp only [ipv6Of, ipv6Bytes, hsp]

theorem ParseAddr_ipv6 (s : GoString) (h : isIPv6Text s = true) :
    ParseAddr s = (ipv6Of s, none) := by
  obtain ⟨hchars, hmem⟩ := isIPv6Text_chars s h
  rw [ParseAddr, parseAddrScan_colon s s hchars hmem, parseIPv6_text s h]

theorem ParseAddr_text (s : GoString) (h : isIPText s = true) :
    ParseAddr s = (ipOf s, none) := by
  unfold ipOf
  by_cases h4 : isIPv4Text s = true
  · rw [if_pos h4, ParseAddr_ipv4 s h4]
  · rw [if_neg h4]
    simp only [isIPText, Bool.or_eq_true] at h
    exact ParseAddr_ipv6 s (h.resolve_left h4)

end netip

/-! ## Canonical records are decoded to the record they denote -/

theorem WellFormedAt_of_CanonicalAt (i : Nat) (s : GoString) (h : CanonicalAt i s = true) :
    WellFormedAt i s = true := by
  unfold CanonicalAt at h
  unfold WellFormedAt
  split_ifs at h ⊢
  · rw [time.Parse_timestamp s h]; rfl
  · rw [net.ParseMAC_spec s, if_pos h]; rfl
  · exact h
  · exact h
  · exact h
  · rw [netip.ParseAddr_text s h]; rfl
  · rfl

theorem WellFormed_of_Canonical (record : List GoString) (h : Canonical record) :
    WellFormed record :=
  ⟨h.1, h.2.1, fun i hi => WellFormedAt_of_CanonicalAt i _ (h.2.2 i hi)⟩

theorem encoded_eq_denoted (record : List GoString) (h : Canonical record) :
    encoded record = denoted record := by
  have w := h.2.2
  have w0 : isTimestampText (fieldText record 0) = true := w 0 (by norm_num)
  have w2 : isMACText (fieldText record 2) = true := w 2 (by norm_num)
  have w3 : isMACText (fieldText record 3) = true := w 3 (by norm_num)
  have w4 : isMACText (fieldText record 4) = true := w 4 (by norm_num)
  have w17 : isIPText (fieldText record 17) = true := w 17 (by norm_num)
  have w18 : isIPText (fieldText record 18) = true := w 18 (by norm_num)
  simp only [encoded, denoted, time.Parse_timestamp _ w0, net.ParseMAC_spec, w2, w3, w4,
    if_true, netip.ParseAddr_text _ w17, netip.ParseAddr_text _ w18]

/-- A canonical record is decoded without error to the record it denotes. -/
theorem decode_of_Canonical (record : List GoString) (h : Canonical record) :
    ParseHorstFields record = .returned (strippedRecord record) (denoted record) none := by
  rw [← encoded_eq_denoted record h]
  exact decode_of_WellFormed record (WellFormed_of_Canonical record h)

set_option maxRecDepth 100000 in
/-- The line of the repository's test is a canonical record. -/
theorem canonical_aLine : Canonical aLine := by
  decide

set_option maxRecDepth 100000 in
/-- The test line with colon-hexadecimal addresses is a canonical record. -/
theorem canonical_aLineIPv6 : Canonical aLineIPv6 := by
  decide
/-! ## The claims

Concrete decodes used by the witnesses and counterexamples come first. -/

set_option maxRecDepth 100000 in
/-- The decode of the failure scenario: the error of the `toBool` step for WEP, with
the record as filled in by the steps before it. -/
theorem decode_aLineWEP5 :
    ParseHorstFields aLineWEP5 = .returned (strippedRecord aLineWEP5)
      { Time := { year := 2025, month := 2, day := 11, hour := 8, min := 10, sec := 39,
                  nsec := 505813000, zoneOffset := 0 }
        WLANType := str "BEACON"
        MACSRC := [0x8c, 0x3b, 0xad, 0xf0, 0x94, 0x6e]
        MACDST := [0xff, 0xff, 0xff, 0xff, 0xff, 0xff]
        BSSID := [0x8c, 0x3b, 0xad, 0xf0, 0x94, 0x6e]
        PacketTypes := str "0"
        Signal := -49
        Length := 194
        PhyRate := 60
        Frequency := 2412
        TSF := [0x00, 0x00, 0x02, 0xad, 0x9e, 0x7e, 0x60, 0x61]
        ESSID := str "EXHO2"
        Mode := 1
        Channel := 1 }
      (some (Errorf "toBool WEP: %v %w" (.int 5)
        (.errorString "toBool can only convert \"0\" or \"1\""))) := by
  decide

set_option maxRecDepth 100000 in
/-- The line of the repository's test is a well-formed record. -/
theorem wellFormed_aLine : WellFormed aLine := by
  decide

set_option maxRecDepth 100000 in
/-- C1, as stated, fails. In the test line with the Length field ` 9223372036854775808`
every field has the form the claim asks of its position (after the strip, field 7 is
the base-10 integer 2^63), yet the call returns an error, the one for Length, since the
integer does not fit `int`. And in the test line with the Signal field `é-49` the
field, after removal of its first character `é`, is the base-10 integer -49, yet the
call, which removes one byte only, returns an error, the one for Signal. -/
theorem C1_wellformed_as_stated_fails :
    (aLineBigLength.length = 19 ∧
      (∀ i, i < 19 → i ≠ 7 → CanonicalAt i (fieldText aLineBigLength i) = true) ∧
      decimalInt (fieldText aLineBigLength 7) = some (2 ^ 63) ∧
      ∃ l e, ParseHorstFields aLineBigLength =
          .returned (strippedRecord aLineBigLength) l (some e) ∧ e.named = "Length") ∧
    (aLineAccentSignal.length = 19 ∧
      (∀ i, i < 19 → i ≠ 6 → CanonicalAt i (fieldText aLineAccentSignal i) = true) ∧
      firstCharWidth (aLineAccentSignal.getD 6 []) = 2 ∧
      decimalInt (dropFirstChar (aLineAccentSignal.getD 6 [])) = some (-49) ∧
      fieldText aLineAccentSignal 6 = 0xa9 :: str "-49" ∧
      ∃ l e, ParseHorstFields aLineAccentSignal =
          .returned (strippedRecord aLineAccentSignal) l (some e) ∧ e.named = "Signal") := by
  refine ⟨⟨by decide, by decide, by decide, (denoted aLineBigLength).upTo 7,
      Errorf "parsing Length: %v %w" (.text (fieldText aLineBigLength 7))
        (.numError "Atoi" (fieldText aLineBigLength 7) .ErrRange), by decide, by decide⟩,
    ⟨by decide, by decide, by decide, by decide, by decide, (denoted aLineAccentSignal).upTo 6,
      Errorf "parsing Signal: %v %w" (.text (fieldText aLineAccentSignal 6))
        (.numError "Atoi" (fieldText aLineAccentSignal 6) .ErrSyntax), by decide, by decide⟩⟩

/-- C1, amended. A record of exactly 19 fields in which field 0 is a timestamp
`YYYY-MM-DD hh:mm:ss.ffffff ±hhmm` and every later field is non-empty and, once its
first byte is removed, has the written form of its position (at 2-4 a hardware address
of 6, 8 or 20 octets; at 6-9, 12 and 13 a base-10 integer that fits the 64-bit `int`;
at 10 an even-length hex string; at 14-16 a base-10 integer equal to 0 or 1; at 17 and
18 an IP address, dotted-decimal or colon-hexadecimal) is decoded without error, and
the `Packet` returned is the one the fields denote position by position: Time is the
instant field 0 writes, the three hardware addresses are the bytes fields 2, 3 and 4
write, Signal, Length, PhyRate, Frequency, Mode and Channel are the integers that
fields 6, 7, 8, 9, 12 and 13 denote, TSF is the bytes field 10 writes, WEP, WPA1 and
WPA2 are true exactly when fields 14, 15 and 16 denote 1, IPSrc and IPDst are the
addresses fields 17 and 18 write, and WLANType, PacketTypes and ESSID are the texts of
fields 1, 5 and 11. The written forms and the values are defined without the parsers
of the decoder. -/
theorem C1_canonical_record_decodes (record : List GoString) (h : Canonical record) :
    ∃ l, ParseHorstFields record = .returned (strippedRecord record) l none ∧
      l = denoted record ∧
      l.Time = timestampOf (record.getD 0 []) ∧
      l.WLANType = (record.getD 1 []).drop 1 ∧
      l.MACSRC = macBytes ((record.getD 2 []).drop 1) ∧
      l.MACDST = macBytes ((record.getD 3 []).drop 1) ∧
      l.BSSID = macBytes ((record.getD 4 []).drop 1) ∧
      l.PacketTypes = (record.getD 5 []).drop 1 ∧
      decimalInt ((record.getD 6 []).drop 1) = some l.Signal ∧
      decimalInt ((record.getD 7 []).drop 1) = some l.Length ∧
      decimalInt ((record.getD 8 []).drop 1) = some l.PhyRate ∧
      decimalInt ((record.getD 9 []).drop 1) = some l.Frequency ∧
      l.TSF = hexPairs ((record.getD 10 []).drop 1) ∧
      l.ESSID = (record.getD 11 []).drop 1 ∧
      decimalInt ((record.getD 12 []).drop 1) = some l.Mode ∧
      decimalInt ((record.getD 13 []).drop 1) = some l.Channel ∧
      (l.WEP = true ↔ decimalInt ((record.getD 14 []).drop 1) = some 1) ∧
      (l.WPA1 = true ↔ decimalInt ((record.getD 15 []).drop 1) = some 1) ∧
      (l.WPA2 = true ↔ decimalInt ((record.getD 16 []).drop 1) = some 1) ∧
      l.IPSrc = ipOf ((record.getD 17 []).drop 1) ∧
      l.IPDst = ipOf ((record.getD 18 []).drop 1) := by
  have hd := decode_of_Canonical record h
  have hp := Parsed_of_WellFormed record (WellFormed_of_Canonical record h)
  rw [encoded_eq_denoted record h] at hp
  have f0 : fieldText record 0 = record.getD 0 [] := strippedRecord_getD_zero record
  have f : ∀ i, fieldText record (i + 1) = (record.getD (i + 1) []).drop 1 :=
    fun i => strippedRecord_getD_succ record i
  have s6 := (Atoi_ok_inv _ _ hp.signal).1
  have s7 := (Atoi_ok_inv _ _ hp.length).1
  have s8 := (Atoi_ok_inv _ _ hp.phyRate).1
  have s9 := (Atoi_ok_inv _ _ hp.frequency).1
  have s12 := (Atoi_ok_inv _ _ hp.mode).1
  have s13 := (Atoi_ok_inv _ _ hp.channel).1
  rw [← fieldText, f] at s6 s7 s8 s9 s12 s13
  refine ⟨denoted record, hd, rfl, ?_, ?_, ?_, ?_, ?_, ?_, s6, s7, s8, s9, ?_, ?_, s12, s13,
    ?_, ?_, ?_, ?_, ?_⟩
  · rw [← f0]; rfl
  · rw [← f 0]; rfl
  · rw [← f 1]; rfl
  · rw [← f 2]; rfl
  · rw [← f 3]; rfl
  · rw [← f 4]; rfl
  · rw [← f 9]; rfl
  · rw [← f 10]; rfl
  · rw [← f 13]; simp only [denoted, decide_eq_true_eq]
  · rw [← f 14]; simp only [denoted, decide_eq_true_eq]
  · rw [← f 15]; simp only [denoted, decide_eq_true_eq]
  · rw [← f 16]; rfl
  · rw [← f 17]; rfl

/-- C1 applies to the line of the repository's test. -/
theorem C1_witness :
    Canonical aLine ∧
    ∃ l, ParseHorstFields aLine = .returned (strippedRecord aLine) l none ∧
      l = denoted aLine ∧
      l.Time = timestampOf (aLine.getD 0 []) ∧
      l.WLANType = (aLine.getD 1 []).drop 1 ∧
      l.MACSRC = macBytes ((aLine.getD 2 []).drop 1) ∧
      l.MACDST = macBytes ((aLine.getD 3 []).drop 1) ∧
      l.BSSID = macBytes ((aLine.getD 4 []).drop 1) ∧
      l.PacketTypes = (aLine.getD 5 []).drop 1 ∧
      decimalInt ((aLine.getD 6 []).drop 1) = some l.Signal ∧
      decimalInt ((aLine.getD 7 []).drop 1) = some l.Length ∧
      decimalInt ((aLine.getD 8 []).drop 1) = some l.PhyRate ∧
      decimalInt ((aLine.getD 9 []).drop 1) = some l.Frequency ∧
      l.TSF = hexPairs ((aLine.getD 10 []).drop 1) ∧
      l.ESSID = (aLine.getD 11 []).drop 1 ∧
      decimalInt ((aLine.getD 12 []).drop 1) = some l.Mode ∧
      decimalInt ((aLine.getD 13 []).drop 1) = some l.Channel ∧
      (l.WEP = true ↔ decimalInt ((aLine.getD 14 []).drop 1) = some 1) ∧
      (l.WPA1 = true ↔ decimalInt ((aLine.getD 15 []).drop 1) = some 1) ∧
      (l.WPA2 = true ↔ decimalInt ((aLine.getD 16 []).drop 1) = some 1) ∧
      l.IPSrc = ipOf ((aLine.getD 17 []).drop 1) ∧
      l.IPDst = ipOf ((aLine.getD 18 []).drop 1) :=
  ⟨canonical_aLine, C1_canonical_record_decodes aLine canonical_aLine⟩

/-- C2, as stated, fails: the decode of the scenario (the 19 fields of the test line)
succeeds, but not with WPA1 true and WPA2 false. Field 15 is ` 0` and field 16 is
` 1`, so WPA1 is false and WPA2 is true. -/
theorem C2_scenario_flags_as_stated_fail :
    ¬ ∃ r l, ParseHorstFields aLine = .returned r l none ∧
      l.WLANType = str "BEACON" ∧ l.Signal = -49 ∧ l.Length = 194 ∧ l.Frequency = 2412 ∧
      l.ESSID = str "EXHO2" ∧ l.WEP = true ∧ l.WPA1 = true ∧ l.WPA2 = false ∧
      l.IPSrc = netip.IPv4Unspecified ∧ l.IPDst = netip.IPv4Unspecified := by
  rintro ⟨r, l, h, _, _, _, _, _, _, h1, _⟩
  rw [decode_aLine] at h
  cases h
  cases h1

/-- C2, amended: the decode of the scenario succeeds with WLANType `BEACON`, Signal
-49, Length 194, Frequency 2412, ESSID `EXHO2`, WEP true, WPA1 false, WPA2 true, and
IPSrc and IPDst both the unspecified IPv4 address. -/
theorem C2_scenario_decodes :
    ∃ r l, ParseHorstFields aLine = .returned r l none ∧
      l.WLANType = str "BEACON" ∧ l.Signal = -49 ∧ l.Length = 194 ∧ l.Frequency = 2412 ∧
      l.ESSID = str "EXHO2" ∧ l.WEP = true ∧ l.WPA1 = false ∧ l.WPA2 = true ∧
      l.IPSrc = netip.IPv4Unspecified ∧ l.IPDst = netip.IPv4Unspecified :=
  ⟨_, _, decode_aLine, rfl, rfl, rfl, rfl, rfl, rfl, rfl, rfl, rfl, rfl⟩

set_option maxRecDepth 100000 in
/-- C3, as stated, fails: with every other field of the test line unchanged, the WEP
field ` +1` reads `+1` after the strip, which is neither `0` nor `1`, and the decode
succeeds, with WEP true. -/
theorem C3_plus_one_is_accepted :
    WellFormedExcept 14 aLinePlusOne ∧
      fieldText aLinePlusOne 14 = str "+1" ∧
      fieldText aLinePlusOne 14 ≠ str "0" ∧ fieldText aLinePlusOne 14 ≠ str "1" ∧
      ParseHorstFields aLinePlusOne =
        .returned (strippedRecord aLinePlusOne) (encoded aLinePlusOne) none ∧
      (encoded aLinePlusOne).WEP = true := by
  decide

/-- C3, amended: for each of the flag positions `k` = 14, 15, 16 (WEP, WPA1, WPA2), in
a 19-field record whose other fields are non-empty and well-formed, the decode
succeeds if and only if field `k` is non-empty and its text after the strip is a
base-10 integer (an optional sign, then decimal digits) whose value is 0 or 1; on
success the flag is false when the value is 0 and true when it is 1. -/
theorem C3_flag_domain (k : Nat) (hk : k = 14 ∨ k = 15 ∨ k = 16) (record : List GoString)
    (h : WellFormedExcept k record) :
    ((∃ r l, ParseHorstFields record = .returned r l none) ↔
      (record.getD k [] ≠ [] ∧
        (decimalInt (fieldText record k) = some 0 ∨ decimalInt (fieldText record k) = some 1))) ∧
    (∀ r l, ParseHorstFields record = .returned r l none →
      (decimalInt (fieldText record k) = some 0 ∧ l.flag k = false) ∨
      (decimalInt (fieldText record k) = some 1 ∧ l.flag k = true)) := by
  have hk1 : 1 ≤ k := by omega
  have hk19 : k < 19 := by omega
  have key : ∀ r l, ParseHorstFields record = .returned r l none →
      record.getD k [] ≠ [] ∧ isFlagText (fieldText record k) = true ∧ l = encoded record := by
    intro r l hd
    obtain ⟨hwf, _, hl⟩ := WellFormed_of_decode record r l h.1 hd
    refine ⟨?_, ?_, hl⟩
    · exact (noEmptyField_iff record).mp hwf.2.1 k hk1 (by rw [h.1]; exact hk19)
    · rw [← wf_flag k _ hk]
      exact hwf.2.2 k hk19
  constructor
  · constructor
    · rintro ⟨r, l, hd⟩
      obtain ⟨h1, h2, _⟩ := key r l hd
      exact ⟨h1, by simpa [isFlagText] using h2⟩
    · rintro ⟨h1, h2⟩
      have hwf := WellFormed_of_except k record hk1 h h1 (by
        rw [wf_flag k _ hk]
        simpa [isFlagText] using h2)
      exact ⟨_, _, decode_of_WellFormed record hwf⟩
  · intro r l hd
    obtain ⟨_, h2, hl⟩ := key r l hd
    subst hl
    simp only [isFlagText, decide_eq_true_eq] at h2
    rcases hk with rfl | rfl | rfl <;> rcases h2 with h2 | h2 <;>
      simp [Packet.flag, encoded, h2]

set_option maxRecDepth 100000 in
/-- C3 applies to the WEP field of the test line. -/
theorem C3_witness :
    WellFormedExcept 14 aLine ∧
    (((∃ r l, ParseHorstFields aLine = .returned r l none) ↔
      (aLine.getD 14 [] ≠ [] ∧
        (decimalInt (fieldText aLine 14) = some 0 ∨ decimalInt (fieldText aLine 14) = some 1))) ∧
    (∀ r l, ParseHorstFields aLine = .returned r l none →
      (decimalInt (fieldText aLine 14) = some 0 ∧ l.flag 14 = false) ∨
      (decimalInt (fieldText aLine 14) = some 1 ∧ l.flag 14 = true))) :=
  ⟨by decide, C3_flag_domain 14 (Or.inl rfl) aLine (by decide)⟩

set_option maxRecDepth 100000 in
/-- C4, as stated, fails: in this 19-field input the fields 0 to 13 are well-formed
and the WEP field reads `5` after the strip, but the last field is empty, so the strip
loop panics and no error is returned. -/
theorem C4_empty_later_field_panics :
    aLineWEP5EmptyLast.length = 19 ∧
      (∀ i, i < 14 → WellFormedAt i (fieldText aLineWEP5EmptyLast i) = true) ∧
      decimalInt (fieldText aLineWEP5EmptyLast 14) = some 5 ∧
      ParseHorstFields aLineWEP5EmptyLast =
        .panicked (strippedRecord aLineWEP5EmptyLast) (.sliceBounds 1 0) ∧
      ¬ ∃ r l e, ParseHorstFields aLineWEP5EmptyLast = .returned r l (some e) := by
  have h : ParseHorstFields aLineWEP5EmptyLast =
      .panicked (strippedRecord aLineWEP5EmptyLast) (.sliceBounds 1 0) := by decide
  refine ⟨by decide, by decide, by decide, h, ?_⟩
  rintro ⟨r, l, e, h2⟩
  rw [h] at h2
  cases h2

/-- C4, amended: for every 19-field input none of whose fields after the first is
empty, whose fields 0 to 13 are well-formed and whose WEP field, after the strip, is a
base-10 integer other than 0 or 1, the call returns an error that names WEP. -/
theorem C4_wep_integer_error (record : List GoString) (h : WellFormedBefore 14 record)
    (v : Int) (hv : decimalInt (fieldText record 14) = some v) (h0 : v ≠ 0) (h1 : v ≠ 1) :
    ∃ l e, ParseHorstFields record = .returned (strippedRecord record) l (some e) ∧
      e.named = "WEP" := by
  obtain ⟨hlen, hne, hw⟩ := h
  have ix := index_stripped record 19 hlen
  have f0 := wf_time _ (hw 0 (by norm_num))
  have f2 := wf_mac 2 _ (by norm_num) (hw 2 (by norm_num))
  have f3 := wf_mac 3 _ (by norm_num) (hw 3 (by norm_num))
  have f4 := wf_mac 4 _ (by norm_num) (hw 4 (by norm_num))
  have f6 := wf_int 6 _ (by norm_num) (hw 6 (by norm_num))
  have f7 := wf_int 7 _ (by norm_num) (hw 7 (by norm_num))
  have f8 := wf_int 8 _ (by norm_num) (hw 8 (by norm_num))
  have f9 := wf_int 9 _ (by norm_num) (hw 9 (by norm_num))
  have f10 := wf_hex _ (hw 10 (by norm_num))
  have f12 := wf_int 12 _ (by norm_num) (hw 12 (by norm_num))
  have f13 := wf_int 13 _ (by norm_num) (hw 13 (by norm_num))
  simp only [ParseHorstFields, stripLoop_ok record hne, decode,
    ix 0 (by norm_num), ix 1 (by norm_num), ix 2 (by norm_num), ix 3 (by norm_num),
    ix 4 (by norm_num), ix 5 (by norm_num), ix 6 (by norm_num), ix 7 (by norm_num),
    ix 8 (by norm_num), ix 9 (by norm_num), ix 10 (by norm_num), ix 11 (by norm_num),
    ix 12 (by norm_num), ix 13 (by norm_num), ix 14 (by norm_num)]
  rw [f0]
  simp only []
  rw [f2]
  simp only []
  rw [f3]
  simp only []
  rw [f4]
  simp only []
  rw [f6]
  simp only []
  rw [f7]
  simp only []
  rw [f8]
  simp only []
  rw [f9]
  simp only []
  rw [f10]
  simp only []
  rw [f12]
  simp only []
  rw [f13]
  simp only []
  rcases strconv.Atoi_spec (fieldText record 14) with
    ⟨w, a1, _, a3⟩ | ⟨w, x, _, _, a3⟩ | ⟨x, e, a1, _⟩
  · rw [hv] at a1
    cases a1
    rw [a3]
    simp only [toBool, h0, h1, if_false]
    exact ⟨_, _, rfl, rfl⟩
  · rw [a3]
    exact ⟨_, _, rfl, rfl⟩
  · rw [hv] at a1
    cases a1

set_option maxRecDepth 100000 in
/-- C4 applies to the failure scenario of the spec, WEP field ` 5`. -/
theorem C4_witness :
    WellFormedBefore 14 aLineWEP5 ∧ decimalInt (fieldText aLineWEP5 14) = some 5 ∧
    ∃ l e, ParseHorstFields aLineWEP5 = .returned (strippedRecord aLineWEP5) l (some e) ∧
      e.named = "WEP" :=
  ⟨by decide, by decide,
    C4_wep_integer_error aLineWEP5 (by decide) 5 (by decide) (by decide) (by decide)⟩

set_option maxRecDepth 100000 in
/-- C5, as stated, fails: in the failure scenario (WEP field ` 5`) the call returns an
error together with a `Packet` that is not the zero `Packet`: its Signal is -49. -/
theorem C5_error_with_filled_packet :
    ∃ r l e, ParseHorstFields aLineWEP5 = .returned r l (some e) ∧
      l ≠ {} ∧ l.Signal = -49 :=
  ⟨_, _, _, decode_aLineWEP5, by decide, rfl⟩

/-- C5, amended: whenever the call returns an error, the `Packet` returned with it is
the record as filled in so far: for some position `k` of the 19, its attributes of the
positions before `k` are the values the fields encode and its attributes from position
`k` on (IPDst among them) have their zero values. When the error is that of the Time
step, `k` is 0 and the `Packet` is the zero `Packet`. -/
theorem C5_error_returns_partial_packet (record r : List GoString) (l : Packet)
    (e : WrapError) (h : ParseHorstFields record = .returned r l (some e)) :
    (∃ k, k ≤ 18 ∧ l = (encoded record).upTo k) ∧ l.IPDst = {} ∧
      (e.named = "time" → l = {}) := by
  obtain ⟨k, hk, hl, ht⟩ := error_packet record r l e h
  refine ⟨⟨k, hk, hl⟩, ?_, ?_⟩
  · rw [hl]
    have : ¬ 18 < k := by omega
    simp only [Packet.upTo, this, if_false]
  · intro hn
    rw [hl, ht hn]
    simp [Packet.upTo]

/-- C5 applies to the failure scenario of the spec. -/
theorem C5_witness :
    ∃ r l e, ParseHorstFields aLineWEP5 = .returned r l (some e) ∧
      ((∃ k, k ≤ 18 ∧ l = (encoded aLineWEP5).upTo k) ∧ l.IPDst = {} ∧
        (e.named = "time" → l = {})) :=
  ⟨_, _, _, decode_aLineWEP5, C5_error_returns_partial_packet _ _ _ _ decode_aLineWEP5⟩

set_option maxRecDepth 100000 in
/-- C6: the code at the failing input. With the MACSRC field ` zz` the call returns the
error made from the format `parsing WLANType: %v %w` and the text of field 1: the
message names WLANType and reports `BEACON`, not MACSRC and `zz`. -/
theorem C6_macsrc_error_names_wlantype :
    ParseHorstFields aLineBadMACSRC = .returned (strippedRecord aLineBadMACSRC)
      { Time := { year := 2025, month := 2, day := 11, hour := 8, min := 10, sec := 39,
                  nsec := 505813000, zoneOffset := 0 }
        WLANType := str "BEACON" }
      (some (Errorf "parsing WLANType: %v %w" (.text (str "BEACON"))
        (.addrError "invalid MAC address" (str "zz")))) ∧
    (Errorf "parsing WLANType: %v %w" (.text (str "BEACON"))
        (.addrError "invalid MAC address" (str "zz"))).named = "WLANType" := by
  decide

/-- C7, as stated, fails: after the decode of the test line, element 1 of the caller's
slice is `BEACON`; before the call it was ` BEACON`. -/
theorem C7_test_line_is_overwritten :
    ∃ r l, ParseHorstFields aLine = .returned r l none ∧
      r.getD 1 [] = str "BEACON" ∧ aLine.getD 1 [] = str " BEACON" ∧ r ≠ aLine :=
  ⟨_, _, decode_aLine, by decide, by decide, by decide⟩

/-- C7, amended: the call overwrites the caller's slice in place. After a call that
returns (with or without error) the slice has its length, element 0 is what it was,
and every other element, which was not empty, is what it was without its first byte. -/
theorem C7_input_is_stripped_in_place (record r : List GoString) (l : Packet)
    (e : Option WrapError) (h : ParseHorstFields record = .returned r l e) :
    r.length = record.length ∧ r.getD 0 [] = record.getD 0 [] ∧
      ∀ i, 1 ≤ i → i < record.length →
        record.getD i [] ≠ [] ∧ r.getD i [] = (record.getD i []).drop 1 := by
  obtain ⟨h1, h2, _⟩ := returned_record record r l e h
  subst h2
  refine ⟨strippedRecord_length record, strippedRecord_getD_zero record, ?_⟩
  intro i hi hlt
  obtain ⟨j, rfl⟩ : ∃ j, i = j + 1 := ⟨i - 1, by omega⟩
  exact ⟨(noEmptyField_iff record).mp h1 _ hi hlt, strippedRecord_getD_succ record j⟩

/-- C7 applies to the decode of the test line. -/
theorem C7_witness :
    ParseHorstFields aLine = .returned (strippedRecord aLine) (encoded aLine) none ∧
    ((strippedRecord aLine).length = aLine.length ∧
      (strippedRecord aLine).getD 0 [] = aLine.getD 0 [] ∧
      ∀ i, 1 ≤ i → i < aLine.length →
        aLine.getD i [] ≠ [] ∧ (strippedRecord aLine).getD i [] = (aLine.getD i []).drop 1) :=
  ⟨decode_of_WellFormed aLine wellFormed_aLine,
    C7_input_is_stripped_in_place aLine _ _ _ (decode_of_WellFormed aLine wellFormed_aLine)⟩

set_option maxRecDepth 100000 in
/-- C8, as stated, fails: the first decode of the test's 19 fields succeeds; the second
call, made in succession on the same slice, does not. -/
theorem C8_second_decode_of_test_line_fails :
    (ParseHorstFields aLine).succeeded = true ∧ (secondCall aLine).succeeded = false ∧
      ∃ l e, secondCall aLine = .returned (strippedRecord (strippedRecord aLine)) l (some e) ∧
        e.named = "WLANType" := by
  refine ⟨by decide, by decide, { WLANType := str "EACON", Time := (encoded aLine).Time },
    Errorf "parsing WLANType: %v %w" (.text (str "EACON"))
      (.addrError "invalid MAC address" (str "c:3b:ad:f0:94:6e")), by decide, by decide⟩

/-- C8, amended: two calls in succession on the same caller-owned slice do not decode
the same text, because the first call strips the slice in place: whenever the first
call succeeds, the second call does not succeed (every field after the first has lost
one more byte; the TSF text, a hex string of even length for the first call, is
empty or of odd length for the second). -/
theorem C8_second_call_never_succeeds (record : List GoString)
    (h : (ParseHorstFields record).succeeded = true) :
    (secondCall record).succeeded = false := by
  obtain ⟨r, l, h1⟩ := (succeeded_iff _).mp h
  by_contra hc
  obtain ⟨r2, l2, h2⟩ := (succeeded_iff _).mp (by simpa using hc)
  simp only [secondCall, h1, Outcome.record] at h2
  obtain ⟨_, hr, hp⟩ := (ParseHorstFields_ok_iff _ _ _).mp h1
  obtain ⟨hne2, _, hp2⟩ := (ParseHorstFields_ok_iff _ _ _).mp h2
  subst hr
  have t1 := (isHexString_of_DecodeString _ _ hp.tsf).1
  have t2 := (isHexString_of_DecodeString _ _ hp2.tsf).1
  have e : (strippedRecord (strippedRecord record)).getD 10 [] =
      ((strippedRecord record).getD 10 []).drop 1 := strippedRecord_getD_succ _ 9
  rw [e] at t2
  simp only [isHexString, Bool.and_eq_true, decide_eq_true_eq, List.length_drop] at t1 t2
  have hlen := hp.len
  have hne := (noEmptyField_iff _).mp hne2 10 (by norm_num) (by omega)
  have hpos : 0 < ((strippedRecord record).getD 10 []).length := List.length_pos.mpr hne
  omega

set_option maxRecDepth 100000 in
/-- C8 applies to the test's 19 fields decoded twice. -/
theorem C8_witness :
    (ParseHorstFields aLine).succeeded = true ∧ (secondCall aLine).succeeded = false :=
  ⟨by decide, C8_second_call_never_succeeds aLine (by decide)⟩

set_option maxRecDepth 100000 in
/-- C9, as stated, fails: the test line with the ESSID field `éX` is decoded without
error; the first character of the field, `é`, is the two bytes `c3 a9`, so the field
without its first character is `X`, but the ESSID decoded is the field without its
first byte, the two bytes `a9 58`. -/
theorem C9_first_character_of_two_bytes :
    aLineAccentESSID.getD 11 [] = 0xc3 :: 0xa9 :: str "X" ∧
    firstCharWidth (aLineAccentESSID.getD 11 []) = 2 ∧
    dropFirstChar (aLineAccentESSID.getD 11 []) = str "X" ∧
    ∃ l, ParseHorstFields aLineAccentESSID = .returned (strippedRecord aLineAccentESSID) l none ∧
      l.ESSID = 0xa9 :: str "X" ∧ l.ESSID ≠ dropFirstChar (aLineAccentESSID.getD 11 []) := by
  refine ⟨by decide, by decide, by decide, denoted aLineAccentESSID, by decide, by decide,
    by decide⟩

/-- C9, amended: for every input that decodes without error, field 0 is read verbatim
by the timestamp parser; WLANType, PacketTypes and ESSID are fields 1, 5 and 11 without
their first byte, whatever that byte is (the whole first character only when it is
encoded in one byte); a one-byte ESSID field gives the empty ESSID; and the three texts
are not validated: with any other non-empty texts at positions 1, 5 and 11 the input
still decodes, to the same record but for these three attributes. -/
theorem C9_strip_and_opaque_text (record r : List GoString) (l : Packet)
    (h : ParseHorstFields record = .returned r l none) :
    time.Parse (record.getD 0 []) = (l.Time, none) ∧
    l.WLANType = (record.getD 1 []).drop 1 ∧
    l.PacketTypes = (record.getD 5 []).drop 1 ∧
    l.ESSID = (record.getD 11 []).drop 1 ∧
    ((record.getD 11 []).length = 1 → l.ESSID = []) ∧
    ∀ (c1 c5 c11 : Nat) (s1 s5 s11 : GoString),
      ParseHorstFields (((record.set 1 (c1 :: s1)).set 5 (c5 :: s5)).set 11 (c11 :: s11)) =
        .returned (((r.set 1 s1).set 5 s5).set 11 s11)
          { l with WLANType := s1, PacketTypes := s5, ESSID := s11 } none := by
  obtain ⟨hne, hr, hp⟩ := (ParseHorstFields_ok_iff _ _ _).mp h
  subst hr
  have e0 := hp.time
  have e1 := hp.wlanType
  have e5 := hp.packetTypes
  have e11 := hp.essid
  rw [strippedRecord_getD_zero] at e0
  rw [strippedRecord_getD_succ record 0] at e1
  rw [strippedRecord_getD_succ record 4] at e5
  rw [strippedRecord_getD_succ record 10] at e11
  refine ⟨e0, e1, e5, e11, ?_, ?_⟩
  · intro h1
    rw [e11]
    apply List.eq_nil_of_length_eq_zero
    rw [List.length_drop, h1]
  · intro c1 c5 c11 s1 s5 s11
    rw [ParseHorstFields_ok_iff]
    have q : strippedRecord (((record.set 1 (c1 :: s1)).set 5 (c5 :: s5)).set 11 (c11 :: s11)) =
        (((strippedRecord record).set 1 s1).set 5 s5).set 11 s11 := by
      rw [strippedRecord_set _ 10, strippedRecord_set _ 4, strippedRecord_set _ 0]
      rfl
    refine ⟨?_, q.symm, ?_⟩
    · exact noEmptyField_set _ 10 _ _ (noEmptyField_set _ 4 _ _ (noEmptyField_set _ 0 _ _ hne))
    · rw [q]
      exact Parsed_set_opaque _ _ hp s1 s5 s11

/-- C9 applies to the decode of the test line. -/
theorem C9_witness :
    ParseHorstFields aLine = .returned (strippedRecord aLine) (encoded aLine) none ∧
    (time.Parse (aLine.getD 0 []) = ((encoded aLine).Time, none) ∧
    (encoded aLine).WLANType = (aLine.getD 1 []).drop 1 ∧
    (encoded aLine).PacketTypes = (aLine.getD 5 []).drop 1 ∧
    (encoded aLine).ESSID = (aLine.getD 11 []).drop 1 ∧
    ((aLine.getD 11 []).length = 1 → (encoded aLine).ESSID = []) ∧
    ∀ (c1 c5 c11 : Nat) (s1 s5 s11 : GoString),
      ParseHorstFields (((aLine.set 1 (c1 :: s1)).set 5 (c5 :: s5)).set 11 (c11 :: s11)) =
        .returned ((((strippedRecord aLine).set 1 s1).set 5 s5).set 11 s11)
          { encoded aLine with WLANType := s1, PacketTypes := s5, ESSID := s11 } none) :=
  ⟨decode_of_WellFormed aLine wellFormed_aLine,
    C9_strip_and_opaque_text aLine _ _ (decode_of_WellFormed aLine wellFormed_aLine)⟩

/-- C10. In a 19-field record whose fields other than the TSF field are non-empty and
well-formed, let `s` be the TSF field (field 10) without its first byte. If `s` is a
string of `2n` hexadecimal digits, the decode succeeds and TSF is the sequence of `n`
bytes whose `k`-th byte is the value of the `k`-th pair of digits. If `s` has odd
length or holds a byte that is no hexadecimal digit, the call returns an error that
names TSF and reports the text `s`. -/
theorem C10_tsf_decoding (record : List GoString) (h : WellFormedExcept 10 record)
    (c : Nat) (s : GoString) (h10 : record.getD 10 [] = c :: s) :
    (∀ n, s.all isHexDigit = true → s.length = 2 * n →
      ∃ l, ParseHorstFields record = .returned (strippedRecord record) l none ∧
        l.TSF.length = n ∧
        ∀ k, k < n →
          l.TSF.getD k 0 = 16 * hexVal (s.getD (2 * k) 0) + hexVal (s.getD (2 * k + 1) 0)) ∧
    ((s.length % 2 = 1 ∨ ∃ b ∈ s, isHexDigit b = false) →
      ∃ l e, ParseHorstFields record = .returned (strippedRecord record) l (some e) ∧
        e.named = "TSF" ∧ e.arg = .text s) := by
  have ht : fieldText record 10 = s := fieldText_of_cons record 9 c s h10
  have hne10 : record.getD 10 [] ≠ [] := by rw [h10]; exact List.cons_ne_nil _ _
  constructor
  · intro n hd hl
    have hx : isHexString s = true := by
      simp only [isHexString, hd, Bool.true_and, decide_eq_true_eq]
      omega
    have hwf := WellFormed_of_except 10 record (by norm_num) h hne10 (by
      rw [ht]; simpa [WellFormedAt] using hx)
    refine ⟨encoded record, decode_of_WellFormed record hwf, ?_, ?_⟩
    · show (hexPairs (fieldText record 10)).length = n
      rw [ht, hex.hexPairs_length]
      omega
    · intro k hk
      show (hexPairs (fieldText record 10)).getD k 0 = _
      rw [ht]
      exact hex.hexPairs_getD s k (by omega)
  · intro hbad
    have hx : isHexString s = false := (isHexString_false_iff s).mpr hbad
    obtain ⟨hlen, h1, hw⟩ := h
    have hne : NoEmptyField record := by
      rw [noEmptyField_iff]
      intro i hi hlt
      by_cases e : i = 10
      · subst e; exact hne10
      · exact h1 i (by omega) e hi
    have ix := index_stripped record 19 hlen
    have f0 := wf_time _ (hw 0 (by norm_num) (by norm_num))
    have f2 := wf_mac 2 _ (by norm_num) (hw 2 (by norm_num) (by norm_num))
    have f3 := wf_mac 3 _ (by norm_num) (hw 3 (by norm_num) (by norm_num))
    have f4 := wf_mac 4 _ (by norm_num) (hw 4 (by norm_num) (by norm_num))
    have f6 := wf_int 6 _ (by norm_num) (hw 6 (by norm_num) (by norm_num))
    have f7 := wf_int 7 _ (by norm_num) (hw 7 (by norm_num) (by norm_num))
    have f8 := wf_int 8 _ (by norm_num) (hw 8 (by norm_num) (by norm_num))
    have f9 := wf_int 9 _ (by norm_num) (hw 9 (by norm_num) (by norm_num))
    obtain ⟨e, he⟩ := hex.Decode_other s hx
    have f10 : hex.DecodeString (fieldText record 10) = ((hex.Decode s).1, some e) := by
      rw [ht]
      exact Prod.ext rfl he
    simp only [ParseHorstFields, stripLoop_ok record hne, decode,
      ix 0 (by norm_num), ix 1 (by norm_num), ix 2 (by norm_num), ix 3 (by norm_num),
      ix 4 (by norm_num), ix 5 (by norm_num), ix 6 (by norm_num), ix 7 (by norm_num),
      ix 8 (by norm_num), ix 9 (by norm_num), ix 10 (by norm_num)]
    rw [f0]
    simp only []
    rw [f2]
    simp only []
    rw [f3]
    simp only []
    rw [f4]
    simp only []
    rw [f6]
    simp only []
    rw [f7]
    simp only []
    rw [f8]
    simp only []
    rw [f9]
    simp only []
    rw [f10]
    simp only []
    exact ⟨_, _, rfl, rfl, by rw [ht]; rfl⟩

set_option maxRecDepth 100000 in
/-- C10 applies to the test line, whose TSF field is ` 000002ad9e7e6061`. -/
theorem C10_witness :
    WellFormedExcept 10 aLine ∧ aLine.getD 10 [] = 32 :: str "000002ad9e7e6061" ∧
    ((∀ n, (str "000002ad9e7e6061").all isHexDigit = true →
        (str "000002ad9e7e6061").length = 2 * n →
      ∃ l, ParseHorstFields aLine = .returned (strippedRecord aLine) l none ∧
        l.TSF.length = n ∧
        ∀ k, k < n →
          l.TSF.getD k 0 = 16 * hexVal ((str "000002ad9e7e6061").getD (2 * k) 0) +
            hexVal ((str "000002ad9e7e6061").getD (2 * k + 1) 0)) ∧
    (((str "000002ad9e7e6061").length % 2 = 1 ∨
        ∃ b ∈ str "000002ad9e7e6061", isHexDigit b = false) →
      ∃ l e, ParseHorstFields aLine = .returned (strippedRecord aLine) l (some e) ∧
        e.named = "TSF" ∧ e.arg = .text (str "000002ad9e7e6061"))) :=
  ⟨by decide, by decide,
    C10_tsf_decoding aLine (by decide) 32 (str "000002ad9e7e6061") (by decide)⟩


/-! ## The claims on invariants and on failures -/

set_option maxRecDepth 100000 in
/-- C11, as stated, fails: the test line with its Length field set to ` -5` is decoded
without error, and the Length of the record returned is -5. -/
theorem C11_negative_length_is_accepted :
    aLineNegLength.getD 7 [] = str " -5" ∧
      ParseHorstFields aLineNegLength =
        .returned (strippedRecord aLineNegLength) (encoded aLineNegLength) none ∧
      (encoded aLineNegLength).Length = -5 := by
  decide

/-- C11, amended: in every record that the call returns without error, Length, PhyRate
and Frequency are the integers that the fields 7, 8 and 9 denote in base 10 after the
strip (an optional sign, then decimal digits), each within the signed 64-bit range;
the sign is honoured, so negative values are accepted. -/
theorem C11_signed_integers (record r : List GoString) (l : Packet)
    (h : ParseHorstFields record = .returned r l none) :
    decimalInt (fieldText record 7) = some l.Length ∧
      -(2 : Int) ^ 63 ≤ l.Length ∧ l.Length < 2 ^ 63 ∧
    decimalInt (fieldText record 8) = some l.PhyRate ∧
      -(2 : Int) ^ 63 ≤ l.PhyRate ∧ l.PhyRate < 2 ^ 63 ∧
    decimalInt (fieldText record 9) = some l.Frequency ∧
      -(2 : Int) ^ 63 ≤ l.Frequency ∧ l.Frequency < 2 ^ 63 := by
  obtain ⟨_, _, hp⟩ := (ParseHorstFields_ok_iff _ _ _).mp h
  obtain ⟨a7, b7⟩ := Atoi_ok_inv _ _ hp.length
  obtain ⟨a8, b8⟩ := Atoi_ok_inv _ _ hp.phyRate
  obtain ⟨a9, b9⟩ := Atoi_ok_inv _ _ hp.frequency
  simp only [fitsInt, decide_eq_true_eq] at b7 b8 b9
  exact ⟨a7, b7.1, b7.2, a8, b8.1, b8.2, a9, b9.1, b9.2⟩

set_option maxRecDepth 100000 in
/-- C11 applies to the test line with the Length field ` -5`: its Length is the
negative integer the field denotes. -/
theorem C11_witness :
    ParseHorstFields aLineNegLength =
        .returned (strippedRecord aLineNegLength) (encoded aLineNegLength) none ∧
    (decimalInt (fieldText aLineNegLength 7) = some (encoded aLineNegLength).Length ∧
      -(2 : Int) ^ 63 ≤ (encoded aLineNegLength).Length ∧
      (encoded aLineNegLength).Length < 2 ^ 63 ∧
    decimalInt (fieldText aLineNegLength 8) = some (encoded aLineNegLength).PhyRate ∧
      -(2 : Int) ^ 63 ≤ (encoded aLineNegLength).PhyRate ∧
      (encoded aLineNegLength).PhyRate < 2 ^ 63 ∧
    decimalInt (fieldText aLineNegLength 9) = some (encoded aLineNegLength).Frequency ∧
      -(2 : Int) ^ 63 ≤ (encoded aLineNegLength).Frequency ∧
      (encoded aLineNegLength).Frequency < 2 ^ 63) :=
  ⟨by decide,
    C11_signed_integers aLineNegLength (strippedRecord aLineNegLength) (encoded aLineNegLength)
      (by decide)⟩

set_option maxRecDepth 100000 in
/-- C12, as stated, fails: the test line with the 8-octet MACSRC
`8c:3b:ad:f0:94:6e:00:01` is decoded without error, with a MACSRC of 8 bytes; the test
line with its BSSID in the dotted form `8c3b.adf0.946e`, which is not six
colon-separated octets, is decoded without error too; and so is the test line with its
MACDST written as the twelve hexadecimal digits `ffffffffffff` without separator. -/
theorem C12_other_addresses_are_accepted :
    fieldText aLineMAC8 2 = str "8c:3b:ad:f0:94:6e:00:01" ∧
      ParseHorstFields aLineMAC8 =
        .returned (strippedRecord aLineMAC8) (encoded aLineMAC8) none ∧
      (encoded aLineMAC8).MACSRC = [0x8c, 0x3b, 0xad, 0xf0, 0x94, 0x6e, 0x00, 0x01] ∧
      fieldText aLineDottedBSSID 4 = str "8c3b.adf0.946e" ∧
      ParseHorstFields aLineDottedBSSID =
        .returned (strippedRecord aLineDottedBSSID) (encoded aLineDottedBSSID) none ∧
      (encoded aLineDottedBSSID).BSSID = [0x8c, 0x3b, 0xad, 0xf0, 0x94, 0x6e] ∧
      fieldText aLinePlainMACDST 3 = str "ffffffffffff" ∧
      ParseHorstFields aLinePlainMACDST =
        .returned (strippedRecord aLinePlainMACDST) (encoded aLinePlainMACDST) none ∧
      (encoded aLinePlainMACDST).MACDST = [0xff, 0xff, 0xff, 0xff, 0xff, 0xff] := by
  decide

/-- C12, amended: in every record that the call returns without error, MACSRC, MACDST
and BSSID are each 6, 8 or 20 bytes long, the bytes written by the text of the fields
2, 3 and 4 after the strip, which is 6, 8 or 20 two-digit hexadecimal octets separated
by colons, or separated by dashes, or written without separator, or 3, 4 or 10 groups
of four hexadecimal digits separated by dots; any other text at field 2, 3 or 4 makes
the call fail. -/
theorem C12_hardware_addresses (record : List GoString) :
    (∀ r l, ParseHorstFields record = .returned r l none →
      (isMACText (fieldText record 2) = true ∧ l.MACSRC = macBytes (fieldText record 2) ∧
        (l.MACSRC.length = 6 ∨ l.MACSRC.length = 8 ∨ l.MACSRC.length = 20)) ∧
      (isMACText (fieldText record 3) = true ∧ l.MACDST = macBytes (fieldText record 3) ∧
        (l.MACDST.length = 6 ∨ l.MACDST.length = 8 ∨ l.MACDST.length = 20)) ∧
      (isMACText (fieldText record 4) = true ∧ l.BSSID = macBytes (fieldText record 4) ∧
        (l.BSSID.length = 6 ∨ l.BSSID.length = 8 ∨ l.BSSID.length = 20))) ∧
    (∀ k, k = 2 ∨ k = 3 ∨ k = 4 → isMACText (fieldText record k) = false →
      (ParseHorstFields record).succeeded = false) := by
  have ok : ∀ r l, ParseHorstFields record = .returned r l none →
      (isMACText (fieldText record 2) = true ∧ l.MACSRC = macBytes (fieldText record 2)) ∧
      (isMACText (fieldText record 3) = true ∧ l.MACDST = macBytes (fieldText record 3)) ∧
      (isMACText (fieldText record 4) = true ∧ l.BSSID = macBytes (fieldText record 4)) := by
    intro r l h
    obtain ⟨_, _, hp⟩ := (ParseHorstFields_ok_iff _ _ _).mp h
    exact ⟨(net.ParseMAC_ok_iff _ _).mp hp.macsrc, (net.ParseMAC_ok_iff _ _).mp hp.macdst,
      (net.ParseMAC_ok_iff _ _).mp hp.bssid⟩
  constructor
  · intro r l h
    obtain ⟨⟨a2, b2⟩, ⟨a3, b3⟩, ⟨a4, b4⟩⟩ := ok r l h
    refine ⟨⟨a2, b2, ?_⟩, ⟨a3, b3, ?_⟩, ⟨a4, b4, ?_⟩⟩
    · rw [b2]; exact net.macBytes_length _ a2
    · rw [b3]; exact net.macBytes_length _ a3
    · rw [b4]; exact net.macBytes_length _ a4
  · intro k hk hbad
    cases hs : (ParseHorstFields record).succeeded with
    | false => rfl
    | true =>
      obtain ⟨r, l, hr⟩ := (succeeded_iff _).mp hs
      obtain ⟨⟨a2, _⟩, ⟨a3, _⟩, ⟨a4, _⟩⟩ := ok r l hr
      rcases hk with rfl | rfl | rfl
      · rw [a2] at hbad; cases hbad
      · rw [a3] at hbad; cases hbad
      · rw [a4] at hbad; cases hbad

set_option maxRecDepth 100000 in
/-- C12 applies to the test line, decoded without error, and to the test line with the
MACSRC field ` zz`, which fails. -/
theorem C12_witness :
    (ParseHorstFields aLine = .returned (strippedRecord aLine) (encoded aLine) none ∧
      (isMACText (fieldText aLine 2) = true ∧
        (encoded aLine).MACSRC = macBytes (fieldText aLine 2) ∧
        ((encoded aLine).MACSRC.length = 6 ∨ (encoded aLine).MACSRC.length = 8 ∨
          (encoded aLine).MACSRC.length = 20))) ∧
    (isMACText (fieldText aLineBadMACSRC 2) = false ∧
      (ParseHorstFields aLineBadMACSRC).succeeded = false) :=
  ⟨⟨by decide,
      ((C12_hardware_addresses aLine).1 (strippedRecord aLine) (encoded aLine) (by decide)).1⟩,
    ⟨by decide, (C12_hardware_addresses aLineBadMACSRC).2 2 (Or.inl rfl) (by decide)⟩⟩

set_option maxRecDepth 100000 in
/-- C13, as stated, fails: the first five fields of the test line make the call panic
with an index failure at position 5, the empty input makes it panic at position 0, and
the test line followed by a twentieth field is decoded without error. -/
theorem C13_short_panics_long_succeeds :
    aLineShort.length = 5 ∧
      ParseHorstFields aLineShort =
        .panicked (strippedRecord aLineShort) (.indexOutOfRange 5 5) ∧
      ParseHorstFields [] = .panicked [] (.indexOutOfRange 0 0) ∧
      aLineLong.length = 20 ∧
      ParseHorstFields aLineLong =
        .returned (strippedRecord aLineLong) (encoded aLine) none := by
  decide

/-- C13, amended: the call has no field-count check. On an input of fewer than 19
fields it never succeeds, and when no field after the first is empty and every field
present is well-formed it panics with an index failure at the first missing position.
On an input of 19 fields or more of which none after the first is empty and the first
19 are well-formed, it succeeds with the record those 19 fields encode: the fields
after the nineteenth are stripped and not read. -/
theorem C13_no_field_count_check (record : List GoString) :
    (record.length < 19 → (ParseHorstFields record).succeeded = false) ∧
    (record.length < 19 → NoEmptyField record →
      (∀ i, i < record.length → WellFormedAt i (fieldText record i) = true) →
      ParseHorstFields record =
        .panicked (strippedRecord record) (.indexOutOfRange record.length record.length)) ∧
    (19 ≤ record.length → NoEmptyField record →
      (∀ i, i < 19 → WellFormedAt i (fieldText record i) = true) →
      ParseHorstFields record = .returned (strippedRecord record) (encoded record) none) := by
  refine ⟨?_, ?_, ?_⟩
  · intro hlen
    cases hs : (ParseHorstFields record).succeeded with
    | false => rfl
    | true =>
      obtain ⟨r, l, hr⟩ := (succeeded_iff _).mp hs
      obtain ⟨_, _, hp⟩ := (ParseHorstFields_ok_iff _ _ _).mp hr
      have := hp.len
      rw [strippedRecord_length] at this
      omega
  · intro hlen hne hw
    rw [ParseHorstFields_of_noEmpty record hne]
    have := decode_short (strippedRecord record) (by rw [strippedRecord_length]; exact hlen)
      (by rw [strippedRecord_length]; exact hw)
    rw [strippedRecord_length] at this
    exact this
  · intro hlen hne hw
    rw [ParseHorstFields_of_noEmpty record hne]
    exact decode_of_wf (strippedRecord record) (by rw [strippedRecord_length]; exact hlen) hw

set_option maxRecDepth 100000 in
/-- C13 applies to the first five fields of the test line and to the test line
followed by a twentieth field. -/
theorem C13_witness :
    (aLineShort.length < 19 ∧ NoEmptyField aLineShort ∧
      (∀ i, i < aLineShort.length → WellFormedAt i (fieldText aLineShort i) = true) ∧
      ParseHorstFields aLineShort =
        .panicked (strippedRecord aLineShort)
          (.indexOutOfRange aLineShort.length aLineShort.length)) ∧
    (19 ≤ aLineLong.length ∧ NoEmptyField aLineLong ∧
      (∀ i, i < 19 → WellFormedAt i (fieldText aLineLong i) = true) ∧
      ParseHorstFields aLineLong =
        .returned (strippedRecord aLineLong) (encoded aLineLong) none) :=
  ⟨⟨by decide, by decide, by decide,
      (C13_no_field_count_check aLineShort).2.1 (by decide) (by decide) (by decide)⟩,
    ⟨by decide, by decide, by decide,
      (C13_no_field_count_check aLineLong).2.2 (by decide) (by decide) (by decide)⟩⟩

set_option maxRecDepth 100000 in
/-- C14, as stated, fails: the test line with an empty ESSID field makes the call
panic while stripping, with a slice-bounds failure; no error is returned. -/
theorem C14_empty_essid_panics :
    aLineEmptyESSID.length = 19 ∧ aLineEmptyESSID.getD 11 [] = [] ∧
      ParseHorstFields aLineEmptyESSID =
        .panicked (partlyStripped aLineEmptyESSID) (.sliceBounds 1 0) ∧
      ¬ ∃ r l e, ParseHorstFields aLineEmptyESSID = .returned r l e := by
  have h : ParseHorstFields aLineEmptyESSID =
      .panicked (partlyStripped aLineEmptyESSID) (.sliceBounds 1 0) := by decide
  refine ⟨by decide, by decide, h, ?_⟩
  rintro ⟨r, l, e, h2⟩
  rw [h] at h2
  cases h2

/-- C14, amended: for every input in which some field other than the first is the empty
string, the call does not return: the strip loop panics with a slice-bounds failure
(`r[1:]` on an empty `r`) at the first such field, before any field is decoded, and
leaves the fields before it stripped in the caller's slice. -/
theorem C14_empty_field_panics (record : List GoString) (h : ∃ r ∈ record.tail, r = []) :
    ParseHorstFields record = .panicked (partlyStripped record) (.sliceBounds 1 0) := by
  simp only [ParseHorstFields, stripLoop_empty record h]

set_option maxRecDepth 100000 in
/-- C14 applies to the test line with an empty last field and the WEP field ` 5`. -/
theorem C14_witness :
    (∃ r ∈ aLineWEP5EmptyLast.tail, r = []) ∧
    ParseHorstFields aLineWEP5EmptyLast =
      .panicked (partlyStripped aLineWEP5EmptyLast) (.sliceBounds 1 0) :=
  ⟨by decide, C14_empty_field_panics aLineWEP5EmptyLast (by decide)⟩

/-- C15: for every 19-field input, none of whose fields after the first is empty, with
at least one malformed field, the call fails with the error of the malformed field of
the smallest position `k`: the error wraps what the parser of position `k` reports on
the text of field `k`; when that field is one of the integer fields, the message names
it (Signal, Length, PhyRate, Frequency, Mode, Channel); and every such input with the
same fields up to position `k` gives the same record and the same error, so the fields
after `k` do not influence the result. -/
theorem C15_fail_fast (record : List GoString) (hlen : record.length = 19)
    (hne : NoEmptyField record)
    (hbad : ∃ i, i < 19 ∧ WellFormedAt i (fieldText record i) = false) :
    ∃ k l e, k < 19 ∧ (∀ i, i < k → WellFormedAt i (fieldText record i) = true) ∧
      WellFormedAt k (fieldText record k) = false ∧
      ParseHorstFields record = .returned (strippedRecord record) l (some e) ∧
      causeAt k (fieldText record k) = some e.err ∧
      (k = 6 → e.named = "Signal") ∧ (k = 7 → e.named = "Length") ∧
      (k = 8 → e.named = "PhyRate") ∧ (k = 9 → e.named = "Frequency") ∧
      (k = 12 → e.named = "Mode") ∧ (k = 13 → e.named = "Channel") ∧
      ∀ record' : List GoString, record'.length = 19 → NoEmptyField record' →
        (∀ i, i ≤ k → record'.getD i [] = record.getD i []) →
        ParseHorstFields record' = .returned (strippedRecord record') l (some e) := by
  classical
  have hk := Nat.find_spec hbad
  have hmin := fun i (hi : i < Nat.find hbad) => Nat.find_min hbad hi
  generalize Nat.find hbad = k at hk hmin
  obtain ⟨hk19, hkbad⟩ := hk
  have hb : ∀ i, i < k → WellFormedAt i (fieldText record i) = true := by
    intro i hi
    have := hmin i hi
    simp only [not_and, Bool.not_eq_false] at this
    exact this (by omega)
  obtain ⟨e, he, hd⟩ := ParseHorstFields_stops_at record k hne hk19 (by omega) hb hkbad
  have named : ∀ j, isNumberPosition j = true → k = j → e.named = fieldLabel j := by
    intro j hj hkj
    subst hkj
    exact errorAt_named _ _ _ he hj
  refine ⟨k, _, e, hk19, hb, hkbad, hd, errorAt_cause _ _ _ he,
    named 6 (by decide), named 7 (by decide), named 8 (by decide), named 9 (by decide),
    named 12 (by decide), named 13 (by decide), ?_⟩
  intro record' hlen' hne' hag
  have hft : ∀ i, i ≤ k → fieldText record' i = fieldText record i :=
    fun i hi => fieldText_congr record record' i (hag i hi)
  obtain ⟨e', he', hd'⟩ := ParseHorstFields_stops_at record' k hne' hk19 (by omega)
    (fun i hi => by rw [hft i (by omega)]; exact hb i hi) (by rw [hft k (le_refl k)]; exact hkbad)
  have e1 : errorAt (strippedRecord record') k = errorAt (strippedRecord record) k :=
    errorAt_congr _ _ k hft
  have e2 : (encoded record').upTo k = (encoded record).upTo k :=
    upTo_congr _ _ k (fun i hi => hft i (by omega))
  rw [e1, he] at he'
  cases he'
  rw [hd', e2]

set_option maxRecDepth 100000 in
/-- C15 applies to the test line with a malformed Signal field and a malformed Channel
field: the error is that of Signal. -/
theorem C15_witness :
    aLineTwoBad.length = 19 ∧ NoEmptyField aLineTwoBad ∧
    (∃ i, i < 19 ∧ WellFormedAt i (fieldText aLineTwoBad i) = false) ∧
    ∃ k l e, k < 19 ∧ (∀ i, i < k → WellFormedAt i (fieldText aLineTwoBad i) = true) ∧
      WellFormedAt k (fieldText aLineTwoBad k) = false ∧
      ParseHorstFields aLineTwoBad = .returned (strippedRecord aLineTwoBad) l (some e) ∧
      causeAt k (fieldText aLineTwoBad k) = some e.err ∧
      (k = 6 → e.named = "Signal") ∧ (k = 7 → e.named = "Length") ∧
      (k = 8 → e.named = "PhyRate") ∧ (k = 9 → e.named = "Frequency") ∧
      (k = 12 → e.named = "Mode") ∧ (k = 13 → e.named = "Channel") ∧
      ∀ record' : List GoString, record'.length = 19 → NoEmptyField record' →
        (∀ i, i ≤ k → record'.getD i [] = aLineTwoBad.getD i []) →
        ParseHorstFields record' = .returned (strippedRecord record') l (some e) :=
  ⟨by decide, by decide, ⟨6, by decide, by decide⟩,
    C15_fail_fast aLineTwoBad (by decide) (by decide) ⟨6, by decide, by decide⟩⟩

set_option maxRecDepth 100000 in
/-- C16, as stated, fails: in the test line with the WPA1 field ` 5` the fields 0 to 14
are well-formed and the WPA1 field reads the integer 5 after the strip; the error
returned has the format `toBool WPA: %v %w`, which names the field WPA, not WPA1. -/
theorem C16_wpa1_error_is_named_wpa :
    WellFormedBefore 15 aLineWPA5 ∧ decimalInt (fieldText aLineWPA5 15) = some 5 ∧
      ∃ l e, ParseHorstFields aLineWPA5 = .returned (strippedRecord aLineWPA5) l (some e) ∧
        e.format = "toBool WPA: %v %w" ∧ e.named = "WPA" ∧ e.named ≠ "WPA1" := by
  refine ⟨by decide, by decide, (encoded aLineWPA5).upTo 15,
    Errorf "toBool WPA: %v %w" (.int 5)
      (.errorString "toBool can only convert \"0\" or \"1\""), by decide, rfl, by decide,
    by decide⟩

/-- C16, amended: for every 19-field input none of whose fields after the first is
empty, whose fields before position `k` are well-formed and whose field `k`, after the
strip, is not a base-10 integer or is an integer other than 0 or 1, the call fails
with an error whose message names the field: WPA when `k` is 15 (the WPA1 field), WPA2
when `k` is 16. -/
theorem C16_flag_error_labels (record : List GoString) (k : Nat) (hk : k = 15 ∨ k = 16)
    (h : WellFormedBefore k record)
    (h0 : decimalInt (fieldText record k) ≠ some 0)
    (h1 : decimalInt (fieldText record k) ≠ some 1) :
    ∃ l e, ParseHorstFields record = .returned (strippedRecord record) l (some e) ∧
      (k = 15 → e.named = "WPA") ∧ (k = 16 → e.named = "WPA2") := by
  obtain ⟨hlen, hne, hb⟩ := h
  have hbad : WellFormedAt k (fieldText record k) = false := by
    rw [wf_flag k _ (by omega)]
    simp [isFlagText, h0, h1]
  obtain ⟨e, he, hd⟩ := ParseHorstFields_stops_at record k hne (by omega) (by omega) hb hbad
  refine ⟨_, e, hd, ?_, ?_⟩
  · intro hk15
    subst hk15
    exact errorAt_named _ _ _ he (by decide)
  · intro hk16
    subst hk16
    exact errorAt_named _ _ _ he (by decide)

set_option maxRecDepth 100000 in
/-- C16 applies to the test line with the WPA2 field ` 2`. -/
theorem C16_witness :
    WellFormedBefore 16 aLineRSN2 ∧ decimalInt (fieldText aLineRSN2 16) ≠ some 0 ∧
    decimalInt (fieldText aLineRSN2 16) ≠ some 1 ∧
    ∃ l e, ParseHorstFields aLineRSN2 = .returned (strippedRecord aLineRSN2) l (some e) ∧
      ((16 : Nat) = 15 → e.named = "WPA") ∧ ((16 : Nat) = 16 → e.named = "WPA2") :=
  ⟨by decide, by decide, by decide,
    C16_flag_error_labels aLineRSN2 16 (Or.inr rfl) (by decide) (by decide) (by decide)⟩

set_option maxRecDepth 100000 in
/-- C17, as stated, fails: in the test line with both the Signal field and the Length
field set to 2^63, the text of the Length field is a base-10 integer outside the signed
64-bit range, and the error returned is the one for Signal, not one for Length. -/
theorem C17_error_is_for_the_first_field :
    decimalInt (fieldText aLineTwoBig 7) = some (2 ^ 63) ∧ fitsInt (2 ^ 63) = false ∧
      ∃ l e, ParseHorstFields aLineTwoBig = .returned (strippedRecord aLineTwoBig) l (some e) ∧
        e.named = "Signal" ∧ e.arg = .text (fieldText aLineTwoBig 6) ∧ e.named ≠ "Length" := by
  refine ⟨by decide, by decide, (encoded aLineTwoBig).upTo 6,
    Errorf "parsing Signal: %v %w" (.text (fieldText aLineTwoBig 6))
      (.numError "Atoi" (fieldText aLineTwoBig 6) .ErrRange), by decide, rfl, rfl, by decide⟩

/-- C17, amended: for each of the integer and flag fields (positions 6, 7, 8, 9, 12,
13, 14, 15, 16) whose text after the strip is a base-10 integer `v`: when `v` lies
outside the signed 64-bit range the call never succeeds, and when moreover no field
after the first is empty and the fields before it are well-formed, the call returns the
`strconv.Atoi` range error on that text, wrapped in an error that names the field by
its label (WPA for WPA1); and whenever the call succeeds, `v` is within the range and
the value stored is exactly `v` (for a flag, true for 1 and false for 0). -/
theorem C17_integer_range (record : List GoString) (k : Nat) (hk : isNumberPosition k = true)
    (v : Int) (hv : decimalInt (fieldText record k) = some v) :
    (fitsInt v = false → (ParseHorstFields record).succeeded = false) ∧
    (fitsInt v = false → WellFormedBefore k record →
      ∃ l e, ParseHorstFields record = .returned (strippedRecord record) l (some e) ∧
        e.named = fieldLabel k ∧ e.arg = .text (fieldText record k) ∧
        e.err = .numError "Atoi" (fieldText record k) .ErrRange) ∧
    (∀ r l, ParseHorstFields record = .returned r l none →
      fitsInt v = true ∧ l.number k = v) := by
  have ok : ∀ r l, ParseHorstFields record = .returned r l none →
      fitsInt v = true ∧ l.number k = v := by
    intro r l hd
    obtain ⟨_, _, hp⟩ := (ParseHorstFields_ok_iff _ _ _).mp hd
    obtain ⟨a, b⟩ := number_of_Parsed _ l hp k hk
    rw [fieldText_eq, hv] at a
    cases a
    exact ⟨b, rfl⟩
  refine ⟨?_, ?_, ok⟩
  · intro hf
    cases hs : (ParseHorstFields record).succeeded with
    | false => rfl
    | true =>
      obtain ⟨r, l, hr⟩ := (succeeded_iff _).mp hs
      rw [(ok r l hr).1] at hf
      cases hf
  · rintro hf ⟨hlen, hne, hb⟩
    have hk19 : k < 19 := by
      simp only [isNumberPosition, decide_eq_true_eq] at hk
      omega
    obtain ⟨e, he, hd⟩ := ParseHorstFields_stops_at record k hne hk19 (by omega) hb
      (not_wf_of_range k hk _ v hv hf)
    have ha : ∃ x, strconv.Atoi (fieldText record k) =
        (x, some (.numError "Atoi" (fieldText record k) .ErrRange)) := by
      rcases strconv.Atoi_spec (fieldText record k) with
        ⟨w, a1, a2, _⟩ | ⟨w, x, _, _, a3⟩ | ⟨x, c, a1, _⟩
      · rw [hv] at a1
        cases a1
        rw [hf] at a2
        cases a2
      · exact ⟨x, a3⟩
      · rw [hv] at a1
        cases a1
    obtain ⟨x, ha⟩ := ha
    obtain ⟨format, hf2⟩ := errorAt_of_Atoi_error (strippedRecord record) k hk x _ ha
    rw [he] at hf2
    cases hf2
    exact ⟨_, _, hd, errorAt_named _ _ _ he hk, rfl, rfl⟩

set_option maxRecDepth 100000 in
/-- C17 applies to the test line with the Length field set to 2^63. -/
theorem C17_witness :
    isNumberPosition 7 = true ∧ decimalInt (fieldText aLineBigLength 7) = some (2 ^ 63) ∧
    ((fitsInt (2 ^ 63) = false → (ParseHorstFields aLineBigLength).succeeded = false) ∧
    (fitsInt (2 ^ 63) = false → WellFormedBefore 7 aLineBigLength →
      ∃ l e, ParseHorstFields aLineBigLength =
          .returned (strippedRecord aLineBigLength) l (some e) ∧
        e.named = fieldLabel 7 ∧ e.arg = .text (fieldText aLineBigLength 7) ∧
        e.err = .numError "Atoi" (fieldText aLineBigLength 7) .ErrRange) ∧
    (∀ r l, ParseHorstFields aLineBigLength = .returned r l none →
      fitsInt (2 ^ 63) = true ∧ l.number 7 = 2 ^ 63)) :=
  ⟨by decide, by decide, C17_integer_range aLineBigLength 7 (by decide) (2 ^ 63) (by decide)⟩

/-- C18: the PacketTypes error branch is unreachable. For every input, an error the
call returns is never the `parsing PacketTypes` error (neither by its format nor by
the field it names); and the PacketTypes text is accepted whatever it is: when a call
succeeds, so does the call on the same input with any other non-empty field 5, with
the same record but for its PacketTypes, which is the new text without its first
byte. -/
theorem C18_packetTypes_branch_is_dead (record : List GoString) :
    (∀ r l e, ParseHorstFields record = .returned r l (some e) →
      e.format ≠ "parsing PacketTypes: %v %w" ∧ e.named ≠ "PacketTypes") ∧
    (∀ r l, ParseHorstFields record = .returned r l none →
      ∀ (c : Nat) (s : GoString),
        ParseHorstFields (record.set 5 (c :: s)) =
          .returned (r.set 5 s) { l with PacketTypes := s } none) := by
  constructor
  · intro r l e h
    obtain ⟨_, _, k, _, _, _, _, he, _⟩ := ParseHorstFields_error_inv record r l e h
    exact errorAt_not_packetTypes _ _ _ he
  · intro r l h c s
    obtain ⟨hne, hr, hp⟩ := (ParseHorstFields_ok_iff _ _ _).mp h
    obtain ⟨hw, hl⟩ := Parsed_inv _ l hp
    have hlen := hp.len
    have hs : strippedRecord (record.set 5 (c :: s)) = (strippedRecord record).set 5 s := by
      rw [strippedRecord_set record 4 (c :: s)]
      rfl
    rw [ParseHorstFields_of_noEmpty _ (noEmptyField_set record 4 c s hne), hs]
    have hw2 : ∀ i, i < 19 →
        WellFormedAt i (((strippedRecord record).set 5 s).getD i []) = true := by
      intro i hi
      by_cases h5 : i = 5
      · subst h5
        rfl
      · rw [getD_set_ne _ 5 i s (Ne.symm h5)]
        exact hw i hi
    rw [decode_of_wf _ (by simp only [List.length_set]; exact hlen) hw2,
      decoded_set_packetTypes _ s (by omega), hr, hl]
end Horst
